import Mathlib

/-!
# Wocky: the stanza porter

A shallow embedding of `wocky/wocky-porter.c`.  The private structure of the
porter becomes a record, every C function becomes a function on that record,
and the objects the porter only talks to (the XMPP connection, the main loop,
cancellables, user callbacks) are represented by the trace of calls made to
them and by a few fields that hold their observable state.

Pointers are natural numbers handed out by an allocation counter, so that
pointer equality in the C code is equality of these numbers.  Hash tables are
association lists with at most one entry per key.

After the porter come `wocky_tls_session_verify_peer` of `wocky/wocky-tls.c`,
with what GnuTLS returns as its input, and the parts of the SASL authenticator
and of the roster that the statements need; the sources of these two are not
at hand, so they follow the specification and the tests.
-/

namespace Wocky

/-! ## Stanzas -/

/-- Modelled from the spec: the stanza kind (the enum WockyStanzaType is declared in
wocky-xmpp-stanza.h, which is not among the sources).  The spec lists message,
presence and iq; every other value of the enum is `OTHER`. -/
inductive WockyStanzaType where
  | MESSAGE
  | PRESENCE
  | IQ
  | OTHER (tag : Nat)
  deriving DecidableEq, Repr

/-- Modelled from the spec: the stanza sub-kind (WockyStanzaSubType, same header).
`NONE` is WOCKY_STANZA_SUB_TYPE_NONE, which a handler uses for "any". -/
inductive WockyStanzaSubType where
  | NONE
  | GET
  | SET
  | RESULT
  | ERROR
  | OTHER (tag : Nat)
  deriving DecidableEq, Repr

/-- The element tree of wocky-node.h: name, content, language, namespace quark,
attributes and children. -/
inductive WockyNode where
  | mk (name : String) (content : Option String) (language : Option String) (ns : Nat)
      (attributes : List (String × String)) (children : List WockyNode) : WockyNode
  deriving Repr

mutual
/-- Decidable equality of element trees. -/
def WockyNode.decEq : (a b : WockyNode) → Decidable (a = b)
  | .mk n c l q ats ch, .mk n' c' l' q' ats' ch' =>
    if h1 : n = n' then
      if h2 : c = c' then
        if h3 : l = l' then
          if h4 : q = q' then
            if h5 : ats = ats' then
              match WockyNode.decEqList ch ch' with
              | isTrue h6 => isTrue (by subst h1 h2 h3 h4 h5 h6; rfl)
              | isFalse h6 => isFalse (by intro h; injection h; contradiction)
            else isFalse (by intro h; injection h; contradiction)
          else isFalse (by intro h; injection h; contradiction)
        else isFalse (by intro h; injection h; contradiction)
      else isFalse (by intro h; injection h; contradiction)
    else isFalse (by intro h; injection h; contradiction)
/-- Decidable equality of lists of element trees. -/
def WockyNode.decEqList : (as bs : List WockyNode) → Decidable (as = bs)
  | [], [] => isTrue rfl
  | [], _ :: _ => isFalse (by intro h; cases h)
  | _ :: _, [] => isFalse (by intro h; cases h)
  | a :: as, b :: bs =>
    match WockyNode.decEq a b, WockyNode.decEqList as bs with
    | isTrue h1, isTrue h2 => isTrue (by subst h1 h2; rfl)
    | isFalse h1, _ => isFalse (by intro h; injection h; contradiction)
    | _, isFalse h2 => isFalse (by intro h; injection h; contradiction)
end

instance : DecidableEq WockyNode := WockyNode.decEq

/-- A stanza as the porter reads it: the pair that wocky_xmpp_stanza_get_type_info
returns, the three attributes the porter looks up with
wocky_xmpp_node_get_attribute ("from", "to", "id"; `none` is NULL), and the
element tree. -/
structure WockyXmppStanza where
  type : WockyStanzaType
  sub_type : WockyStanzaSubType
  from_ : Option String := none
  to_ : Option String := none
  id : Option String := none
  node : WockyNode := WockyNode.mk "" none none 0 [] []
  deriving DecidableEq, Repr

/-- The three out-parameters of wocky_decode_jid; `none` is NULL. -/
structure Jid where
  node : Option String := none
  domain : Option String := none
  resource : Option String := none
  deriving DecidableEq, Repr

/-- Modelled from the spec: wocky_decode_jid (wocky-utils.c is not among the sources)
decomposes "node@domain/resource": the node is what stands before the first
'@' when there is one, the resource what follows the first '/' after it, the
domain what is left. -/
def wocky_decode_jid (jid : String) : Jid :=
  let cs := jid.data
  let hasAt := cs.any (fun c => c = '@')
  let nodePart := cs.takeWhile (fun c => c ≠ '@')
  let afterNode := if hasAt then (cs.dropWhile (fun c => c ≠ '@')).drop 1 else cs
  let hasSlash := afterNode.any (fun c => c = '/')
  let domainPart := afterNode.takeWhile (fun c => c ≠ '/')
  let resourcePart := (afterNode.dropWhile (fun c => c ≠ '/')).drop 1
  { node := if hasAt then some (String.mk nodePart) else none
    domain := some (String.mk domainPart)
    resource := if hasSlash then some (String.mk resourcePart) else none }

/-- Modelled from the spec: wocky_strdiff (wocky-utils.c is not among the sources), the
NULL-safe string comparison behind the spec's "exact" matching: true when
the two differ, two NULLs being equal. -/
def wocky_strdiff (a b : Option String) : Bool :=
  decide (a ≠ b)

/-! ## Errors, callbacks and asynchronous results -/

/-- The GError values the porter builds or tests for; every other error of the
lower layers is `OTHER`. -/
inductive GError where
  | WOCKY_PORTER_ERROR_CLOSING
  | WOCKY_PORTER_ERROR_CLOSED
  | WOCKY_PORTER_ERROR_NOT_STARTED
  | WOCKY_PORTER_ERROR_NOT_IQ
  | G_IO_ERROR_CANCELLED
  | G_IO_ERROR_PENDING
  | WOCKY_XMPP_CONNECTION_ERROR_CLOSED
  | OTHER (domain : Nat) (code : Nat)
  deriving DecidableEq, Repr

/-- A GAsyncReadyCallback together with its user data.  `user tag resend` is a
callback of the caller: it is recorded in the trace and then calls
wocky_porter_send on each stanza of `resend` (the empty list for a callback
that does not call back into the porter).  `iq_sent_cb handler` is the porter's
own callback, with the address of the StanzaIqHandler as user data. -/
inductive GAsyncReadyCallback where
  | NULL
  | user (tag : Nat) (resend : List WockyXmppStanza)
  | iq_sent_cb (handler : Nat)
  deriving DecidableEq, Repr

/-- A GSimpleAsyncResult: its address, its callback, the error set on it and the
stanza stored with g_simple_async_result_set_op_res_gpointer. -/
structure GSimpleAsyncResult where
  ptr : Nat
  callback : GAsyncReadyCallback
  error : Option GError := none
  op_res : Option WockyXmppStanza := none
  deriving DecidableEq, Repr

/-- The sending_queue_elem structure.  `cancellable` is the address of the GCancellable
(`none` is NULL), `cancelled_sig_id` the signal connection (0 when there is none). -/
structure sending_queue_elem where
  ptr : Nat
  stanza : WockyXmppStanza
  cancellable : Option Nat
  result : GSimpleAsyncResult
  cancelled_sig_id : Nat := 0
  deriving DecidableEq, Repr

/-- A WockyPorterHandlerFunc: the porter's own handle_iq_reply, or a callback of the
caller identified by a tag. -/
inductive WockyPorterHandlerFunc where
  | handle_iq_reply
  | user (tag : Nat)
  deriving DecidableEq, Repr

/-- The StanzaHandler structure, with the address `ptr` of the allocation; `match_`
is the element tree of the template stanza. -/
structure StanzaHandler where
  ptr : Nat
  type : WockyStanzaType
  sub_type : WockyStanzaSubType
  node : Option String := none
  domain : Option String := none
  resource : Option String := none
  priority : Nat
  match_ : WockyNode
  callback : WockyPorterHandlerFunc
  deriving DecidableEq, Repr

/-- The StanzaIqHandler structure, with the address `ptr` of the allocation. -/
structure StanzaIqHandler where
  ptr : Nat
  result : GSimpleAsyncResult
  cancellable : Option Nat
  cancelled_sig_id : Nat := 0
  recipient : Option String
  deriving DecidableEq, Repr

/-- The callbacks the porter connects to the "cancelled" signal of a GCancellable,
with their user data (the address of the queue element or of the IQ handler). -/
inductive CancelCallback where
  | send_cancelled_cb (elem : Nat)
  | send_iq_cancelled_cb (handler : Nat)
  deriving DecidableEq, Repr

/-- One connection to the "cancelled" signal of the cancellable `cancellable`. -/
structure SignalConnection where
  sig_id : Nat
  cancellable : Nat
  callback : CancelCallback
  deriving DecidableEq, Repr

/-- What the porter does to the world around it, in the order it does it. -/
inductive Event where
  | send_stanza_async (stanza : WockyXmppStanza) (cancellable : Option Nat)
  | send_close_async
  | recv_stanza_async
  | complete (result : GSimpleAsyncResult)
  | handler_called (handler : Nat) (handled : Bool)
  | remote_closed_signal
  | remote_error_signal (error : GError)
  | g_warning
  | g_assert_failed
  deriving DecidableEq, Repr

/-! ## The porter -/

/-- The WockyPorterPrivate structure (first block of fields, under the names of the
source), followed by the state of the objects around the porter: the allocation
counter, the cancellables that have been cancelled, the connections to their
"cancelled" signal, the results waiting for an idle callback, the position of
the connection's id generator, the trace, and the state of the caller's
handlers. -/
structure WockyPorter (σ : Type) where
  sending_queue : List sending_queue_elem := []
  receive_cancellable : Option Nat := none
  close_result : Option GSimpleAsyncResult := none
  remote_closed : Bool := false
  local_closed : Bool := false
  close_cancellable : Option Nat := none
  handlers_by_id : List (Nat × StanzaHandler) := []
  handlers : List StanzaHandler := []
  next_handler_id : Nat := 0
  iq_reply_handlers : List (String × StanzaIqHandler) := []
  next_ptr : Nat := 1
  cancelled : List Nat := []
  connections : List SignalConnection := []
  next_sig_id : Nat := 1
  idle : List GSimpleAsyncResult := []
  next_id : Nat := 0
  trace : List Event := []
  user : σ

/-- The functions of the other modules that the porter calls: the JID decoder, the
template test wocky_xmpp_node_is_superset (applied to the stanza and to the
template tree of the handler), the id generator of the connection (the n-th
call of wocky_xmpp_connection_new_id returns `new_id n`), and the handler
callbacks of the caller, which return "handled" and may change their own
state. -/
structure Env (σ : Type) where
  decode_jid : String → Jid
  is_superset : WockyXmppStanza → WockyNode → Bool
  new_id : Nat → String
  user_handler : Nat → σ → WockyXmppStanza → Bool × σ

/-! ## GLib containers -/

/-- GLib's g_hash_table_lookup on an association list. -/
def g_hash_table_lookup {κ ν : Type} [DecidableEq κ] (t : List (κ × ν)) (k : κ) : Option ν :=
  (t.find? (fun e => decide (e.1 = k))).map (fun e => e.2)

/-- GLib's g_hash_table_remove: no entry under the key is left. -/
def g_hash_table_remove {κ ν : Type} [DecidableEq κ] (t : List (κ × ν)) (k : κ) : List (κ × ν) :=
  t.filter (fun e => decide (e.1 ≠ k))

/-- GLib's g_hash_table_insert: an entry already under the key is replaced. -/
def g_hash_table_insert {κ ν : Type} [DecidableEq κ] (t : List (κ × ν)) (k : κ) (v : ν) :
    List (κ × ν) :=
  (k, v) :: g_hash_table_remove t k

/-- GLib's g_list_insert_sorted: the list is walked while the comparison of the new
element with the current one is positive, and the new element is put before
the first one for which it is not (at the end when there is none). -/
def g_list_insert_sorted {α : Type} (func : α → α → Int) (data : α) : List α → List α
  | [] => [data]
  | x :: xs => if func data x > 0 then x :: g_list_insert_sorted func data xs else data :: x :: xs

/-- GLib's g_list_remove on handler pointers: the first element with that address goes. -/
def g_list_remove (l : List StanzaHandler) (data : Nat) : List StanzaHandler :=
  match l with
  | [] => []
  | x :: xs => if x.ptr = data then xs else x :: g_list_remove xs data

/-! ## Stanza handlers -/

/-- The function stanza_handler_new: the from pattern, when there is one, is decoded into
node, domain and resource. -/
def stanza_handler_new {σ : Type} (env : Env σ) (ptr : Nat) (type : WockyStanzaType)
    (sub_type : WockyStanzaSubType) (from_ : Option String) (priority : Nat)
    (stanza : WockyNode) (callback : WockyPorterHandlerFunc) : StanzaHandler :=
  let jid : Jid := match from_ with
    | some f => env.decode_jid f
    | none => {}
  { ptr := ptr, type := type, sub_type := sub_type, priority := priority,
    callback := callback, match_ := stanza,
    node := jid.node, domain := jid.domain, resource := jid.resource }

/-- The function compare_handler: "List is sorted by decreasing priority". -/
def compare_handler (a b : StanzaHandler) : Int :=
  if a.priority < b.priority then 1
  else if a.priority > b.priority then -1
  else 0

/-- The largest value of a guint, the type of a priority and of a handler id. -/
def G_MAXUINT : Nat := 4294967295

/-- Modelled from the spec: WOCKY_PORTER_HANDLER_PRIORITY_MAX (wocky-porter.h is not among
the sources), the "maximum priority": the largest guint. -/
def WOCKY_PORTER_HANDLER_PRIORITY_MAX : Nat := G_MAXUINT

/-- The function wocky_porter_register_handler.  `stanza` is the template built from the
variable arguments.  Returns the id of the registration and the new porter. -/
def wocky_porter_register_handler {σ : Type} (env : Env σ) (self : WockyPorter σ)
    (type : WockyStanzaType) (sub_type : WockyStanzaSubType) (from_ : Option String)
    (priority : Nat) (callback : WockyPorterHandlerFunc) (stanza : WockyNode) :
    Nat × WockyPorter σ :=
  let handler := stanza_handler_new env self.next_ptr type sub_type from_ priority stanza callback
  (self.next_handler_id,
   { self with
     next_ptr := self.next_ptr + 1
     handlers_by_id := g_hash_table_insert self.handlers_by_id self.next_handler_id handler
     handlers := g_list_insert_sorted compare_handler handler self.handlers
     next_handler_id := (self.next_handler_id + 1) % (G_MAXUINT + 1) })

/-- The function wocky_porter_unregister_handler: an id that is not in handlers_by_id gives
a g_warning and nothing else. -/
def wocky_porter_unregister_handler {σ : Type} (self : WockyPorter σ) (id : Nat) :
    WockyPorter σ :=
  match g_hash_table_lookup self.handlers_by_id id with
  | none => { self with trace := self.trace ++ [Event.g_warning] }
  | some handler =>
    { self with
      handlers := g_list_remove self.handlers handler.ptr
      handlers_by_id := g_hash_table_remove self.handlers_by_id id }

/-- The empty template built by the argument list that holds WOCKY_STANZA_END alone. -/
def WOCKY_STANZA_END (type : WockyStanzaType) : WockyNode :=
  WockyNode.mk (match type with
    | .MESSAGE => "message"
    | .PRESENCE => "presence"
    | .IQ => "iq"
    | .OTHER _ => "") none none 0 [] []

/-- The porter after wocky_porter_init. -/
def wocky_porter_init {σ : Type} (user : σ) : WockyPorter σ :=
  { user := user }

/-- The function wocky_porter_constructed: "Register the IQ reply handler", once for
results and once for errors. -/
def wocky_porter_constructed {σ : Type} (env : Env σ) (self : WockyPorter σ) : WockyPorter σ :=
  let p1 := (wocky_porter_register_handler env self .IQ .RESULT none
    WOCKY_PORTER_HANDLER_PRIORITY_MAX .handle_iq_reply (WOCKY_STANZA_END .IQ)).2
  (wocky_porter_register_handler env p1 .IQ .ERROR none
    WOCKY_PORTER_HANDLER_PRIORITY_MAX .handle_iq_reply (WOCKY_STANZA_END .IQ)).2

/-- The function wocky_porter_new: init followed by constructed. -/
def wocky_porter_new {σ : Type} (env : Env σ) (user : σ) : WockyPorter σ :=
  wocky_porter_constructed env (wocky_porter_init user)

/-! ## The send queue -/

/-- GLib's g_cancellable_is_cancelled; a NULL cancellable is never cancelled. -/
def g_cancellable_is_cancelled {σ : Type} (self : WockyPorter σ) (cancellable : Option Nat) : Bool :=
  match cancellable with
  | some c => decide (c ∈ self.cancelled)
  | none => false

/-- GLib's g_signal_handler_disconnect. -/
def g_signal_handler_disconnect {σ : Type} (self : WockyPorter σ) (sig_id : Nat) : WockyPorter σ :=
  { self with connections := self.connections.filter (fun c => decide (c.sig_id ≠ sig_id)) }

/-- GLib's g_cancellable_connect: when the cancellable has already been cancelled the
callback runs at once (`run` is the callback applied to its user data) and the
id is 0; otherwise the callback is connected to the "cancelled" signal. -/
def g_cancellable_connect {σ : Type} (self : WockyPorter σ) (cancellable : Nat)
    (callback : CancelCallback) (run : WockyPorter σ → WockyPorter σ) : Nat × WockyPorter σ :=
  if cancellable ∈ self.cancelled then (0, run self)
  else (self.next_sig_id,
    { self with
      connections := self.connections ++
        [{ sig_id := self.next_sig_id, cancellable := cancellable, callback := callback }]
      next_sig_id := self.next_sig_id + 1 })

/-- GLib's g_simple_async_result_complete_in_idle: the callback runs from the main loop. -/
def g_simple_async_result_complete_in_idle {σ : Type} (self : WockyPorter σ)
    (result : GSimpleAsyncResult) : WockyPorter σ :=
  { self with idle := self.idle ++ [result] }

/-- GLib's g_simple_async_report_error_in_idle: a new result that carries the error is
completed from the main loop. -/
def g_simple_async_report_error_in_idle {σ : Type} (self : WockyPorter σ)
    (callback : GAsyncReadyCallback) (error : GError) : WockyPorter σ :=
  g_simple_async_result_complete_in_idle { self with next_ptr := self.next_ptr + 1 }
    { ptr := self.next_ptr, callback := callback, error := some error }

/-- The function sending_queue_elem_free: the signal connection, if any, is dropped. -/
def sending_queue_elem_free {σ : Type} (self : WockyPorter σ) (elem : sending_queue_elem) :
    WockyPorter σ :=
  if elem.cancellable ≠ none ∧ elem.cancelled_sig_id ≠ 0 then
    g_signal_handler_disconnect self elem.cancelled_sig_id
  else self

/-- GLib's g_queue_remove on queue elements: the first one with that address goes. -/
def g_queue_remove (q : List sending_queue_elem) (data : Nat) : List sending_queue_elem :=
  match q with
  | [] => []
  | x :: xs => if x.ptr = data then xs else x :: g_queue_remove xs data

/-- The function send_head_stanza: the head of the queue is handed to the connection, after
its cancellable has been disconnected from the porter. -/
def send_head_stanza {σ : Type} (self : WockyPorter σ) : WockyPorter σ :=
  match self.sending_queue with
  | [] => self
  | elem :: rest =>
    let self1 : WockyPorter σ :=
      if elem.cancelled_sig_id ≠ 0 then
        { g_signal_handler_disconnect self elem.cancelled_sig_id with
          sending_queue := { elem with cancelled_sig_id := 0 } :: rest }
      else self
    { self1 with trace := self1.trace ++ [Event.send_stanza_async elem.stanza elem.cancellable] }

/-- The function send_cancelled_cb, with the address of the queue element as user data. -/
def send_cancelled_cb {σ : Type} (self : WockyPorter σ) (elem_ptr : Nat) : WockyPorter σ :=
  match self.sending_queue.find? (fun e => decide (e.ptr = elem_ptr)) with
  | none => self
  | some elem =>
    let self1 := g_simple_async_result_complete_in_idle self
      { elem.result with error := some GError.G_IO_ERROR_CANCELLED }
    let self2 := { self1 with sending_queue := g_queue_remove self1.sending_queue elem_ptr }
    sending_queue_elem_free self2 elem

/-- The function wocky_porter_send_async. -/
def wocky_porter_send_async {σ : Type} (self : WockyPorter σ) (stanza : WockyXmppStanza)
    (cancellable : Option Nat) (callback : GAsyncReadyCallback) : WockyPorter σ :=
  if self.close_result ≠ none then
    g_simple_async_report_error_in_idle self callback GError.WOCKY_PORTER_ERROR_CLOSING
  else
    let elem : sending_queue_elem :=
      { ptr := self.next_ptr, stanza := stanza, cancellable := cancellable,
        result := { ptr := self.next_ptr + 1, callback := callback } }
    let self1 := { self with
      next_ptr := self.next_ptr + 2
      sending_queue := self.sending_queue ++ [elem] }
    if self1.sending_queue.length = 1 then
      send_head_stanza self1
    else
      match cancellable with
      | none => self1
      | some c =>
        let r := g_cancellable_connect self1 c (CancelCallback.send_cancelled_cb elem.ptr)
          (fun p => send_cancelled_cb p elem.ptr)
        let q := r.2.sending_queue.map
          (fun e => if e.ptr = elem.ptr then { e with cancelled_sig_id := r.1 } else e)
        { r.2 with sending_queue := q }

/-- The function wocky_porter_send. -/
def wocky_porter_send {σ : Type} (self : WockyPorter σ) (stanza : WockyXmppStanza) :
    WockyPorter σ :=
  wocky_porter_send_async self stanza none GAsyncReadyCallback.NULL

/-- GLib's g_simple_async_result_complete on a result of the caller: the completion is
recorded and the caller's callback runs. -/
def g_simple_async_result_complete {σ : Type} (self : WockyPorter σ)
    (result : GSimpleAsyncResult) : WockyPorter σ :=
  let self1 := { self with trace := self.trace ++ [Event.complete result] }
  match result.callback with
  | .user _ resend => resend.foldl wocky_porter_send self1
  | _ => self1

/-- The function send_close. -/
def send_close {σ : Type} (self : WockyPorter σ) : WockyPorter σ :=
  { self with trace := self.trace ++ [Event.send_close_async] }

/-! ## IQ replies -/

/-- The function stanza_iq_handler_free: the handler is disconnected from its cancellable. -/
def stanza_iq_handler_free {σ : Type} (self : WockyPorter σ) (handler : StanzaIqHandler) :
    WockyPorter σ :=
  if handler.cancellable ≠ none then
    g_signal_handler_disconnect self handler.cancelled_sig_id
  else self

/-- GLib's g_hash_table_foreach_remove on iq_reply_handlers: the entries for which `func`
holds leave the table and their handlers are freed. -/
def iq_reply_handlers_foreach_remove {σ : Type} (self : WockyPorter σ)
    (func : String → StanzaIqHandler → Bool) : WockyPorter σ :=
  let removed := self.iq_reply_handlers.filter (fun e => func e.1 e.2)
  let self1 := { self with
    iq_reply_handlers := self.iq_reply_handlers.filter (fun e => !(func e.1 e.2)) }
  removed.foldl (fun p e => stanza_iq_handler_free p e.2) self1

/-- GLib's g_hash_table_remove on iq_reply_handlers: the entry leaves the table and its
handler is freed. -/
def iq_reply_handlers_remove {σ : Type} (self : WockyPorter σ) (id : String) : WockyPorter σ :=
  let self1 := { self with iq_reply_handlers := g_hash_table_remove self.iq_reply_handlers id }
  match g_hash_table_lookup self.iq_reply_handlers id with
  | some handler => stanza_iq_handler_free self1 handler
  | none => self1

/-- GLib's g_hash_table_insert on iq_reply_handlers: a handler already under the key is
freed. -/
def iq_reply_handlers_insert {σ : Type} (self : WockyPorter σ) (id : String)
    (handler : StanzaIqHandler) : WockyPorter σ :=
  let self1 := iq_reply_handlers_remove self id
  { self1 with iq_reply_handlers := (id, handler) :: self1.iq_reply_handlers }

/-- The function handle_iq_reply.  Returns what the C function returns and the new porter. -/
def handle_iq_reply {σ : Type} (self : WockyPorter σ) (reply : WockyXmppStanza) :
    Bool × WockyPorter σ :=
  match reply.id with
  | none => (false, self)
  | some id =>
    match g_hash_table_lookup self.iq_reply_handlers id with
    | none => (false, self)
    | some handler =>
      if handler.recipient ≠ none ∧ wocky_strdiff reply.from_ handler.recipient = true then
        (false, self)
      else
        let self1 :=
          if g_cancellable_is_cancelled self handler.cancellable then self
          else g_simple_async_result_complete self { handler.result with op_res := some reply }
        (true, iq_reply_handlers_remove self1 id)

/-! ## Dispatch -/

/-- A call of `handler->callback (self, stanza, handler->user_data)`; the call and what it
returned are recorded in the trace. -/
def call_handler {σ : Type} (env : Env σ) (self : WockyPorter σ) (handler : StanzaHandler)
    (stanza : WockyXmppStanza) : Bool × WockyPorter σ :=
  let r : Bool × WockyPorter σ :=
    match handler.callback with
    | .handle_iq_reply => handle_iq_reply self stanza
    | .user tag =>
      let u := env.user_handler tag self.user stanza
      (u.1, { self with user := u.2 })
  (r.1, { r.2 with trace := r.2.trace ++ [Event.handler_called handler.ptr r.1] })

/-- The loop of handle_stanza over the handler list; each `continue` of the source is a
call on the rest of the list, `goto out` is the return of the porter. -/
def handle_stanza_loop {σ : Type} (env : Env σ) (stanza : WockyXmppStanza) (jid : Jid) :
    List StanzaHandler → WockyPorter σ → WockyPorter σ
  | [], self => self
  | handler :: l, self =>
    if stanza.type ≠ handler.type then
      handle_stanza_loop env stanza jid l self
    else if stanza.sub_type ≠ handler.sub_type ∧ handler.sub_type ≠ WockyStanzaSubType.NONE then
      handle_stanza_loop env stanza jid l self
    else if handler.node ≠ none ∧ handler.domain = none then
      { self with trace := self.trace ++ [Event.g_assert_failed] }
    else if handler.node ≠ none ∧ wocky_strdiff jid.node handler.node = true then
      handle_stanza_loop env stanza jid l self
    else if handler.node ≠ none ∧ wocky_strdiff jid.domain handler.domain = true then
      handle_stanza_loop env stanza jid l self
    else if handler.node ≠ none ∧ handler.resource ≠ none ∧
        wocky_strdiff jid.resource handler.resource = true then
      handle_stanza_loop env stanza jid l self
    else if env.is_superset stanza handler.match_ = false then
      handle_stanza_loop env stanza jid l self
    else
      let r := call_handler env self handler stanza
      if r.1 = true then r.2 else handle_stanza_loop env stanza jid l r.2

/-- The function handle_stanza: the sender is decoded when the stanza has a from, and the
handler list is walked from the front. -/
def handle_stanza {σ : Type} (env : Env σ) (self : WockyPorter σ) (stanza : WockyXmppStanza) :
    WockyPorter σ :=
  let jid : Jid := match stanza.from_ with
    | some f => env.decode_jid f
    | none => {}
  handle_stanza_loop env stanza jid self.handlers self

/-! ## Sending IQs -/

/-- The function iq_sent_cb.  `res` is the result of the send, `handler_ptr` the address of
the StanzaIqHandler; the handler is read through the table that owns it. -/
def iq_sent_cb {σ : Type} (self : WockyPorter σ) (res : GSimpleAsyncResult)
    (handler_ptr : Nat) : WockyPorter σ :=
  match res.error with
  | none => self
  | some error =>
    if error = GError.G_IO_ERROR_CANCELLED then self
    else
      match self.iq_reply_handlers.find? (fun e => decide (e.2.ptr = handler_ptr)) with
      | none => self
      | some e =>
        let self1 := g_simple_async_result_complete self { e.2.result with error := some error }
        iq_reply_handlers_foreach_remove self1 (fun _ value => decide (value.ptr = handler_ptr))

/-- GLib's g_simple_async_result_complete on the result of a queue element, whose callback
is the caller's or iq_sent_cb. -/
def sending_queue_elem_complete {σ : Type} (self : WockyPorter σ)
    (result : GSimpleAsyncResult) : WockyPorter σ :=
  match result.callback with
  | .iq_sent_cb handler_ptr =>
    iq_sent_cb { self with trace := self.trace ++ [Event.complete result] } result handler_ptr
  | _ => g_simple_async_result_complete self result

/-- The number of stanzas the callback sends when it runs. -/
def callback_sends {σ : Type} (self : WockyPorter σ) (callback : GAsyncReadyCallback) : Nat :=
  match callback with
  | .NULL => 0
  | .user _ resend => resend.length
  | .iq_sent_cb handler_ptr =>
    match self.iq_reply_handlers.find? (fun e => decide (e.2.ptr = handler_ptr)) with
    | some (_, { result := { callback := .user _ resend, .. }, .. }) => resend.length
    | _ => 0

/-- A bound on the number of queue elements the failure loop of send_stanza_cb can meet:
those in the queue and those their callbacks add. -/
def sending_queue_work {σ : Type} (self : WockyPorter σ) : Nat :=
  (self.sending_queue.map (fun e => 1 + callback_sends self e.result.callback)).sum

/-- The failure loop of send_stanza_cb: while the queue has a head, it is popped, failed
with the error, completed and freed. -/
def send_stanza_cb_fail {σ : Type} (error : GError) : Nat → WockyPorter σ → WockyPorter σ
  | 0, self => self
  | n + 1, self =>
    match self.sending_queue with
    | [] => self
    | elem :: rest =>
      let self1 := sending_queue_elem_complete { self with sending_queue := rest }
        { elem.result with error := some error }
      send_stanza_cb_fail error n (sending_queue_elem_free self1 elem)

/-- The function send_stanza_cb; `error` is what wocky_xmpp_connection_send_stanza_finish
reports (`none` when the send succeeded). -/
def send_stanza_cb {σ : Type} (self : WockyPorter σ) (error : Option GError) : WockyPorter σ :=
  let flushed (p : WockyPorter σ) : WockyPorter σ :=
    if p.close_result ≠ none ∧ p.sending_queue.length = 0 then send_close p else p
  match error with
  | some e => flushed (send_stanza_cb_fail e (sending_queue_work self) self)
  | none =>
    match self.sending_queue with
    | [] => { self with trace := self.trace ++ [Event.g_assert_failed] }
    | elem :: rest =>
      let self1 := sending_queue_elem_complete { self with sending_queue := rest } elem.result
      let self2 := sending_queue_elem_free self1 elem
      flushed (if self2.sending_queue.length > 0 then send_head_stanza self2 else self2)

/-- The main loop runs the oldest idle callback. -/
def idle_dispatch {σ : Type} (self : WockyPorter σ) : WockyPorter σ :=
  match self.idle with
  | [] => self
  | result :: rest => sending_queue_elem_complete { self with idle := rest } result

/-- The function send_iq_cancelled_cb; `handler` is the StanzaIqHandler the user data points
to. -/
def send_iq_cancelled_cb {σ : Type} (self : WockyPorter σ) (cancellable : Nat)
    (handler : StanzaIqHandler) : WockyPorter σ :=
  let self1 := g_simple_async_result_complete self
    { handler.result with error := some GError.G_IO_ERROR_CANCELLED }
  iq_reply_handlers_foreach_remove self1
    (fun _ value => decide (value.cancellable = some cancellable))

/-- The do-while loop of wocky_porter_send_iq_async: ids are drawn from the connection
until one is not a key of the table.  `fuel` bounds the number of draws; the
result is the id and the new position of the generator. -/
def new_unique_id {σ : Type} (env : Env σ) (table : List (String × StanzaIqHandler)) :
    Nat → Nat → Option (String × Nat)
  | 0, _ => none
  | fuel + 1, n =>
    if g_hash_table_lookup table (env.new_id n) ≠ none then new_unique_id env table fuel (n + 1)
    else some (env.new_id n, n + 1)

/-- The function wocky_porter_send_iq_async.  Returns the stanza as the call leaves it
(its id is overwritten) and the new porter; `none` when `fuel` draws of the id
generator did not give a free id. -/
def wocky_porter_send_iq_async {σ : Type} (env : Env σ) (fuel : Nat) (self : WockyPorter σ)
    (stanza : WockyXmppStanza) (cancellable : Option Nat) (callback : GAsyncReadyCallback) :
    Option (WockyXmppStanza × WockyPorter σ) :=
  if stanza.type ≠ WockyStanzaType.IQ then
    some (stanza,
      g_simple_async_report_error_in_idle self callback GError.WOCKY_PORTER_ERROR_NOT_IQ)
  else if stanza.sub_type ≠ WockyStanzaSubType.GET ∧ stanza.sub_type ≠ WockyStanzaSubType.SET then
    some (stanza,
      g_simple_async_report_error_in_idle self callback GError.WOCKY_PORTER_ERROR_NOT_IQ)
  else
    match new_unique_id env self.iq_reply_handlers fuel self.next_id with
    | none => none
    | some (id, next_id) =>
      let stanza1 := { stanza with id := some id }
      let handler : StanzaIqHandler :=
        { ptr := self.next_ptr
          result := { ptr := self.next_ptr + 1, callback := callback }
          cancellable := cancellable
          recipient := stanza.to_ }
      let self1 := { self with next_id := next_id, next_ptr := self.next_ptr + 2 }
      let r : Nat × WockyPorter σ :=
        match cancellable with
        | none => (0, self1)
        | some c =>
          g_cancellable_connect self1 c (CancelCallback.send_iq_cancelled_cb handler.ptr)
            (fun p => send_iq_cancelled_cb p c handler)
      let self2 := iq_reply_handlers_insert r.2 id { handler with cancelled_sig_id := r.1 }
      some (stanza1,
        wocky_porter_send_async self2 stanza1 cancellable (GAsyncReadyCallback.iq_sent_cb handler.ptr))

/-! ## Cancellation -/

/-- The callback of a connection to the "cancelled" signal, applied to its user data.  The
StanzaIqHandler is read through the table that owns it. -/
def run_cancel_callback {σ : Type} (self : WockyPorter σ) (conn : SignalConnection) :
    WockyPorter σ :=
  match conn.callback with
  | .send_cancelled_cb elem_ptr => send_cancelled_cb self elem_ptr
  | .send_iq_cancelled_cb handler_ptr =>
    match self.iq_reply_handlers.find? (fun e => decide (e.2.ptr = handler_ptr)) with
    | some e => send_iq_cancelled_cb self conn.cancellable e.2
    | none => self

/-- GLib's emission of the "cancelled" signal: the handlers connected when the emission
starts are called in the order of their connection; one that has been
disconnected in the meantime is not called. -/
def g_signal_emit_cancelled {σ : Type} : List SignalConnection → WockyPorter σ → WockyPorter σ
  | [], self => self
  | conn :: rest, self =>
    if self.connections.any (fun c => decide (c.sig_id = conn.sig_id)) then
      g_signal_emit_cancelled rest (run_cancel_callback self conn)
    else g_signal_emit_cancelled rest self

/-- GLib's g_cancellable_cancel: nothing happens when the cancellable is already cancelled;
otherwise it becomes cancelled and the "cancelled" signal is emitted. -/
def g_cancellable_cancel {σ : Type} (self : WockyPorter σ) (cancellable : Nat) : WockyPorter σ :=
  if cancellable ∈ self.cancelled then self
  else
    g_signal_emit_cancelled
      (self.connections.filter (fun c => decide (c.cancellable = cancellable)))
      { self with cancelled := cancellable :: self.cancelled }

/-! ## Receiving and closing -/

/-- The function complete_close.  Its callers test that close_result is not NULL. -/
def complete_close {σ : Type} (self : WockyPorter σ) : WockyPorter σ :=
  match self.close_result with
  | none => { self with trace := self.trace ++ [Event.g_warning] }
  | some result =>
    let result1 : GSimpleAsyncResult :=
      if g_cancellable_is_cancelled self self.close_cancellable then
        { result with error := some GError.G_IO_ERROR_CANCELLED }
      else result
    let self1 := g_simple_async_result_complete { self with close_result := some result1 } result1
    { self1 with close_result := none, close_cancellable := none }

/-- The function receive_stanza. -/
def receive_stanza {σ : Type} (self : WockyPorter σ) : WockyPorter σ :=
  { self with trace := self.trace ++ [Event.recv_stanza_async] }

/-- The function stanza_received_cb; `res` is what
wocky_xmpp_connection_recv_stanza_finish reports, a stanza or an error. -/
def stanza_received_cb {σ : Type} (env : Env σ) (self : WockyPorter σ)
    (res : Except GError WockyXmppStanza) : WockyPorter σ :=
  match res with
  | .error error =>
    let self1 : WockyPorter σ :=
      if error = GError.WOCKY_XMPP_CONNECTION_ERROR_CLOSED then
        let self2 := if self.close_result ≠ none then complete_close self else self
        { self2 with trace := self2.trace ++ [Event.remote_closed_signal] }
      else
        { self with trace := self.trace ++ [Event.remote_error_signal error] }
    { self1 with receive_cancellable := none, remote_closed := true }
  | .ok stanza => receive_stanza (handle_stanza env self stanza)

/-- The function wocky_porter_start. -/
def wocky_porter_start {σ : Type} (self : WockyPorter σ) : WockyPorter σ :=
  if self.receive_cancellable ≠ none then self
  else
    receive_stanza { self with
      receive_cancellable := some self.next_ptr
      next_ptr := self.next_ptr + 1 }

/-- The function close_sent_cb; `error` is what wocky_xmpp_connection_send_close_finish
reports (`none` when the close was sent). -/
def close_sent_cb {σ : Type} (self : WockyPorter σ) (error : Option GError) : WockyPorter σ :=
  let self1 := { self with local_closed := true }
  let out (p : WockyPorter σ) : WockyPorter σ :=
    if p.close_result ≠ none then complete_close p else p
  match error with
  | some e =>
    match self1.close_result with
    | some result => out { self1 with close_result := some { result with error := some e } }
    | none => out { self1 with trace := self1.trace ++ [Event.g_warning] }
  | none =>
    if g_cancellable_is_cancelled self1 self1.close_cancellable = false ∧
        self1.remote_closed = false then self1
    else out self1

/-- The function wocky_porter_close_async. -/
def wocky_porter_close_async {σ : Type} (self : WockyPorter σ) (cancellable : Option Nat)
    (callback : GAsyncReadyCallback) : WockyPorter σ :=
  if self.local_closed = true then
    g_simple_async_report_error_in_idle self callback GError.WOCKY_PORTER_ERROR_CLOSED
  else if self.receive_cancellable = none ∧ self.remote_closed = false then
    g_simple_async_report_error_in_idle self callback GError.WOCKY_PORTER_ERROR_NOT_STARTED
  else if self.close_result ≠ none then
    g_simple_async_report_error_in_idle self callback GError.G_IO_ERROR_PENDING
  else
    let self1 := { self with
      close_result := some { ptr := self.next_ptr, callback := callback }
      close_cancellable := cancellable
      next_ptr := self.next_ptr + 1 }
    if self1.sending_queue.length > 0 then self1 else send_close self1



/-! ## TLS: the verification of the peer (wocky-tls.c) -/

/-- The values of WockyTLSCertStatus that wocky_tls_session_verify_peer assigns (the enum is
declared in wocky-tls.h, which is not among the sources). -/
inductive WockyTLSCertStatus where
  | WOCKY_TLS_CERT_OK
  | WOCKY_TLS_CERT_NAME_MISMATCH
  | WOCKY_TLS_CERT_REVOKED
  | WOCKY_TLS_CERT_SIGNER_UNKNOWN
  | WOCKY_TLS_CERT_SIGNER_UNAUTHORISED
  | WOCKY_TLS_CERT_INSECURE
  | WOCKY_TLS_CERT_NOT_ACTIVE
  | WOCKY_TLS_CERT_EXPIRED
  | WOCKY_TLS_CERT_INVALID
  | WOCKY_TLS_CERT_UNKNOWN_ERROR
  deriving DecidableEq, Repr

/-- The constants of gnutls.h that the function names: the bits of
gnutls_certificate_status_t and two return codes.  They are parameters of the
model. -/
structure Gnutls where
  GNUTLS_CERT_REVOKED : Nat
  GNUTLS_CERT_NOT_ACTIVATED : Nat
  GNUTLS_CERT_EXPIRED : Nat
  GNUTLS_CERT_SIGNER_NOT_FOUND : Nat
  GNUTLS_CERT_SIGNER_NOT_CA : Nat
  GNUTLS_CERT_INSECURE_ALGORITHM : Nat
  GNUTLS_CERT_INVALID : Nat
  GNUTLS_E_SUCCESS : Int
  GNUTLS_E_CERTIFICATE_ERROR : Int
  deriving DecidableEq, Repr

/-- What gnutls_certificate_type_get returns: the two types the function knows, or another
one. -/
inductive gnutls_certificate_type_t where
  | GNUTLS_CRT_X509
  | GNUTLS_CRT_OPENPGP
  | OTHER (tag : Nat)
  deriving DecidableEq, Repr

/-- What the calls into GnuTLS return for a session: gnutls_certificate_verify_peers2 (its
return value and the value of `_stat` after the call, 0 when the call leaves it
alone), gnutls_certificate_type_get, and for each certificate type the return
values of the init call and of the hostname check. -/
structure WockyTLSSession where
  verify_peers2 : Int × Nat
  certificate_type : gnutls_certificate_type_t
  x509_crt_init : Int
  x509_crt_check_hostname : String → Int
  openpgp_crt_init : Int
  openpgp_crt_check_hostname : String → Int

/-- The table status_map of wocky_tls_session_verify_peer, "gnutls cert error conditions in
descending order of noteworthiness"; the entry `~((long) 0)` is the word with
all bits set, and the entry with 0 ends the table. -/
def status_map (g : Gnutls) : List (Nat × WockyTLSCertStatus) :=
  [(g.GNUTLS_CERT_REVOKED, .WOCKY_TLS_CERT_REVOKED),
   (g.GNUTLS_CERT_NOT_ACTIVATED, .WOCKY_TLS_CERT_NOT_ACTIVE),
   (g.GNUTLS_CERT_EXPIRED, .WOCKY_TLS_CERT_EXPIRED),
   (g.GNUTLS_CERT_SIGNER_NOT_FOUND, .WOCKY_TLS_CERT_SIGNER_UNKNOWN),
   (g.GNUTLS_CERT_SIGNER_NOT_CA, .WOCKY_TLS_CERT_SIGNER_UNAUTHORISED),
   (g.GNUTLS_CERT_INSECURE_ALGORITHM, .WOCKY_TLS_CERT_INSECURE),
   (g.GNUTLS_CERT_INVALID, .WOCKY_TLS_CERT_INVALID),
   (4294967295, .WOCKY_TLS_CERT_UNKNOWN_ERROR),
   (0, .WOCKY_TLS_CERT_OK)]

/-- The loop `for (x = 0; status_map[x].gnutls != 0; x++)` of
wocky_tls_session_verify_peer: the status of the first entry that has a bit in
common with `_stat`, or `none` when the loop ends without a `break`. -/
def status_map_loop (_stat : Nat) : List (Nat × WockyTLSCertStatus) → Option WockyTLSCertStatus
  | [] => none
  | (gnutls, wocky) :: rest =>
    if gnutls = 0 then none
    else if _stat &&& gnutls ≠ 0 then some wocky
    else status_map_loop _stat rest

/-- The first half of wocky_tls_session_verify_peer, up to `DEBUG ("peer_name_ok: ...")`:
the values of `rval` and `peer_name_ok` after the check of the peer name, which
is made only when gnutls_certificate_verify_peers2 succeeded and a peer name
was given. -/
def peer_name_check (g : Gnutls) (session : WockyTLSSession) (peername : Option String) :
    Int × Bool :=
  let rval := session.verify_peers2.1
  match peername with
  | none => (rval, true)
  | some name =>
    if rval = g.GNUTLS_E_SUCCESS then
      match session.certificate_type with
      | .GNUTLS_CRT_X509 =>
        if session.x509_crt_init = g.GNUTLS_E_SUCCESS then
          let rval1 : Int :=
            if session.x509_crt_check_hostname name = 0 then -1 else g.GNUTLS_E_SUCCESS
          (rval1, decide (rval1 = g.GNUTLS_E_SUCCESS))
        else (session.x509_crt_init, true)
      | .GNUTLS_CRT_OPENPGP =>
        if session.openpgp_crt_init = g.GNUTLS_E_SUCCESS then
          let rval1 : Int :=
            if session.openpgp_crt_check_hostname name = 0 then -1 else g.GNUTLS_E_SUCCESS
          (rval1, decide (rval1 = g.GNUTLS_E_SUCCESS))
        else (session.openpgp_crt_init, true)
      | .OTHER _ => (g.GNUTLS_E_CERTIFICATE_ERROR, false)
    else (rval, true)

/-- The function wocky_tls_session_verify_peer: the return value and the status written to
`*status`.  `_stat` is a guint; the argument `flags` only sets the verify flags
of the credentials, whose effect is in what the session returns. -/
def wocky_tls_session_verify_peer (g : Gnutls) (session : WockyTLSSession)
    (peername : Option String) : Int × WockyTLSCertStatus :=
  let _stat := session.verify_peers2.2 % 4294967296
  let r := peer_name_check g session peername
  if r.2 = false then (r.1, .WOCKY_TLS_CERT_NAME_MISMATCH)
  else
    match status_map_loop _stat (status_map g) with
    | some status => (g.GNUTLS_E_CERTIFICATE_ERROR, status)
    | none => (r.1, .WOCKY_TLS_CERT_OK)



/-! ## SASL: the selection of the mechanism -/

/-- The two codes of WOCKY_SASL_AUTH_ERROR that the tests of wocky-test-sasl-auth.c expect
from the selection of the mechanism. -/
inductive WockySaslAuthError where
  | WOCKY_SASL_AUTH_ERROR_NO_SUPPORTED_MECHANISMS
  | WOCKY_SASL_AUTH_ERROR_SASL_NOT_SUPPORTED
  deriving DecidableEq, Repr

/-- Modelled from the spec: the mechanisms that the client implements, in its order of
preference ("[DIGEST-MD5, PLAIN, …]"; wocky-sasl-auth.c is not among the
sources). -/
def sasl_implemented_mechanisms : List String := ["DIGEST-MD5", "PLAIN"]

/-- Modelled from the spec: the selection of the mechanism in wocky_sasl_auth_authenticate
(wocky-sasl-auth.c is not among the sources).  `mechanisms` holds the names in
the `<mechanisms>` element of the features stanza, `none` when the stanza has no
such element.  "Intersect with the client's implemented set.  Apply policy: if
allow_cleartext == false, remove PLAIN.  From the remaining ordered preference
pick the first; if empty, fail with NoSupportedMechanisms.  If the features
stanza contains no <mechanisms> at all, fail with SaslNotSupported." -/
def wocky_sasl_auth_select_mechanism (mechanisms : Option (List String))
    (allow_plain : Bool) : Except WockySaslAuthError String :=
  match mechanisms with
  | none => .error .WOCKY_SASL_AUTH_ERROR_SASL_NOT_SUPPORTED
  | some offered =>
    let common := sasl_implemented_mechanisms.filter (fun m => decide (m ∈ offered))
    let remaining := if allow_plain = false then common.filter (fun m => decide (m ≠ "PLAIN"))
      else common
    match remaining with
    | [] => .error .WOCKY_SASL_AUTH_ERROR_NO_SUPPORTED_MECHANISMS
    | m :: _ => .ok m

/-- The values of ServerProblem that the table of tests uses (the enum is declared in
wocky-test-sasl-auth-server.h, which is not among the sources). -/
inductive ServerProblem where
  | SERVER_PROBLEM_NO_PROBLEM
  | SERVER_PROBLEM_NO_SASL
  deriving DecidableEq, Repr

/-- The structure test_t of wocky-test-sasl-auth.c; `code` is `none` where the test expects
success (domain 0). -/
structure test_t where
  description : String
  mech : Option String
  allow_plain : Bool
  code : Option WockySaslAuthError
  problem : ServerProblem
  deriving DecidableEq, Repr

/-- The table `tests` of main in wocky-test-sasl-auth.c. -/
def tests : List test_t :=
  [{ description := "/xmpp-sasl/normal-auth", mech := none, allow_plain := true,
     code := none, problem := .SERVER_PROBLEM_NO_PROBLEM },
   { description := "/xmpp-sasl/no-plain", mech := none, allow_plain := false,
     code := none, problem := .SERVER_PROBLEM_NO_PROBLEM },
   { description := "/xmpp-sasl/only-plain", mech := some "PLAIN", allow_plain := true,
     code := none, problem := .SERVER_PROBLEM_NO_PROBLEM },
   { description := "/xmpp-sasl/only-digest-md5", mech := some "DIGEST-MD5",
     allow_plain := true, code := none, problem := .SERVER_PROBLEM_NO_PROBLEM },
   { description := "/xmpp-sasl/no-supported-mechs", mech := some "NONSENSE",
     allow_plain := true, code := some .WOCKY_SASL_AUTH_ERROR_NO_SUPPORTED_MECHANISMS,
     problem := .SERVER_PROBLEM_NO_PROBLEM },
   { description := "/xmpp-sasl/refuse-plain-only", mech := some "PLAIN",
     allow_plain := false, code := some .WOCKY_SASL_AUTH_ERROR_NO_SUPPORTED_MECHANISMS,
     problem := .SERVER_PROBLEM_NO_PROBLEM },
   { description := "/xmpp-sasl/no-sasl-support", mech := none, allow_plain := true,
     code := some .WOCKY_SASL_AUTH_ERROR_SASL_NOT_SUPPORTED,
     problem := .SERVER_PROBLEM_NO_SASL }]

/-! ## Roster: the fetch -/

/-- Modelled from the spec: the subscription of a contact, "subscription ∈ {none, to, from,
both, remove}" (wocky-roster.h is not among the sources). -/
inductive WockyRosterSubscriptionType where
  | NONE
  | TO
  | FROM
  | BOTH
  | REMOVE
  deriving DecidableEq, Repr

/-- Modelled from the spec: a contact, "(bare_jid, name?, subscription, groups:set<string>)"
(wocky-contact.c is not among the sources).  The groups are kept as the list of
the names; they are compared as a set. -/
structure WockyContact where
  jid : String
  name : Option String
  subscription : WockyRosterSubscriptionType
  groups : List String
  deriving DecidableEq, Repr

/-- Modelled from the spec: wocky_contact_equal, as the roster test uses it: same jid, name
and subscription, and the same groups whatever their order. -/
def wocky_contact_equal (a b : WockyContact) : Bool :=
  decide (a.jid = b.jid) && decide (a.name = b.name) &&
  decide (a.subscription = b.subscription) &&
  a.groups.all (fun g => decide (g ∈ b.groups)) && b.groups.all (fun g => decide (g ∈ a.groups))

/-- Modelled from the spec: the roster's contact map, "a mapping bare_jid → Contact".  A
contact put under a jid that is already a key takes the place of the one that
was there. -/
def roster_insert (contacts : List (String × WockyContact)) (contact : WockyContact) :
    List (String × WockyContact) :=
  match contacts with
  | [] => [(contact.jid, contact)]
  | (jid, c) :: rest =>
    if jid = contact.jid then (jid, contact) :: rest
    else (jid, c) :: roster_insert rest contact

/-- Modelled from the spec: what wocky_roster_fetch_roster_async leaves in the roster when
the IQ result arrives (wocky-roster.c is not among the sources): "On result,
replaces the contact map with the items carried in the reply".  `items` are the
`<item>` elements of the reply in the order of the stanza, each one read as
its jid, name, subscription and groups. -/
def wocky_roster_fetch_roster (items : List WockyContact) : List (String × WockyContact) :=
  items.foldl roster_insert []

/-- Modelled from the spec: wocky_roster_get_contact, "get_contact(bare_jid) → Contact?". -/
def wocky_roster_get_contact (roster : List (String × WockyContact)) (jid : String) :
    Option WockyContact :=
  (roster.find? (fun e => decide (e.1 = jid))).map (fun e => e.2)

/-- Modelled from the spec: wocky_roster_get_all_contacts, "all_contacts() →
list<Contact>". -/
def wocky_roster_get_all_contacts (roster : List (String × WockyContact)) : List WockyContact :=
  roster.map (fun e => e.2)



/-! ## Vocabulary of the statements -/

/-- An environment for concrete runs: the JID decoder of the spec, a template test that
accepts every stanza, an id generator that returns "x", "xx", "xxx", ... and
caller's handlers that never claim a stanza. -/
def plain_env : Env Unit :=
  { decode_jid := wocky_decode_jid
    is_superset := fun _ _ => true
    new_id := fun n => String.mk (List.replicate (n + 1) 'x')
    user_handler := fun _ u _ => (false, u) }

/-- The arguments of one call of wocky_porter_register_handler. -/
structure Registration where
  type : WockyStanzaType
  sub_type : WockyStanzaSubType
  from_ : Option String := none
  priority : Nat
  callback : WockyPorterHandlerFunc
  stanza : WockyNode
  deriving DecidableEq, Repr

/-- The registration of the caller's callback `tag` with an empty template. -/
def Registration.user (type : WockyStanzaType) (sub_type : WockyStanzaSubType)
    (from_ : Option String) (priority : Nat) (tag : Nat) : Registration :=
  { type := type, sub_type := sub_type, from_ := from_, priority := priority,
    callback := .user tag, stanza := WOCKY_STANZA_END type }

/-- The StanzaHandler that a registration allocates at address `ptr`. -/
def Registration.handler {σ : Type} (env : Env σ) (ptr : Nat) (r : Registration) : StanzaHandler :=
  stanza_handler_new env ptr r.type r.sub_type r.from_ r.priority r.stanza r.callback

/-- One call of wocky_porter_register_handler, the returned id dropped. -/
def register_one {σ : Type} (env : Env σ) (self : WockyPorter σ) (r : Registration) :
    WockyPorter σ :=
  (wocky_porter_register_handler env self r.type r.sub_type r.from_ r.priority r.callback
    r.stanza).2

/-- A sequence of calls of wocky_porter_register_handler, in the order of the list. -/
def register_all {σ : Type} (env : Env σ) (self : WockyPorter σ) :
    List Registration → WockyPorter σ
  | [] => self
  | r :: rs => register_all env (register_one env self r) rs

/-- The handler list is sorted by decreasing priority (ties allowed). -/
def handlers_sorted (l : List StanzaHandler) : Prop :=
  l.Pairwise (fun a b => b.priority ≤ a.priority)

/-- The addresses in the handler list are distinct and below the allocation counter. -/
def handlers_fresh {σ : Type} (self : WockyPorter σ) : Prop :=
  (self.handlers.map (fun h => h.ptr)).Nodup ∧ ∀ h ∈ self.handlers, h.ptr < self.next_ptr


/-- The built-in handler for IQ results, as wocky_porter_constructed allocates it. -/
def iq_result_handler {σ : Type} (env : Env σ) : StanzaHandler :=
  stanza_handler_new env 1 .IQ .RESULT none WOCKY_PORTER_HANDLER_PRIORITY_MAX
    (WOCKY_STANZA_END .IQ) .handle_iq_reply

/-- The built-in handler for IQ errors, as wocky_porter_constructed allocates it. -/
def iq_error_handler {σ : Type} (env : Env σ) : StanzaHandler :=
  stanza_handler_new env 2 .IQ .ERROR none WOCKY_PORTER_HANDLER_PRIORITY_MAX
    (WOCKY_STANZA_END .IQ) .handle_iq_reply

/-- The handler calls recorded in a trace: address of the handler and what it returned. -/
def handler_calls (trace : List Event) : List (Nat × Bool) :=
  trace.filterMap (fun e => match e with
    | .handler_called h b => some (h, b)
    | _ => none)

/-- The sender of a stanza as handle_stanza decodes it: three NULLs without a from. -/
def sender {σ : Type} (env : Env σ) (stanza : WockyXmppStanza) : Jid :=
  match stanza.from_ with
  | some f => env.decode_jid f
  | none => {}

/-- The match of the spec's dispatch algorithm between a handler, given by the arguments
`H` of its registration, and an inbound stanza `S`, rule by rule: (1) the
kinds are equal; (2) the sub-kind of H is "any" (WOCKY_STANZA_SUB_TYPE_NONE) or
that of S; (3) if the from of H is set, the domain of H is the domain of S, the
node of H is unset or the node of S, and the resource of H is unset or the
resource of S, both from being decoded into (node, domain, resource); (4) the
template of H is a subset of S.  It follows the words of the spec, not the
tests that handle_stanza makes. -/
def spec_matches {σ : Type} (env : Env σ) (H : Registration) (S : WockyXmppStanza) : Bool :=
  decide (H.type = S.type) &&
  decide (H.sub_type = WockyStanzaSubType.NONE ∨ H.sub_type = S.sub_type) &&
  (match H.from_ with
    | none => true
    | some f =>
      decide ((env.decode_jid f).domain = (sender env S).domain ∧
        ((env.decode_jid f).node = none ∨ (env.decode_jid f).node = (sender env S).node) ∧
        ((env.decode_jid f).resource = none ∨
          (env.decode_jid f).resource = (sender env S).resource))) &&
  env.is_superset S H.stanza

/-- An environment whose caller's handlers leave a record of their runs: the state of the
caller is the list of the tags of the callbacks that ran, in the order of the
runs, and a callback with an odd tag claims the stanza (returns TRUE).  The rest
is as in `plain_env`. -/
def recording_env : Env (List Nat) :=
  { decode_jid := wocky_decode_jid
    is_superset := fun _ _ => true
    new_id := fun n => String.mk (List.replicate (n + 1) 'x')
    user_handler := fun tag u _ => (decide (tag % 2 = 1), u ++ [tag]) }

/-- An environment whose id generator repeats itself: the draws 0, 1 and 2 all give "x",
the draws after them "y", "yy", ...  The rest is as in `plain_env`. -/
def repeating_env : Env Unit :=
  { decode_jid := wocky_decode_jid
    is_superset := fun _ _ => true
    new_id := fun n => if n < 3 then "x" else String.mk (List.replicate (n - 2) 'y')
    user_handler := fun _ u _ => (false, u) }


/-- The idle queue of `p` is that of `self` followed by results none of which carries the
NOT_IQ error. -/
def idle_ext {σ : Type} (self p : WockyPorter σ) : Prop :=
  ∃ extra : List GSimpleAsyncResult, p.idle = self.idle ++ extra ∧
    ∀ r ∈ extra, r.error ≠ some GError.WOCKY_PORTER_ERROR_NOT_IQ


/-- The trace of `p` is that of `self` followed by further events. -/
def trace_ext {σ : Type} (self p : WockyPorter σ) : Prop :=
  ∃ rest : List Event, p.trace = self.trace ++ rest


/-- A new porter on which one IQ get, addressed to `to_`, has been sent with
wocky_porter_send_iq_async, without cancellable and with the caller's callback 2;
the generator gives it the id "x". -/
def porter_with_pending_iq (to_ : Option String) : WockyPorter Unit :=
  match wocky_porter_send_iq_async plain_env 1 (wocky_porter_new plain_env ())
      { type := .IQ, sub_type := .GET, to_ := to_ } none (.user 2 []) with
  | some r => r.2
  | none => wocky_porter_new plain_env ()

/-- The entry of the pending IQ of `porter_with_pending_iq`. -/
def pending_iq_handler (to_ : Option String) : StanzaIqHandler :=
  { ptr := 3, result := { ptr := 4, callback := .user 2 [] }, cancellable := none,
    recipient := to_ }


/-- The completions recorded in a trace: address of the result and the error it carries. -/
def completions (trace : List Event) : List (Nat × Option GError) :=
  trace.filterMap (fun e => match e with
    | .complete r => some (r.ptr, r.error)
    | _ => none)

/-- A new porter on which a message with cancellable 100 and the caller's callback 1 has
been sent (it is handed to the connection at once: queue element 3, result 4),
and then an IQ get to "room@chat" without cancellable and with the caller's
callback 2 (handler 5, result 6, queue element 7 with result 8, id "x"), which
waits in the queue behind the message. -/
def porter_with_queued_iq : WockyPorter Unit :=
  match wocky_porter_send_iq_async plain_env 1
      (wocky_porter_send_async (wocky_porter_new plain_env ())
        { type := .MESSAGE, sub_type := .NONE } (some 100) (.user 1 []))
      { type := .IQ, sub_type := .GET, to_ := some "room@chat" } none (.user 2 []) with
  | some r => r.2
  | none => wocky_porter_new plain_env ()


/-- A message stanza with the given id. -/
def message (id : String) : WockyXmppStanza :=
  { type := .MESSAGE, sub_type := .NONE, id := some id }

/-- The stanzas handed to wocky_xmpp_connection_send_stanza_async, in the order of the
trace. -/
def handed (trace : List Event) : List WockyXmppStanza :=
  trace.filterMap (fun e => match e with
    | .send_stanza_async s _ => some s
    | _ => none)

/-- One wocky_porter_send_iq_async call of an IQ get with the caller's callback `tag` on the
environment for concrete runs; the porter is returned. -/
def send_iq_get (self : WockyPorter Unit) (cancellable : Option Nat) (tag : Nat) :
    WockyPorter Unit :=
  match wocky_porter_send_iq_async plain_env 3 self { type := .IQ, sub_type := .GET }
      cancellable (.user tag []) with
  | some r => r.2
  | none => self

/-- A new porter on which two IQ gets have been sent with the same cancellable 100: the
first with the caller's callback 1 (handler 3, result 4, id "x"; its stanza is
handed to the connection), the second with the caller's callback 2 (handler 7,
result 8, id "xx"; its stanza waits in the queue as element 9 with result 10). -/
def porter_with_shared_cancellable : WockyPorter Unit :=
  send_iq_get (send_iq_get (wocky_porter_new plain_env ()) (some 100) 1) (some 100) 2

/-- A new porter on which the message "a" has been sent with a callback (tag 1) that sends
the message "b" when it runs; "a" is handed to the connection. -/
def porter_with_resending_callback : WockyPorter Unit :=
  wocky_porter_send_async (wocky_porter_new plain_env ()) (message "a") none
    (.user 1 [message "b"])

/-- A started new porter on which wocky_porter_close_async (callback 9) has been accepted
and the close frame has been sent (close_sent_cb without error): the close waits
for the peer. -/
def porter_waiting_for_remote_close : WockyPorter Unit :=
  close_sent_cb
    (wocky_porter_close_async (wocky_porter_start (wocky_porter_new plain_env ())) none
      (.user 9 []))
    none


/-- Between `self` and `p` the table of pending IQs is unchanged and the only results
completed are the result of the close operation of `self`. -/
def resolves_only_close {σ : Type} (self p : WockyPorter σ) : Prop :=
  p.iq_reply_handlers = self.iq_reply_handlers ∧
  ∃ L : List (Nat × Option GError), completions p.trace = completions self.trace ++ L ∧
    ∀ x ∈ L, ∃ r, self.close_result = some r ∧ x.1 = r.ptr

/-- A started new porter on which an IQ get (callback 2, result 5, id "x") has been sent and
handed to the connection, and then a close (callback 9, result 8) has gone all
the way: the IQ's send succeeded, the close frame was sent, and the peer closed
its stream. -/
def porter_closed_with_pending_iq : WockyPorter Unit :=
  stanza_received_cb plain_env
    (close_sent_cb
      (send_stanza_cb
        (wocky_porter_close_async
          (send_iq_get (wocky_porter_start (wocky_porter_new plain_env ())) none 2)
          none (.user 9 []))
        none)
      none)
    (.error .WOCKY_XMPP_CONNECTION_ERROR_CLOSED)


/-- The stanzas that a callback of the caller sends when it runs. -/
def caller_stanzas (callback : GAsyncReadyCallback) : List WockyXmppStanza :=
  match callback with
  | .user _ resend => resend
  | _ => []

/-- The stanzas that the completion of a queue element's result makes the caller send: those
of its own callback, or, through iq_sent_cb, those of the callback of the IQ
whose send failed. -/
def callback_stanzas {σ : Type} (self : WockyPorter σ) (callback : GAsyncReadyCallback) :
    List WockyXmppStanza :=
  match callback with
  | .iq_sent_cb handler_ptr =>
    match self.iq_reply_handlers.find? (fun e => decide (e.2.ptr = handler_ptr)) with
    | some e => caller_stanzas e.2.result.callback
    | none => []
  | callback => caller_stanzas callback

/-- From `p` to `q` the send queue gets at most `n` new elements at its tail, all without
callback; the trace gets further events, each one a completion or the hand-over,
without cancellable, of a stanza of `S`; close_result is unchanged. -/
def sends_only {σ : Type} (S : List WockyXmppStanza) (n : Nat) (p q : WockyPorter σ) : Prop :=
  (∃ new : List sending_queue_elem, q.sending_queue = p.sending_queue ++ new ∧
    (∀ x ∈ new, x.result.callback = GAsyncReadyCallback.NULL) ∧ new.length ≤ n) ∧
  (∃ added : List Event, q.trace = p.trace ++ added ∧
    ∀ ev ∈ added, (∃ r, ev = Event.complete r) ∨
      (∃ s ∈ S, ev = Event.send_stanza_async s none)) ∧
  q.close_result = p.close_result

/-- Every lookup by handler address in the table of `q` gives what it gives in the table of
`p`, or nothing. -/
def table_shrinks {σ : Type} (p q : WockyPorter σ) : Prop :=
  ∀ h : Nat, q.iq_reply_handlers.find? (fun e => decide (e.2.ptr = h)) =
      p.iq_reply_handlers.find? (fun e => decide (e.2.ptr = h)) ∨
    q.iq_reply_handlers.find? (fun e => decide (e.2.ptr = h)) = none

/-- A new porter on which the messages "a" (callback 1) and "b" (callback 2) have been
sent: "a" is handed to the connection (queue element 3, result 4) and "b" waits
behind it (queue element 5, result 6). -/
def porter_with_two_messages : WockyPorter Unit :=
  wocky_porter_send_async
    (wocky_porter_send_async (wocky_porter_new plain_env ()) (message "a") none (.user 1 []))
    (message "b") none (.user 2 [])

/-- The porter with the messages "a" and "b" in its queue, started, on which
wocky_porter_close_async (callback 9) has been accepted: the close (result 8)
waits for the queue to be flushed. -/
def porter_closing_with_two_messages : WockyPorter Unit :=
  wocky_porter_close_async (wocky_porter_start porter_with_two_messages) none (.user 9 [])

/-- The number of wocky_xmpp_connection_recv_stanza_async calls recorded in a trace. -/
def receives (trace : List Event) : Nat :=
  trace.count Event.recv_stanza_async

/-- A started new porter whose close (callback 9, result 4) has sent its frame and waits
for the peer, on which the read then fails with an error that is not the peer's
close. -/
def porter_after_read_error : WockyPorter Unit :=
  stanza_received_cb plain_env porter_waiting_for_remote_close (.error (.OTHER 1 1))

/-- The ways in which a porter changes: the calls of its public functions, the callbacks
that the connection and the main loop run, and the firing of a cancellable. -/
inductive PorterCall where
  | register_handler (r : Registration)
  | unregister_handler (id : Nat)
  | start
  | send_async (stanza : WockyXmppStanza) (cancellable : Option Nat)
      (callback : GAsyncReadyCallback)
  | send_iq_async (fuel : Nat) (stanza : WockyXmppStanza) (cancellable : Option Nat)
      (callback : GAsyncReadyCallback)
  | close_async (cancellable : Option Nat) (callback : GAsyncReadyCallback)
  | send_stanza_cb (error : Option GError)
  | close_sent_cb (error : Option GError)
  | stanza_received_cb (res : Except GError WockyXmppStanza)
  | cancel (cancellable : Nat)
  | idle

/-- The porter after one call; a wocky_porter_send_iq_async that runs out of fuel leaves the
porter as it is. -/
def run_call {σ : Type} (env : Env σ) (self : WockyPorter σ) : PorterCall → WockyPorter σ
  | .register_handler r => register_one env self r
  | .unregister_handler id => wocky_porter_unregister_handler self id
  | .start => wocky_porter_start self
  | .send_async stanza cancellable callback =>
    wocky_porter_send_async self stanza cancellable callback
  | .send_iq_async fuel stanza cancellable callback =>
    match wocky_porter_send_iq_async env fuel self stanza cancellable callback with
    | some r => r.2
    | none => self
  | .close_async cancellable callback => wocky_porter_close_async self cancellable callback
  | .send_stanza_cb error => send_stanza_cb self error
  | .close_sent_cb error => close_sent_cb self error
  | .stanza_received_cb res => stanza_received_cb env self res
  | .cancel cancellable => g_cancellable_cancel self cancellable
  | .idle => idle_dispatch self

/-- The porter after a sequence of calls, in the order of the list. -/
def run_calls {σ : Type} (env : Env σ) (self : WockyPorter σ) : List PorterCall → WockyPorter σ
  | [] => self
  | c :: cs => run_calls env (run_call env self c) cs

/-- The connection reports the success of `n` sends, one after the other. -/
def flush {σ : Type} : Nat → WockyPorter σ → WockyPorter σ
  | 0, self => self
  | n + 1, self => flush n (send_stanza_cb self none)

/-- The events of the flush of a queue whose head is in flight: the result of each element
is completed and then the element behind it, if there is one, is handed to the
connection. -/
def flush_events : List sending_queue_elem → List Event
  | [] => []
  | e :: rest =>
    Event.complete e.result ::
      ((match rest with
        | [] => []
        | next :: _ => [Event.send_stanza_async next.stanza next.cancellable]) ++
        flush_events rest)

/-- The status that stands for a status word, in the words of the claim: the first of
REVOKED, NOT_ACTIVATED, EXPIRED, SIGNER_NOT_FOUND, SIGNER_NOT_CA,
INSECURE_ALGORITHM, INVALID that has a bit set in the word; the unknown error
when only other bits are set; OK when the word is 0. -/
def most_important_status (g : Gnutls) (word : Nat) : WockyTLSCertStatus :=
  if word &&& g.GNUTLS_CERT_REVOKED ≠ 0 then .WOCKY_TLS_CERT_REVOKED
  else if word &&& g.GNUTLS_CERT_NOT_ACTIVATED ≠ 0 then .WOCKY_TLS_CERT_NOT_ACTIVE
  else if word &&& g.GNUTLS_CERT_EXPIRED ≠ 0 then .WOCKY_TLS_CERT_EXPIRED
  else if word &&& g.GNUTLS_CERT_SIGNER_NOT_FOUND ≠ 0 then .WOCKY_TLS_CERT_SIGNER_UNKNOWN
  else if word &&& g.GNUTLS_CERT_SIGNER_NOT_CA ≠ 0 then .WOCKY_TLS_CERT_SIGNER_UNAUTHORISED
  else if word &&& g.GNUTLS_CERT_INSECURE_ALGORITHM ≠ 0 then .WOCKY_TLS_CERT_INSECURE
  else if word &&& g.GNUTLS_CERT_INVALID ≠ 0 then .WOCKY_TLS_CERT_INVALID
  else if word ≠ 0 then .WOCKY_TLS_CERT_UNKNOWN_ERROR
  else .WOCKY_TLS_CERT_OK

/-- The seven status bits are not 0, so that none of them ends the table early. -/
def Gnutls.bits_set (g : Gnutls) : Prop :=
  g.GNUTLS_CERT_REVOKED ≠ 0 ∧ g.GNUTLS_CERT_NOT_ACTIVATED ≠ 0 ∧ g.GNUTLS_CERT_EXPIRED ≠ 0 ∧
  g.GNUTLS_CERT_SIGNER_NOT_FOUND ≠ 0 ∧ g.GNUTLS_CERT_SIGNER_NOT_CA ≠ 0 ∧
  g.GNUTLS_CERT_INSECURE_ALGORITHM ≠ 0 ∧ g.GNUTLS_CERT_INVALID ≠ 0

/-- The values that gnutls.h gives to the constants. -/
def gnutls_h : Gnutls :=
  { GNUTLS_CERT_REVOKED := 32
    GNUTLS_CERT_NOT_ACTIVATED := 512
    GNUTLS_CERT_EXPIRED := 1024
    GNUTLS_CERT_SIGNER_NOT_FOUND := 64
    GNUTLS_CERT_SIGNER_NOT_CA := 128
    GNUTLS_CERT_INSECURE_ALGORITHM := 256
    GNUTLS_CERT_INVALID := 2
    GNUTLS_E_SUCCESS := 0
    GNUTLS_E_CERTIFICATE_ERROR := -43 }

/-- A session with an X.509 certificate that gnutls_certificate_verify_peers2 checks
without failure, leaving `word` in the status, and whose hostname check accepts
the name "example.com" only. -/
def x509_session (word : Nat) : WockyTLSSession :=
  { verify_peers2 := (0, word)
    certificate_type := .GNUTLS_CRT_X509
    x509_crt_init := 0
    x509_crt_check_hostname := fun name => if name = "example.com" then 1 else 0
    openpgp_crt_init := 0
    openpgp_crt_check_hostname := fun _ => 0 }

/-- Modelled from the spec: the mechanisms that the test server offers for a row of the
table (wocky-test-sasl-auth-server.c is not among the sources), after the
scenarios "Server advertises only PLAIN" and "Server features lack a
<mechanisms>" and the names of the tests: no `<mechanisms>` element with
SERVER_PROBLEM_NO_SASL, the mechanism of the row alone when it names one, and
`default` otherwise. -/
def server_mechanisms (default : List String) (t : test_t) : Option (List String) :=
  match t.problem with
  | .SERVER_PROBLEM_NO_SASL => none
  | .SERVER_PROBLEM_NO_PROBLEM =>
    match t.mech with
    | some m => some [m]
    | none => some default

/-- What a run of the selection gives for a row of the table: the error code, `none` when a
mechanism is selected. -/
def selection_code (default : List String) (t : test_t) : Option WockySaslAuthError :=
  match wocky_sasl_auth_select_mechanism (server_mechanisms default t) t.allow_plain with
  | .ok _ => none
  | .error e => some e

/-- The contact of create_romeo in wocky-roster-test.c. -/
def create_romeo : WockyContact :=
  { jid := "romeo@example.net", name := some "Romeo", subscription := .BOTH,
    groups := ["Friends"] }

/-- The contact of create_juliet in wocky-roster-test.c. -/
def create_juliet : WockyContact :=
  { jid := "juliet@example.net", name := some "Juliet", subscription := .TO,
    groups := ["Friends", "Girlz"] }

/-- The two items of the reply that fetch_roster_reply_cb builds in wocky-roster-test.c. -/
def fetch_roster_reply : List WockyContact :=
  [{ jid := "romeo@example.net", name := some "Romeo", subscription := .BOTH,
     groups := ["Friends"] },
   { jid := "juliet@example.net", name := some "Juliet", subscription := .TO,
     groups := ["Friends", "Girlz"] }]

/-- A reply with two items of the same jid and different names. -/
def reply_with_duplicate_jid : List WockyContact :=
  [{ jid := "romeo@example.net", name := some "Romeo", subscription := .BOTH,
     groups := ["Friends"] },
   { jid := "romeo@example.net", name := some "Romeo M.", subscription := .TO,
     groups := [] }]



/-! # Theorems -/

/-! ## Handler registration -/

theorem g_list_insert_sorted_sublist {α : Type} (func : α → α → Int) (x : α) (l : List α) :
    l.Sublist (g_list_insert_sorted func x l) := by
  induction l with
  | nil => simp [g_list_insert_sorted]
  | cons y ys ih =>
    unfold g_list_insert_sorted
    split
    · exact ih.cons₂ y
    · exact List.sublist_cons_self x (y :: ys)

theorem g_list_insert_sorted_perm {α : Type} (func : α → α → Int) (x : α) (l : List α) :
    (g_list_insert_sorted func x l).Perm (x :: l) := by
  induction l with
  | nil => simp [g_list_insert_sorted]
  | cons y ys ih =>
    unfold g_list_insert_sorted
    split
    · exact (ih.cons y).trans (List.Perm.swap x y ys)
    · exact List.Perm.refl _

theorem g_list_insert_sorted_mem {α : Type} (func : α → α → Int) (x : α) (l : List α) :
    x ∈ g_list_insert_sorted func x l :=
  (g_list_insert_sorted_perm func x l).symm.subset (List.mem_cons_self x l)

/-- The new element is put before every element it does not compare greater than. -/
theorem g_list_insert_sorted_before {α : Type} (func : α → α → Int) (x a : α) (l : List α)
    (ha : a ∈ l) (hc : ¬ func x a > 0) :
    [x, a].Sublist (g_list_insert_sorted func x l) := by
  induction l with
  | nil => cases ha
  | cons y ys ih =>
    unfold g_list_insert_sorted
    split
    · rename_i hy
      rcases List.mem_cons.1 ha with h | h
      · subst h; exact absurd hy hc
      · exact (ih h).cons y
    · exact (List.singleton_sublist.2 ha).cons₂ x

/-- In a sorted handler list the new handler is put after every handler of a higher
priority. -/
theorem g_list_insert_sorted_after (x a : StanzaHandler) (l : List StanzaHandler)
    (hs : handlers_sorted l) (ha : a ∈ l) (hp : x.priority < a.priority) :
    [a, x].Sublist (g_list_insert_sorted compare_handler x l) := by
  induction l with
  | nil => cases ha
  | cons y ys ih =>
    have hs' : handlers_sorted ys := (List.pairwise_cons.1 hs).2
    have hy : ∀ b ∈ ys, b.priority ≤ y.priority := (List.pairwise_cons.1 hs).1
    unfold g_list_insert_sorted
    split
    · rcases List.mem_cons.1 ha with h | h
      · subst h
        exact (List.singleton_sublist.2 (g_list_insert_sorted_mem _ x ys)).cons₂ a
      · exact (ih hs' h).cons y
    · rename_i hc
      exfalso
      apply hc
      have hay : a.priority ≤ y.priority := by
        rcases List.mem_cons.1 ha with h | h
        · subst h; exact le_refl _
        · exact hy a h
      have : x.priority < y.priority := lt_of_lt_of_le hp hay
      simp [compare_handler, this]

theorem g_list_insert_sorted_sorted (x : StanzaHandler) (l : List StanzaHandler)
    (hs : handlers_sorted l) : handlers_sorted (g_list_insert_sorted compare_handler x l) := by
  induction l with
  | nil => simp [g_list_insert_sorted, handlers_sorted]
  | cons y ys ih =>
    have hs' : handlers_sorted ys := (List.pairwise_cons.1 hs).2
    have hy : ∀ b ∈ ys, b.priority ≤ y.priority := (List.pairwise_cons.1 hs).1
    unfold g_list_insert_sorted
    split
    · rename_i hc
      have hxy : x.priority < y.priority := by
        by_contra h
        simp [compare_handler, h] at hc
        split at hc <;> simp at hc
      refine List.pairwise_cons.2 ⟨?_, ih hs'⟩
      intro b hb
      rcases List.mem_cons.1 ((g_list_insert_sorted_perm compare_handler x ys).subset hb) with h | h
      · subst h; exact le_of_lt hxy
      · exact hy b h
    · rename_i hc
      have hyx : y.priority ≤ x.priority := by
        by_contra h
        apply hc
        have : x.priority < y.priority := not_le.1 h
        simp [compare_handler, this]
      refine List.pairwise_cons.2 ⟨?_, hs⟩
      intro b hb
      rcases List.mem_cons.1 hb with h | h
      · subst h; exact hyx
      · exact le_trans (hy b h) hyx

theorem register_one_handlers {σ : Type} (env : Env σ) (self : WockyPorter σ) (r : Registration) :
    (register_one env self r).handlers =
      g_list_insert_sorted compare_handler (r.handler env self.next_ptr) self.handlers := rfl

theorem register_one_next_ptr {σ : Type} (env : Env σ) (self : WockyPorter σ)
    (r : Registration) : (register_one env self r).next_ptr = self.next_ptr + 1 := rfl

theorem Registration.handler_ptr {σ : Type} (env : Env σ) (ptr : Nat) (r : Registration) :
    (r.handler env ptr).ptr = ptr := rfl

theorem Registration.handler_priority {σ : Type} (env : Env σ) (ptr : Nat) (r : Registration) :
    (r.handler env ptr).priority = r.priority := rfl

theorem register_one_fresh {σ : Type} (env : Env σ) (self : WockyPorter σ) (r : Registration)
    (h : handlers_fresh self) : handlers_fresh (register_one env self r) := by
  obtain ⟨hn, hb⟩ := h
  have hp := g_list_insert_sorted_perm compare_handler (r.handler env self.next_ptr) self.handlers
  constructor
  · rw [register_one_handlers]
    refine ((hp.map (fun h => h.ptr)).nodup_iff).2 ?_
    simp only [List.map_cons, List.nodup_cons, Registration.handler_ptr]
    refine ⟨?_, hn⟩
    intro hmem
    obtain ⟨h', hh', he⟩ := List.mem_map.1 hmem
    have := hb h' hh'
    omega
  · intro h' hh'
    rw [register_one_handlers] at hh'
    rw [register_one_next_ptr]
    rcases List.mem_cons.1 (hp.subset hh') with h | h
    · subst h; simp [Registration.handler_ptr]
    · have := hb h' h; omega

theorem register_all_fresh {σ : Type} (env : Env σ) (regs : List Registration) :
    ∀ self : WockyPorter σ, handlers_fresh self → handlers_fresh (register_all env self regs) := by
  induction regs with
  | nil => intro self h; exact h
  | cons r rs ih => intro self h; exact ih _ (register_one_fresh env self r h)

theorem register_all_sorted {σ : Type} (env : Env σ) (regs : List Registration) :
    ∀ self : WockyPorter σ, handlers_sorted self.handlers →
      handlers_sorted (register_all env self regs).handlers := by
  induction regs with
  | nil => intro self h; exact h
  | cons r rs ih =>
    intro self h
    exact ih _ (by rw [register_one_handlers]; exact g_list_insert_sorted_sorted _ _ h)

theorem register_all_sublist {σ : Type} (env : Env σ) (regs : List Registration) :
    ∀ self : WockyPorter σ, self.handlers.Sublist (register_all env self regs).handlers := by
  induction regs with
  | nil => intro self; exact List.Sublist.refl _
  | cons r rs ih =>
    intro self
    show self.handlers.Sublist (register_all env (register_one env self r) rs).handlers
    exact (g_list_insert_sorted_sublist compare_handler (r.handler env self.next_ptr)
      self.handlers).trans (ih (register_one env self r))

/-- A handler registered later with the priority of a handler already in the list stands
before it, whatever is registered afterwards. -/
theorem register_all_before {σ : Type} (env : Env σ) (regs : List Registration) :
    ∀ (self : WockyPorter σ) (j : Nat) (b : Registration) (a : StanzaHandler),
      regs[j]? = some b → a ∈ self.handlers → a.priority ≤ b.priority →
      [b.handler env (self.next_ptr + j), a].Sublist (register_all env self regs).handlers := by
  induction regs with
  | nil => intro self j b a hj; simp at hj
  | cons r rs ih =>
    intro self j b a hj ha hp
    cases j with
    | zero =>
      simp at hj
      subst hj
      rw [Nat.add_zero]
      refine List.Sublist.trans ?_ (register_all_sublist env rs (register_one env self r))
      rw [register_one_handlers]
      apply g_list_insert_sorted_before _ _ _ _ ha
      have : ¬ (r.handler env self.next_ptr).priority < a.priority := by
        rw [Registration.handler_priority]; omega
      simp only [compare_handler, this, if_false]
      split <;> simp
    | succ j =>
      simp at hj
      have := ih (register_one env self r) j b a hj
        ((g_list_insert_sorted_sublist compare_handler _ self.handlers).subset ha) hp
      rw [register_one_next_ptr] at this
      rw [show self.next_ptr + (j + 1) = self.next_ptr + 1 + j by omega]
      exact this

/-- A handler registered later with a lower priority than a handler already in a sorted
list stands after it, whatever is registered afterwards. -/
theorem register_all_after {σ : Type} (env : Env σ) (regs : List Registration) :
    ∀ (self : WockyPorter σ) (j : Nat) (b : Registration) (a : StanzaHandler),
      handlers_sorted self.handlers →
      regs[j]? = some b → a ∈ self.handlers → b.priority < a.priority →
      [a, b.handler env (self.next_ptr + j)].Sublist (register_all env self regs).handlers := by
  induction regs with
  | nil => intro self j b a _ hj; simp at hj
  | cons r rs ih =>
    intro self j b a hs hj ha hp
    have hs' : handlers_sorted (register_one env self r).handlers := by
      rw [register_one_handlers]; exact g_list_insert_sorted_sorted _ _ hs
    cases j with
    | zero =>
      simp at hj
      subst hj
      rw [Nat.add_zero]
      refine List.Sublist.trans ?_ (register_all_sublist env rs (register_one env self r))
      rw [register_one_handlers]
      exact g_list_insert_sorted_after _ _ _ hs ha (by rw [Registration.handler_priority]; exact hp)
    | succ j =>
      simp at hj
      have := ih (register_one env self r) j b a hs' hj
        ((g_list_insert_sorted_sublist compare_handler _ self.handlers).subset ha) hp
      rw [register_one_next_ptr] at this
      rw [show self.next_ptr + (j + 1) = self.next_ptr + 1 + j by omega]
      exact this



theorem wocky_porter_new_handlers {σ : Type} (env : Env σ) (user : σ) :
    (wocky_porter_new env user).handlers = [iq_error_handler env, iq_result_handler env] := by
  simp [wocky_porter_new, wocky_porter_constructed, wocky_porter_register_handler,
    wocky_porter_init, g_list_insert_sorted, compare_handler, iq_error_handler,
    iq_result_handler, stanza_handler_new]

theorem wocky_porter_new_next_ptr {σ : Type} (env : Env σ) (user : σ) :
    (wocky_porter_new env user).next_ptr = 3 := rfl

theorem wocky_porter_new_fresh {σ : Type} (env : Env σ) (user : σ) :
    handlers_fresh (wocky_porter_new env user) := by
  constructor
  · rw [wocky_porter_new_handlers]
    simp [iq_error_handler, iq_result_handler, stanza_handler_new]
  · intro h hh
    rw [wocky_porter_new_handlers] at hh
    rw [wocky_porter_new_next_ptr]
    simp at hh
    rcases hh with h | h <;> subst h <;>
      simp [iq_error_handler, iq_result_handler, stanza_handler_new]

theorem wocky_porter_new_sorted {σ : Type} (env : Env σ) (user : σ) :
    handlers_sorted (wocky_porter_new env user).handlers := by
  rw [wocky_porter_new_handlers]
  simp [handlers_sorted, iq_error_handler, iq_result_handler, stanza_handler_new]

/-- C1: a handler registered with the bare-domain pattern "example.com" has node NULL and
domain "example.com"; handle_stanza calls it for an IQ get whose sender decodes
to the domain "evil.org", and for an IQ get without from. -/
theorem handle_stanza_bare_domain_pattern :
    (register_all plain_env (wocky_porter_new plain_env ())
      [Registration.user .IQ .GET (some "example.com") 5 7]).handlers.map
        (fun h => (h.ptr, h.node, h.domain)) =
      [(2, none, none), (1, none, none), (3, none, some "example.com")] ∧
    (plain_env.decode_jid "romeo@evil.org").domain = some "evil.org" ∧
    (handle_stanza plain_env
      (register_all plain_env (wocky_porter_new plain_env ())
        [Registration.user .IQ .GET (some "example.com") 5 7])
      { type := .IQ, sub_type := .GET, from_ := some "romeo@evil.org" }).trace =
      [Event.handler_called 3 false] ∧
    (handle_stanza plain_env
      (register_all plain_env (wocky_porter_new plain_env ())
        [Registration.user .IQ .GET (some "example.com") 5 7])
      { type := .IQ, sub_type := .GET }).trace =
      [Event.handler_called 3 false] := by
  decide

/-- C2 (as stated, refuted): A is registered before B with the same priority 5 on a new
porter, and B (callback 2) stands before A (callback 1) in the handler list. -/
theorem register_handler_ties_counterexample :
    ((register_all plain_env (wocky_porter_new plain_env ())
      [Registration.user .MESSAGE .NONE none 5 1,
       Registration.user .MESSAGE .NONE none 5 2]).handlers.map (fun h => h.callback)) =
      [.handle_iq_reply, .handle_iq_reply, .user 2, .user 1] := by
  decide

/-- C2 (amended): ties are kept in reverse registration order.  For every sequence of
register_handler calls on a porter whose handler addresses are distinct, if A
was registered before B and both have the same priority, then B stands before
A in the handler list, in which every address occurs once. -/
theorem register_handler_ties_latest_first {σ : Type} (env : Env σ) (regs : List Registration) :
    ∀ (self : WockyPorter σ) (i j : Nat) (a b : Registration),
      handlers_fresh self → regs[i]? = some a → regs[j]? = some b → i < j →
      a.priority = b.priority →
      [b.handler env (self.next_ptr + j), a.handler env (self.next_ptr + i)].Sublist
        (register_all env self regs).handlers ∧
      ((register_all env self regs).handlers.map (fun h => h.ptr)).Nodup := by
  induction regs with
  | nil => intro self i j a b _ hi; simp at hi
  | cons r rs ih =>
    intro self i j a b hf hi hj hij hp
    refine ⟨?_, (register_all_fresh env (r :: rs) self hf).1⟩
    cases j with
    | zero => omega
    | succ j =>
      simp at hj
      cases i with
      | zero =>
        simp at hi
        subst hi
        have := register_all_before env rs (register_one env self r) j b
          (r.handler env self.next_ptr) hj
          (by rw [register_one_handlers]; exact g_list_insert_sorted_mem _ _ _)
          (by rw [Registration.handler_priority]; omega)
        rw [register_one_next_ptr] at this
        rw [Nat.add_zero, show self.next_ptr + (j + 1) = self.next_ptr + 1 + j by omega]
        exact this
      | succ i =>
        simp at hi
        have := (ih (register_one env self r) i j a b (register_one_fresh env self r hf) hi hj
          (by omega) hp).1
        rw [register_one_next_ptr] at this
        rw [show self.next_ptr + (j + 1) = self.next_ptr + 1 + j by omega,
          show self.next_ptr + (i + 1) = self.next_ptr + 1 + i by omega]
        exact this

/-- C2 (amended), at a concrete input: two handlers of priority 5 on a new porter. -/
theorem register_handler_ties_latest_first_witness :
    [(Registration.user .MESSAGE .NONE none 5 2).handler plain_env
        ((wocky_porter_new plain_env ()).next_ptr + 1),
      (Registration.user .MESSAGE .NONE none 5 1).handler plain_env
        ((wocky_porter_new plain_env ()).next_ptr + 0)].Sublist
      (register_all plain_env (wocky_porter_new plain_env ())
        [Registration.user .MESSAGE .NONE none 5 1,
         Registration.user .MESSAGE .NONE none 5 2]).handlers ∧
    ((register_all plain_env (wocky_porter_new plain_env ())
        [Registration.user .MESSAGE .NONE none 5 1,
         Registration.user .MESSAGE .NONE none 5 2]).handlers.map (fun h => h.ptr)).Nodup :=
  register_handler_ties_latest_first plain_env
    [Registration.user .MESSAGE .NONE none 5 1, Registration.user .MESSAGE .NONE none 5 2]
    (wocky_porter_new plain_env ()) 0 1 _ _
    (wocky_porter_new_fresh plain_env ()) rfl rfl (by decide) rfl

/-- C3 (as stated, refuted): a handler for IQ results registered after construction with
the maximum priority stands before both built-in handlers, and handle_stanza
calls it (address 3) for an IQ result before the built-in handler (address 1). -/
theorem iq_reply_handler_not_first_counterexample :
    (register_all plain_env (wocky_porter_new plain_env ())
      [Registration.user .IQ .RESULT none WOCKY_PORTER_HANDLER_PRIORITY_MAX 7]).handlers.map
        (fun h => (h.ptr, h.callback)) =
      [(3, .user 7), (2, .handle_iq_reply), (1, .handle_iq_reply)] ∧
    (handle_stanza plain_env
      (register_all plain_env (wocky_porter_new plain_env ())
        [Registration.user .IQ .RESULT none WOCKY_PORTER_HANDLER_PRIORITY_MAX 7])
      { type := .IQ, sub_type := .RESULT, id := some "x" }).trace =
      [Event.handler_called 3 false, Event.handler_called 1 false] := by
  decide

/-- C3 (amended): for every sequence of register_handler calls after construction, every
handler registered with a priority below the maximum stands after both built-in
IQ reply handlers in the handler list, in which every address occurs once. -/
theorem iq_reply_handlers_before_lower_priority {σ : Type} (env : Env σ) (user : σ)
    (regs : List Registration) (j : Nat) (b : Registration)
    (hj : regs[j]? = some b) (hp : b.priority < WOCKY_PORTER_HANDLER_PRIORITY_MAX) :
    [iq_result_handler env, b.handler env (3 + j)].Sublist
      (register_all env (wocky_porter_new env user) regs).handlers ∧
    [iq_error_handler env, b.handler env (3 + j)].Sublist
      (register_all env (wocky_porter_new env user) regs).handlers ∧
    ((register_all env (wocky_porter_new env user) regs).handlers.map (fun h => h.ptr)).Nodup := by
  refine ⟨?_, ?_, (register_all_fresh env regs _ (wocky_porter_new_fresh env user)).1⟩
  · exact register_all_after env regs (wocky_porter_new env user) j b (iq_result_handler env)
      (wocky_porter_new_sorted env user) hj (by rw [wocky_porter_new_handlers]; simp) hp
  · exact register_all_after env regs (wocky_porter_new env user) j b (iq_error_handler env)
      (wocky_porter_new_sorted env user) hj (by rw [wocky_porter_new_handlers]; simp) hp

/-- C3 (amended), at a concrete input: one handler of priority 5 for IQ results. -/
theorem iq_reply_handlers_before_lower_priority_witness :
    [iq_result_handler plain_env,
      (Registration.user .IQ .RESULT none 5 7).handler plain_env (3 + 0)].Sublist
      (register_all plain_env (wocky_porter_new plain_env ())
        [Registration.user .IQ .RESULT none 5 7]).handlers ∧
    [iq_error_handler plain_env,
      (Registration.user .IQ .RESULT none 5 7).handler plain_env (3 + 0)].Sublist
      (register_all plain_env (wocky_porter_new plain_env ())
        [Registration.user .IQ .RESULT none 5 7]).handlers ∧
    ((register_all plain_env (wocky_porter_new plain_env ())
        [Registration.user .IQ .RESULT none 5 7]).handlers.map (fun h => h.ptr)).Nodup :=
  iq_reply_handlers_before_lower_priority plain_env ()
    [Registration.user .IQ .RESULT none 5 7] 0 _ rfl (by decide)



theorem idle_ext_refl {σ : Type} (self : WockyPorter σ) : idle_ext self self :=
  ⟨[], by simp, by simp⟩

theorem idle_ext_trans {σ : Type} {a b c : WockyPorter σ} (h1 : idle_ext a b)
    (h2 : idle_ext b c) : idle_ext a c := by
  obtain ⟨e1, h11, h12⟩ := h1
  obtain ⟨e2, h21, h22⟩ := h2
  refine ⟨e1 ++ e2, by rw [h21, h11, List.append_assoc], ?_⟩
  intro r hr
  rcases List.mem_append.1 hr with h | h
  · exact h12 r h
  · exact h22 r h

theorem idle_ext_of_eq {σ : Type} {a b : WockyPorter σ} (h : b.idle = a.idle) : idle_ext a b :=
  ⟨[], by simp [h], by simp⟩



/-! ## Frame lemmas: what the send queue functions leave alone -/

theorem handler_calls_append (a b : List Event) :
    handler_calls (a ++ b) = handler_calls a ++ handler_calls b := by
  simp [handler_calls, List.filterMap_append]

theorem send_head_stanza_iq {σ : Type} (self : WockyPorter σ) :
    (send_head_stanza self).iq_reply_handlers = self.iq_reply_handlers := by
  unfold send_head_stanza
  split
  · rfl
  · split <;> rfl

theorem send_head_stanza_idle {σ : Type} (self : WockyPorter σ) :
    (send_head_stanza self).idle = self.idle := by
  unfold send_head_stanza
  split
  · rfl
  · split <;> rfl

theorem send_head_stanza_calls {σ : Type} (self : WockyPorter σ) :
    handler_calls (send_head_stanza self).trace = handler_calls self.trace := by
  unfold send_head_stanza
  split
  · rfl
  · split <;> simp [handler_calls_append, handler_calls, g_signal_handler_disconnect]

theorem sending_queue_elem_free_iq {σ : Type} (self : WockyPorter σ) (e : sending_queue_elem) :
    (sending_queue_elem_free self e).iq_reply_handlers = self.iq_reply_handlers := by
  unfold sending_queue_elem_free
  split <;> rfl

theorem sending_queue_elem_free_idle {σ : Type} (self : WockyPorter σ) (e : sending_queue_elem) :
    (sending_queue_elem_free self e).idle = self.idle := by
  unfold sending_queue_elem_free
  split <;> rfl

theorem sending_queue_elem_free_trace {σ : Type} (self : WockyPorter σ) (e : sending_queue_elem) :
    (sending_queue_elem_free self e).trace = self.trace := by
  unfold sending_queue_elem_free
  split <;> rfl

theorem send_cancelled_cb_iq {σ : Type} (self : WockyPorter σ) (elem_ptr : Nat) :
    (send_cancelled_cb self elem_ptr).iq_reply_handlers = self.iq_reply_handlers := by
  unfold send_cancelled_cb
  split
  · rfl
  · rw [sending_queue_elem_free_iq]; rfl

theorem send_cancelled_cb_trace {σ : Type} (self : WockyPorter σ) (elem_ptr : Nat) :
    (send_cancelled_cb self elem_ptr).trace = self.trace := by
  unfold send_cancelled_cb
  split
  · rfl
  · rw [sending_queue_elem_free_trace]; rfl

theorem send_cancelled_cb_idle {σ : Type} (self : WockyPorter σ) (elem_ptr : Nat) :
    idle_ext self (send_cancelled_cb self elem_ptr) := by
  unfold send_cancelled_cb
  split
  · exact idle_ext_refl self
  · rename_i elem _
    refine ⟨[{ elem.result with error := some GError.G_IO_ERROR_CANCELLED }], ?_, ?_⟩
    · rw [sending_queue_elem_free_idle]; rfl
    · intro r hr
      simp at hr
      subst hr
      simp

theorem wocky_porter_send_async_iq {σ : Type} (self : WockyPorter σ) (stanza : WockyXmppStanza)
    (cancellable : Option Nat) (callback : GAsyncReadyCallback) :
    (wocky_porter_send_async self stanza cancellable callback).iq_reply_handlers =
      self.iq_reply_handlers := by
  unfold wocky_porter_send_async
  split
  · rfl
  · simp only []
    split
    · rw [send_head_stanza_iq]
    · split
      · rfl
      · simp only [g_cancellable_connect]
        split
        · simp [send_cancelled_cb_iq]
        · rfl

theorem wocky_porter_send_async_calls {σ : Type} (self : WockyPorter σ)
    (stanza : WockyXmppStanza) (cancellable : Option Nat) (callback : GAsyncReadyCallback) :
    handler_calls (wocky_porter_send_async self stanza cancellable callback).trace =
      handler_calls self.trace := by
  unfold wocky_porter_send_async
  split
  · rfl
  · simp only []
    split
    · rw [send_head_stanza_calls]
    · split
      · rfl
      · simp only [g_cancellable_connect]
        split
        · simp [send_cancelled_cb_trace]
        · rfl

theorem wocky_porter_send_async_idle {σ : Type} (self : WockyPorter σ)
    (stanza : WockyXmppStanza) (cancellable : Option Nat) (callback : GAsyncReadyCallback) :
    idle_ext self (wocky_porter_send_async self stanza cancellable callback) := by
  unfold wocky_porter_send_async
  split
  · refine ⟨[_], rfl, ?_⟩
    intro r hr
    simp at hr
    subst hr
    simp
  · simp only []
    split
    · exact ⟨[], by rw [send_head_stanza_idle]; simp, by simp⟩
    · split
      · exact ⟨[], by simp, by simp⟩
      · simp only [g_cancellable_connect]
        split
        · refine idle_ext_trans (b := send_cancelled_cb _ _) ?_ (idle_ext_of_eq rfl)
          exact idle_ext_trans (idle_ext_of_eq rfl) (send_cancelled_cb_idle _ _)
        · exact ⟨[], by simp, by simp⟩



theorem trace_ext_refl {σ : Type} (self : WockyPorter σ) : trace_ext self self :=
  ⟨[], by simp⟩

theorem trace_ext_trans {σ : Type} {a b c : WockyPorter σ} (h1 : trace_ext a b)
    (h2 : trace_ext b c) : trace_ext a c := by
  obtain ⟨e1, h11⟩ := h1
  obtain ⟨e2, h21⟩ := h2
  exact ⟨e1 ++ e2, by rw [h21, h11, List.append_assoc]⟩

theorem trace_ext_of_eq {σ : Type} {a b : WockyPorter σ} (h : b.trace = a.trace) :
    trace_ext a b :=
  ⟨[], by simp [h]⟩

theorem send_head_stanza_trace {σ : Type} (self : WockyPorter σ) :
    trace_ext self (send_head_stanza self) := by
  unfold send_head_stanza
  split
  · exact trace_ext_refl self
  · split
    · exact ⟨[_], rfl⟩
    · exact ⟨[_], rfl⟩

theorem wocky_porter_send_async_trace {σ : Type} (self : WockyPorter σ)
    (stanza : WockyXmppStanza) (cancellable : Option Nat) (callback : GAsyncReadyCallback) :
    trace_ext self (wocky_porter_send_async self stanza cancellable callback) := by
  unfold wocky_porter_send_async
  split
  · exact trace_ext_of_eq rfl
  · simp only []
    split
    · exact trace_ext_trans (trace_ext_of_eq rfl) (send_head_stanza_trace _)
    · split
      · exact trace_ext_of_eq rfl
      · simp only [g_cancellable_connect]
        split
        · exact trace_ext_of_eq (by simp [send_cancelled_cb_trace])
        · exact trace_ext_of_eq rfl

/-! ### Completion of a result of the caller -/

theorem resend_iq {σ : Type} (resend : List WockyXmppStanza) :
    ∀ self : WockyPorter σ,
      (resend.foldl wocky_porter_send self).iq_reply_handlers = self.iq_reply_handlers := by
  induction resend with
  | nil => intro self; rfl
  | cons s rest ih =>
    intro self
    rw [List.foldl_cons, ih]
    exact wocky_porter_send_async_iq self s none .NULL

theorem resend_calls {σ : Type} (resend : List WockyXmppStanza) :
    ∀ self : WockyPorter σ,
      handler_calls (resend.foldl wocky_porter_send self).trace = handler_calls self.trace := by
  induction resend with
  | nil => intro self; rfl
  | cons s rest ih =>
    intro self
    rw [List.foldl_cons, ih]
    exact wocky_porter_send_async_calls self s none .NULL

theorem resend_idle {σ : Type} (resend : List WockyXmppStanza) :
    ∀ self : WockyPorter σ, idle_ext self (resend.foldl wocky_porter_send self) := by
  induction resend with
  | nil => intro self; exact idle_ext_refl self
  | cons s rest ih =>
    intro self
    rw [List.foldl_cons]
    exact idle_ext_trans (wocky_porter_send_async_idle self s none .NULL) (ih _)

theorem resend_trace {σ : Type} (resend : List WockyXmppStanza) :
    ∀ self : WockyPorter σ, trace_ext self (resend.foldl wocky_porter_send self) := by
  induction resend with
  | nil => intro self; exact trace_ext_refl self
  | cons s rest ih =>
    intro self
    rw [List.foldl_cons]
    exact trace_ext_trans (wocky_porter_send_async_trace self s none .NULL) (ih _)

theorem g_simple_async_result_complete_iq {σ : Type} (self : WockyPorter σ)
    (result : GSimpleAsyncResult) :
    (g_simple_async_result_complete self result).iq_reply_handlers = self.iq_reply_handlers := by
  unfold g_simple_async_result_complete
  split
  · rw [resend_iq]
  · rfl

theorem g_simple_async_result_complete_calls {σ : Type} (self : WockyPorter σ)
    (result : GSimpleAsyncResult) :
    handler_calls (g_simple_async_result_complete self result).trace =
      handler_calls self.trace := by
  unfold g_simple_async_result_complete
  split
  · rw [resend_calls]; simp [handler_calls_append, handler_calls]
  · simp [handler_calls_append, handler_calls]

theorem g_simple_async_result_complete_idle {σ : Type} (self : WockyPorter σ)
    (result : GSimpleAsyncResult) :
    idle_ext self (g_simple_async_result_complete self result) := by
  unfold g_simple_async_result_complete
  split
  · exact idle_ext_trans (idle_ext_of_eq rfl) (resend_idle _ _)
  · exact idle_ext_of_eq rfl

/-- The completion is recorded in the trace right after what was there. -/
theorem g_simple_async_result_complete_trace {σ : Type} (self : WockyPorter σ)
    (result : GSimpleAsyncResult) :
    ∃ rest, (g_simple_async_result_complete self result).trace =
      self.trace ++ Event.complete result :: rest := by
  unfold g_simple_async_result_complete
  split
  · rename_i resend _
    obtain ⟨rest, h⟩ := resend_trace resend
      { self with trace := self.trace ++ [Event.complete result] }
    exact ⟨rest, by rw [h]; simp⟩
  · exact ⟨[], by simp⟩

/-! ### The table of pending IQs -/

theorem g_hash_table_lookup_remove {κ ν : Type} [DecidableEq κ] (t : List (κ × ν)) (k : κ) :
    g_hash_table_lookup (g_hash_table_remove t k) k = none := by
  simp [g_hash_table_lookup, g_hash_table_remove, List.find?_eq_none]

theorem g_hash_table_lookup_none_iff {κ ν : Type} [DecidableEq κ] (t : List (κ × ν)) (k : κ) :
    g_hash_table_lookup t k = none ↔ k ∉ t.map Prod.fst := by
  simp only [g_hash_table_lookup, Option.map_eq_none', List.find?_eq_none, decide_eq_true_eq,
    List.mem_map, not_exists, not_and]

theorem g_hash_table_remove_absent {κ ν : Type} [DecidableEq κ] (t : List (κ × ν)) (k : κ)
    (h : g_hash_table_lookup t k = none) : g_hash_table_remove t k = t := by
  rw [g_hash_table_lookup_none_iff] at h
  simp only [g_hash_table_remove, List.filter_eq_self]
  intro e he
  simp only [decide_eq_true_eq]
  intro hk
  exact h (List.mem_map.2 ⟨e, he, hk⟩)

theorem stanza_iq_handler_free_iq {σ : Type} (self : WockyPorter σ) (h : StanzaIqHandler) :
    (stanza_iq_handler_free self h).iq_reply_handlers = self.iq_reply_handlers := by
  unfold stanza_iq_handler_free
  split <;> rfl

theorem stanza_iq_handler_free_trace {σ : Type} (self : WockyPorter σ) (h : StanzaIqHandler) :
    (stanza_iq_handler_free self h).trace = self.trace := by
  unfold stanza_iq_handler_free
  split <;> rfl

theorem stanza_iq_handler_free_idle {σ : Type} (self : WockyPorter σ) (h : StanzaIqHandler) :
    (stanza_iq_handler_free self h).idle = self.idle := by
  unfold stanza_iq_handler_free
  split <;> rfl

theorem iq_reply_handlers_remove_iq {σ : Type} (self : WockyPorter σ) (id : String) :
    (iq_reply_handlers_remove self id).iq_reply_handlers =
      g_hash_table_remove self.iq_reply_handlers id := by
  unfold iq_reply_handlers_remove
  split
  · rw [stanza_iq_handler_free_iq]
  · rfl

theorem iq_reply_handlers_remove_trace {σ : Type} (self : WockyPorter σ) (id : String) :
    (iq_reply_handlers_remove self id).trace = self.trace := by
  unfold iq_reply_handlers_remove
  split
  · rw [stanza_iq_handler_free_trace]
  · rfl

theorem iq_reply_handlers_remove_idle {σ : Type} (self : WockyPorter σ) (id : String) :
    (iq_reply_handlers_remove self id).idle = self.idle := by
  unfold iq_reply_handlers_remove
  split
  · rw [stanza_iq_handler_free_idle]
  · rfl

theorem free_all_iq {σ : Type} (removed : List (String × StanzaIqHandler)) :
    ∀ self : WockyPorter σ,
      (removed.foldl (fun p e => stanza_iq_handler_free p e.2) self).iq_reply_handlers =
        self.iq_reply_handlers ∧
      (removed.foldl (fun p e => stanza_iq_handler_free p e.2) self).trace = self.trace ∧
      (removed.foldl (fun p e => stanza_iq_handler_free p e.2) self).idle = self.idle := by
  induction removed with
  | nil => intro self; exact ⟨rfl, rfl, rfl⟩
  | cons e rest ih =>
    intro self
    rw [List.foldl_cons]
    obtain ⟨h1, h2, h3⟩ := ih (stanza_iq_handler_free self e.2)
    exact ⟨by rw [h1, stanza_iq_handler_free_iq], by rw [h2, stanza_iq_handler_free_trace],
      by rw [h3, stanza_iq_handler_free_idle]⟩

theorem iq_reply_handlers_foreach_remove_iq {σ : Type} (self : WockyPorter σ)
    (func : String → StanzaIqHandler → Bool) :
    (iq_reply_handlers_foreach_remove self func).iq_reply_handlers =
      self.iq_reply_handlers.filter (fun e => !(func e.1 e.2)) := by
  unfold iq_reply_handlers_foreach_remove
  simp only []
  rw [(free_all_iq _ _).1]

theorem iq_reply_handlers_foreach_remove_trace {σ : Type} (self : WockyPorter σ)
    (func : String → StanzaIqHandler → Bool) :
    (iq_reply_handlers_foreach_remove self func).trace = self.trace := by
  unfold iq_reply_handlers_foreach_remove
  simp only []
  rw [(free_all_iq _ _).2.1]

theorem iq_reply_handlers_foreach_remove_idle {σ : Type} (self : WockyPorter σ)
    (func : String → StanzaIqHandler → Bool) :
    (iq_reply_handlers_foreach_remove self func).idle = self.idle := by
  unfold iq_reply_handlers_foreach_remove
  simp only []
  rw [(free_all_iq _ _).2.2]

theorem iq_reply_handlers_insert_iq {σ : Type} (self : WockyPorter σ) (id : String)
    (handler : StanzaIqHandler) :
    (iq_reply_handlers_insert self id handler).iq_reply_handlers =
      (id, handler) :: g_hash_table_remove self.iq_reply_handlers id := by
  unfold iq_reply_handlers_insert
  simp only [iq_reply_handlers_remove_iq]

theorem iq_reply_handlers_insert_idle {σ : Type} (self : WockyPorter σ) (id : String)
    (handler : StanzaIqHandler) :
    (iq_reply_handlers_insert self id handler).idle = self.idle := by
  unfold iq_reply_handlers_insert
  simp only [iq_reply_handlers_remove_idle]

/-! ### handle_iq_reply -/

theorem handle_iq_reply_calls {σ : Type} (self : WockyPorter σ) (reply : WockyXmppStanza) :
    handler_calls (handle_iq_reply self reply).2.trace = handler_calls self.trace := by
  unfold handle_iq_reply
  split
  · rfl
  · split
    · rfl
    · split
      · rfl
      · simp only [iq_reply_handlers_remove_trace]
        split
        · rfl
        · exact g_simple_async_result_complete_calls _ _

/-- A reply that finds its pending entry and passes the spoof check: handle_iq_reply
returns TRUE, the entry is gone, and unless the cancellable of the entry has been
cancelled the result is completed with the reply. -/
theorem handle_iq_reply_accept {σ : Type} (self : WockyPorter σ) (reply : WockyXmppStanza)
    (id : String) (handler : StanzaIqHandler)
    (hid : reply.id = some id)
    (hl : g_hash_table_lookup self.iq_reply_handlers id = some handler)
    (hs : handler.recipient = none ∨ reply.from_ = handler.recipient) :
    (handle_iq_reply self reply).1 = true ∧
    g_hash_table_lookup (handle_iq_reply self reply).2.iq_reply_handlers id = none ∧
    (g_cancellable_is_cancelled self handler.cancellable = false →
      ∃ rest, (handle_iq_reply self reply).2.trace =
        self.trace ++ Event.complete { handler.result with op_res := some reply } :: rest) := by
  have hcheck : ¬ (handler.recipient ≠ none ∧
      wocky_strdiff reply.from_ handler.recipient = true) := by
    rintro ⟨h1, h2⟩
    rcases hs with h | h
    · exact h1 h
    · simp [wocky_strdiff, h] at h2
  unfold handle_iq_reply
  simp only [hid, hl, hcheck, if_false]
  refine ⟨trivial, ?_, ?_⟩
  · rw [iq_reply_handlers_remove_iq]
    exact g_hash_table_lookup_remove _ _
  · intro hc
    rw [iq_reply_handlers_remove_trace]
    simp only [hc]
    exact g_simple_async_result_complete_trace _ _

/-- Without an entry under the id of the stanza, handle_iq_reply returns FALSE and changes
nothing. -/
theorem handle_iq_reply_unknown {σ : Type} (self : WockyPorter σ) (reply : WockyXmppStanza)
    (id : String) (hid : reply.id = some id)
    (hl : g_hash_table_lookup self.iq_reply_handlers id = none) :
    handle_iq_reply self reply = (false, self) := by
  unfold handle_iq_reply
  simp only [hid, hl]



/-! ## Dispatch -/

theorem call_handler_calls {σ : Type} (env : Env σ) (self : WockyPorter σ) (h : StanzaHandler)
    (stanza : WockyXmppStanza) :
    handler_calls (call_handler env self h stanza).2.trace =
      handler_calls self.trace ++ [(h.ptr, (call_handler env self h stanza).1)] := by
  unfold call_handler
  cases h.callback with
  | handle_iq_reply =>
    simp only [handler_calls_append, handle_iq_reply_calls]
    simp [handler_calls]
  | user tag =>
    simp only [handler_calls_append]
    simp [handler_calls]



/-- C4 (the code at the failing input of C1, with a second handler behind the first): on a
new porter callback 7 is registered for IQ gets with the from pattern
"example.com" and priority 5 (handler 3), and callback 2 for IQ gets from
anyone with priority 3 (handler 4); a callback with an odd tag claims the
stanza.  By the rules of the spec handler 3 does not match an IQ get from
"romeo@evil.org", nor one without from, and handler 4 matches both.  Yet for
each of the two stanzas handle_stanza invokes handler 3, whose callback runs
(the caller's record is [7]) and claims the stanza, and handler 4 is never
invoked. -/
theorem handle_stanza_invokes_non_matching_handler :
    spec_matches recording_env (Registration.user .IQ .GET (some "example.com") 5 7)
      { type := .IQ, sub_type := .GET, from_ := some "romeo@evil.org" } = false ∧
    spec_matches recording_env (Registration.user .IQ .GET none 3 2)
      { type := .IQ, sub_type := .GET, from_ := some "romeo@evil.org" } = true ∧
    spec_matches recording_env (Registration.user .IQ .GET (some "example.com") 5 7)
      { type := .IQ, sub_type := .GET } = false ∧
    spec_matches recording_env (Registration.user .IQ .GET none 3 2)
      { type := .IQ, sub_type := .GET } = true ∧
    (register_all recording_env (wocky_porter_new recording_env [])
      [Registration.user .IQ .GET (some "example.com") 5 7,
       Registration.user .IQ .GET none 3 2]).handlers.map
        (fun h => (h.ptr, h.callback, h.node, h.domain)) =
      [(2, .handle_iq_reply, none, none), (1, .handle_iq_reply, none, none),
       (3, .user 7, none, some "example.com"), (4, .user 2, none, none)] ∧
    (handle_stanza recording_env
      (register_all recording_env (wocky_porter_new recording_env [])
        [Registration.user .IQ .GET (some "example.com") 5 7,
         Registration.user .IQ .GET none 3 2])
      { type := .IQ, sub_type := .GET, from_ := some "romeo@evil.org" }).user = [7] ∧
    (handle_stanza recording_env
      (register_all recording_env (wocky_porter_new recording_env [])
        [Registration.user .IQ .GET (some "example.com") 5 7,
         Registration.user .IQ .GET none 3 2])
      { type := .IQ, sub_type := .GET, from_ := some "romeo@evil.org" }).trace =
      [Event.handler_called 3 true] ∧
    (handle_stanza recording_env
      (register_all recording_env (wocky_porter_new recording_env [])
        [Registration.user .IQ .GET (some "example.com") 5 7,
         Registration.user .IQ .GET none 3 2])
      { type := .IQ, sub_type := .GET }).user = [7] ∧
    (handle_stanza recording_env
      (register_all recording_env (wocky_porter_new recording_env [])
        [Registration.user .IQ .GET (some "example.com") 5 7,
         Registration.user .IQ .GET none 3 2])
      { type := .IQ, sub_type := .GET }).trace =
      [Event.handler_called 3 true] := by
  decide

/-! ## IQ correlation -/

/-- C5: spoof protection.  For a pending IQ sent with to = T and an inbound reply with the
same id whose from is absent or is not exactly T, handle_iq_reply returns FALSE
(not handled) and leaves the porter as it was: nothing is completed and the
pending entry stays in the table. -/
theorem handle_iq_reply_spoof_rejected {σ : Type} (self : WockyPorter σ)
    (reply : WockyXmppStanza) (id : String) (handler : StanzaIqHandler) (T : String)
    (hid : reply.id = some id)
    (hl : g_hash_table_lookup self.iq_reply_handlers id = some handler)
    (hto : handler.recipient = some T) (hfrom : reply.from_ ≠ some T) :
    handle_iq_reply self reply = (false, self) ∧
    g_hash_table_lookup (handle_iq_reply self reply).2.iq_reply_handlers id = some handler ∧
    (handle_iq_reply self reply).2.trace = self.trace := by
  have h : handle_iq_reply self reply = (false, self) := by
    unfold handle_iq_reply
    simp [hid, hl, hto, wocky_strdiff, hfrom]
  rw [h]
  exact ⟨rfl, hl, rfl⟩

/-- C6: for a pending IQ sent without a to, an inbound reply with the matching id is
accepted whatever its from is: handle_iq_reply returns TRUE, the entry is
removed, and (the cancellable of the IQ not being cancelled) the result is
completed with that reply. -/
theorem handle_iq_reply_without_recipient {σ : Type} (self : WockyPorter σ)
    (reply : WockyXmppStanza) (id : String) (handler : StanzaIqHandler)
    (hid : reply.id = some id)
    (hl : g_hash_table_lookup self.iq_reply_handlers id = some handler)
    (hto : handler.recipient = none) :
    (handle_iq_reply self reply).1 = true ∧
    g_hash_table_lookup (handle_iq_reply self reply).2.iq_reply_handlers id = none ∧
    (g_cancellable_is_cancelled self handler.cancellable = false →
      ∃ rest, (handle_iq_reply self reply).2.trace =
        self.trace ++ Event.complete { handler.result with op_res := some reply } :: rest) :=
  handle_iq_reply_accept self reply id handler hid hl (Or.inl hto)

/-- C7: IQ correlation.  For a pending IQ with id X, an inbound reply with id X that passes
the spoof check (no recipient stored, or from equal to it) makes handle_iq_reply
return TRUE, complete the result with exactly that reply (the cancellable of
the IQ not being cancelled) and remove the entry under X; for every later
stanza with id X, whatever its from, handle_iq_reply finds no entry, returns
FALSE and changes nothing. -/
theorem handle_iq_reply_correlation {σ : Type} (self : WockyPorter σ)
    (reply later : WockyXmppStanza) (id : String) (handler : StanzaIqHandler)
    (hid : reply.id = some id)
    (hl : g_hash_table_lookup self.iq_reply_handlers id = some handler)
    (hs : handler.recipient = none ∨ reply.from_ = handler.recipient)
    (hc : g_cancellable_is_cancelled self handler.cancellable = false)
    (hlater : later.id = some id) :
    (handle_iq_reply self reply).1 = true ∧
    (∃ rest, (handle_iq_reply self reply).2.trace =
      self.trace ++ Event.complete { handler.result with op_res := some reply } :: rest) ∧
    g_hash_table_lookup (handle_iq_reply self reply).2.iq_reply_handlers id = none ∧
    handle_iq_reply (handle_iq_reply self reply).2 later =
      (false, (handle_iq_reply self reply).2) := by
  obtain ⟨h1, h2, h3⟩ := handle_iq_reply_accept self reply id handler hid hl hs
  exact ⟨h1, h3 hc, h2, handle_iq_reply_unknown _ later id hlater h2⟩



/-- C5, at a concrete input: the IQ was sent to "room@chat", the reply comes from
"evil@chat". -/
theorem handle_iq_reply_spoof_rejected_witness :
    handle_iq_reply (porter_with_pending_iq (some "room@chat"))
        { type := .IQ, sub_type := .RESULT, id := some "x", from_ := some "evil@chat" } =
      (false, porter_with_pending_iq (some "room@chat")) ∧
    g_hash_table_lookup (handle_iq_reply (porter_with_pending_iq (some "room@chat"))
        { type := .IQ, sub_type := .RESULT, id := some "x",
          from_ := some "evil@chat" }).2.iq_reply_handlers "x" =
      some (pending_iq_handler (some "room@chat")) ∧
    (handle_iq_reply (porter_with_pending_iq (some "room@chat"))
        { type := .IQ, sub_type := .RESULT, id := some "x", from_ := some "evil@chat" }).2.trace =
      (porter_with_pending_iq (some "room@chat")).trace :=
  handle_iq_reply_spoof_rejected (porter_with_pending_iq (some "room@chat"))
    { type := .IQ, sub_type := .RESULT, id := some "x", from_ := some "evil@chat" }
    "x" (pending_iq_handler (some "room@chat")) "room@chat" rfl (by decide) rfl (by decide)

/-- C6, at a concrete input: the IQ was sent without to, the reply comes from
"anyone@example.org". -/
theorem handle_iq_reply_without_recipient_witness :
    (handle_iq_reply (porter_with_pending_iq none)
      { type := .IQ, sub_type := .RESULT, id := some "x",
        from_ := some "anyone@example.org" }).1 = true ∧
    g_hash_table_lookup (handle_iq_reply (porter_with_pending_iq none)
      { type := .IQ, sub_type := .RESULT, id := some "x",
        from_ := some "anyone@example.org" }).2.iq_reply_handlers "x" = none ∧
    (g_cancellable_is_cancelled (porter_with_pending_iq none)
        (pending_iq_handler none).cancellable = false →
      ∃ rest, (handle_iq_reply (porter_with_pending_iq none)
        { type := .IQ, sub_type := .RESULT, id := some "x",
          from_ := some "anyone@example.org" }).2.trace =
        (porter_with_pending_iq none).trace ++
          Event.complete { (pending_iq_handler none).result with
            op_res := some { type := .IQ, sub_type := .RESULT, id := some "x",
                             from_ := some "anyone@example.org" } } :: rest) :=
  handle_iq_reply_without_recipient (porter_with_pending_iq none)
    { type := .IQ, sub_type := .RESULT, id := some "x", from_ := some "anyone@example.org" }
    "x" (pending_iq_handler none) rfl (by decide) rfl

/-- C7, at a concrete input: the spec's scenario S3, an IQ sent to "room@chat", its reply
from "room@chat" and a second stanza with the same id from "other@chat". -/
theorem handle_iq_reply_correlation_witness :
    (handle_iq_reply (porter_with_pending_iq (some "room@chat"))
      { type := .IQ, sub_type := .RESULT, id := some "x", from_ := some "room@chat" }).1 = true ∧
    handle_iq_reply (handle_iq_reply (porter_with_pending_iq (some "room@chat"))
        { type := .IQ, sub_type := .RESULT, id := some "x", from_ := some "room@chat" }).2
        { type := .IQ, sub_type := .RESULT, id := some "x", from_ := some "other@chat" } =
      (false, (handle_iq_reply (porter_with_pending_iq (some "room@chat"))
        { type := .IQ, sub_type := .RESULT, id := some "x", from_ := some "room@chat" }).2) :=
  have h := handle_iq_reply_correlation (porter_with_pending_iq (some "room@chat"))
    { type := .IQ, sub_type := .RESULT, id := some "x", from_ := some "room@chat" }
    { type := .IQ, sub_type := .RESULT, id := some "x", from_ := some "other@chat" }
    "x" (pending_iq_handler (some "room@chat")) rfl (by decide) (Or.inr rfl) (by decide) rfl
  ⟨h.1, h.2.2.2⟩

/-! ## Sending IQs -/

theorem send_iq_cancelled_cb_iq {σ : Type} (self : WockyPorter σ) (c : Nat)
    (handler : StanzaIqHandler) :
    (send_iq_cancelled_cb self c handler).iq_reply_handlers =
      self.iq_reply_handlers.filter (fun e => !(decide (e.2.cancellable = some c))) := by
  unfold send_iq_cancelled_cb
  simp only [iq_reply_handlers_foreach_remove_iq, g_simple_async_result_complete_iq]

theorem send_iq_cancelled_cb_idle {σ : Type} (self : WockyPorter σ) (c : Nat)
    (handler : StanzaIqHandler) : idle_ext self (send_iq_cancelled_cb self c handler) := by
  unfold send_iq_cancelled_cb
  exact idle_ext_trans (g_simple_async_result_complete_idle _ _)
    (idle_ext_of_eq (iq_reply_handlers_foreach_remove_idle _ _))

/-- The do-while loop ends as soon as the generator returns an id that is not a key of the
table: with enough draws allowed it returns the first such id, every id drawn
before it being a key. -/
theorem new_unique_id_some {σ : Type} (env : Env σ) (table : List (String × StanzaIqHandler)) :
    ∀ (fuel n k : Nat), k < fuel → g_hash_table_lookup table (env.new_id (n + k)) = none →
      ∃ m, n ≤ m ∧ m ≤ n + k ∧
        new_unique_id env table fuel n = some (env.new_id m, m + 1) ∧
        g_hash_table_lookup table (env.new_id m) = none ∧
        ∀ m', n ≤ m' → m' < m → g_hash_table_lookup table (env.new_id m') ≠ none := by
  intro fuel
  induction fuel with
  | zero => intro n k hk; omega
  | succ fuel ih =>
    intro n k hk hfree
    unfold new_unique_id
    by_cases h0 : g_hash_table_lookup table (env.new_id n) = none
    · refine ⟨n, le_refl _, by omega, by simp [h0], h0, ?_⟩
      intro m' h1 h2; omega
    · cases k with
      | zero => exact absurd hfree h0
      | succ k =>
        obtain ⟨m, h1, h2, h3, h4, h5⟩ := ih (n + 1) k (by omega)
          (by rw [show n + 1 + k = n + (k + 1) by omega]; exact hfree)
        refine ⟨m, by omega, by omega, by simp [h0, h3], h4, ?_⟩
        intro m' hm1 hm2
        by_cases e : m' = n
        · subst e; exact h0
        · exact h5 m' (by omega) hm2



/-- The table after the connection of send_iq_cancelled_cb to the cancellable of a new IQ:
untouched unless the cancellable had been cancelled, in which case the callback
ran at once and removed the entries of that cancellable. -/
theorem g_cancellable_connect_iq {σ : Type} (self : WockyPorter σ) (c : Nat)
    (handler : StanzaIqHandler) :
    ∃ T, (g_cancellable_connect self c (CancelCallback.send_iq_cancelled_cb handler.ptr)
        (fun p => send_iq_cancelled_cb p c handler)).2.iq_reply_handlers = T ∧
      T.Sublist self.iq_reply_handlers ∧
      (g_cancellable_is_cancelled self (some c) = false → T = self.iq_reply_handlers) := by
  unfold g_cancellable_connect
  by_cases hc : c ∈ self.cancelled
  · simp only [hc, if_true, send_iq_cancelled_cb_iq]
    exact ⟨_, rfl, List.filter_sublist _, by simp [g_cancellable_is_cancelled, hc]⟩
  · simp only [hc, if_false]
    exact ⟨_, rfl, List.Sublist.refl _, fun _ => rfl⟩

theorem g_cancellable_connect_idle {σ : Type} (self : WockyPorter σ) (c : Nat)
    (handler : StanzaIqHandler) :
    idle_ext self (g_cancellable_connect self c
      (CancelCallback.send_iq_cancelled_cb handler.ptr)
      (fun p => send_iq_cancelled_cb p c handler)).2 := by
  unfold g_cancellable_connect
  by_cases hc : c ∈ self.cancelled
  · simp only [hc, if_true]
    exact send_iq_cancelled_cb_idle _ _ _
  · simp only [hc, if_false]
    exact idle_ext_of_eq rfl

/-- What wocky_porter_send_iq_async does for an IQ get or set once the id is drawn. -/
theorem wocky_porter_send_iq_async_eq {σ : Type} (env : Env σ) (fuel : Nat)
    (self : WockyPorter σ) (stanza : WockyXmppStanza) (cancellable : Option Nat)
    (callback : GAsyncReadyCallback) (id : String) (next_id : Nat)
    (hiq : stanza.type = WockyStanzaType.IQ)
    (hsub : stanza.sub_type = WockyStanzaSubType.GET ∨ stanza.sub_type = WockyStanzaSubType.SET)
    (hid : new_unique_id env self.iq_reply_handlers fuel self.next_id = some (id, next_id)) :
    ∃ (r : Nat × WockyPorter σ) (handler : StanzaIqHandler),
      wocky_porter_send_iq_async env fuel self stanza cancellable callback =
        some ({ stanza with id := some id },
          wocky_porter_send_async (iq_reply_handlers_insert r.2 id handler)
            { stanza with id := some id } cancellable
            (GAsyncReadyCallback.iq_sent_cb self.next_ptr)) ∧
      handler.ptr = self.next_ptr ∧ handler.recipient = stanza.to_ ∧
      handler.cancellable = cancellable ∧ handler.result.callback = callback ∧
      idle_ext self r.2 ∧
      r.2.iq_reply_handlers.Sublist self.iq_reply_handlers ∧
      (g_cancellable_is_cancelled self cancellable = false →
        r.2.iq_reply_handlers = self.iq_reply_handlers) := by
  have hsub' : ¬ (stanza.sub_type ≠ WockyStanzaSubType.GET ∧
      stanza.sub_type ≠ WockyStanzaSubType.SET) := by
    rintro ⟨a, b⟩; rcases hsub with c | c
    · exact a c
    · exact b c
  unfold wocky_porter_send_iq_async
  simp only [hiq, ne_eq, not_true_eq_false, if_false, hsub', hid]
  cases cancellable with
  | none =>
    refine ⟨_, _, rfl, rfl, rfl, rfl, rfl, idle_ext_of_eq rfl, List.Sublist.refl _, fun _ => rfl⟩
  | some c =>
    obtain ⟨T, h1, h2, h3⟩ := g_cancellable_connect_iq
      { self with next_id := next_id, next_ptr := self.next_ptr + 2 } c
      { ptr := self.next_ptr, result := { ptr := self.next_ptr + 1, callback := callback },
        cancellable := some c, recipient := stanza.to_ }
    refine ⟨_, _, rfl, rfl, rfl, rfl, rfl, ?_, ?_, ?_⟩
    · exact idle_ext_trans (idle_ext_of_eq rfl) (g_cancellable_connect_idle _ c _)
    · rw [h1]; exact h2
    · intro hc; rw [h1]; exact h3 hc

/-- C9: every id that wocky_porter_send_iq_async writes into an IQ get or set is not the id
of an IQ pending at that moment, provided the generator returns, at some draw
`k` within the draws allowed, an id that is not pending; the ids drawn before
it are pending ones (the generator is retried).  The table after the call is
the new entry, under that id, in front of the old entries, none of which was
under that id and none of which is replaced; the old entries are all there
unless the cancellable of the call had already been cancelled (its callback
then drops the entries of that cancellable).  Keys that were distinct stay
distinct. -/
theorem wocky_porter_send_iq_async_unique_id {σ : Type} (env : Env σ) (fuel : Nat)
    (self : WockyPorter σ) (stanza : WockyXmppStanza) (cancellable : Option Nat)
    (callback : GAsyncReadyCallback) (k : Nat)
    (hiq : stanza.type = WockyStanzaType.IQ)
    (hsub : stanza.sub_type = WockyStanzaSubType.GET ∨ stanza.sub_type = WockyStanzaSubType.SET)
    (hk : g_hash_table_lookup self.iq_reply_handlers (env.new_id (self.next_id + k)) = none)
    (hfuel : k < fuel) :
    ∃ (m : Nat) (p : WockyPorter σ) (handler : StanzaIqHandler)
        (T : List (String × StanzaIqHandler)),
      wocky_porter_send_iq_async env fuel self stanza cancellable callback =
        some ({ stanza with id := some (env.new_id m) }, p) ∧
      self.next_id ≤ m ∧ m ≤ self.next_id + k ∧
      (∀ m', self.next_id ≤ m' → m' < m →
        env.new_id m' ∈ self.iq_reply_handlers.map Prod.fst) ∧
      env.new_id m ∉ self.iq_reply_handlers.map Prod.fst ∧
      p.iq_reply_handlers = (env.new_id m, handler) :: T ∧
      T.Sublist self.iq_reply_handlers ∧
      (g_cancellable_is_cancelled self cancellable = false → T = self.iq_reply_handlers) ∧
      handler.recipient = stanza.to_ ∧ handler.result.callback = callback ∧
      ((self.iq_reply_handlers.map Prod.fst).Nodup → (p.iq_reply_handlers.map Prod.fst).Nodup) := by
  obtain ⟨m, hm1, hm2, hm3, hm4, hm5⟩ :=
    new_unique_id_some env self.iq_reply_handlers fuel self.next_id k hfuel hk
  obtain ⟨r, handler, heq, _, hrec, _, hcb, _, hsubl, hsame⟩ :=
    wocky_porter_send_iq_async_eq env fuel self stanza cancellable callback (env.new_id m)
      (m + 1) hiq hsub hm3
  have hfresh : env.new_id m ∉ self.iq_reply_handlers.map Prod.fst :=
    (g_hash_table_lookup_none_iff _ _).1 hm4
  have hfreshT : env.new_id m ∉ r.2.iq_reply_handlers.map Prod.fst :=
    fun h => hfresh ((hsubl.map Prod.fst).subset h)
  have hT : g_hash_table_remove r.2.iq_reply_handlers (env.new_id m) = r.2.iq_reply_handlers :=
    g_hash_table_remove_absent _ _ ((g_hash_table_lookup_none_iff _ _).2 hfreshT)
  refine ⟨m, _, handler, r.2.iq_reply_handlers, heq, hm1, hm2, ?_, hfresh, ?_, hsubl, hsame,
    hrec, hcb, ?_⟩
  · intro m' h1 h2
    by_contra hnot
    exact hm5 m' h1 h2 ((g_hash_table_lookup_none_iff _ _).2 hnot)
  · rw [wocky_porter_send_async_iq, iq_reply_handlers_insert_iq, hT]
  · intro hnd
    rw [wocky_porter_send_async_iq, iq_reply_handlers_insert_iq, hT]
    simp only [List.map_cons, List.nodup_cons]
    exact ⟨hfreshT, (hsubl.map Prod.fst).nodup hnd⟩



/-- C9, at a concrete input where the generator collides: under `repeating_env` the first
IQ on a new porter is given the id "x" (draw 0) and stays pending.  For a
second IQ the draws 1 and 2 give "x" again, the pending id, and are retried;
draw 3 gives "y", which the call writes into the stanza.  The table then holds
"y" in front of "x", and the generator stands at draw 4. -/
theorem wocky_porter_send_iq_async_unique_id_witness :
    wocky_porter_send_iq_async repeating_env 1 (wocky_porter_new repeating_env ())
        { type := .IQ, sub_type := .GET } none (.user 2 []) =
      some ({ type := .IQ, sub_type := .GET, id := some "x" }, porter_with_pending_iq none) ∧
    (porter_with_pending_iq none).next_id = 1 ∧
    (porter_with_pending_iq none).iq_reply_handlers.map Prod.fst = ["x"] ∧
    [repeating_env.new_id 1, repeating_env.new_id 2, repeating_env.new_id 3] = ["x", "x", "y"] ∧
    (wocky_porter_send_iq_async repeating_env 3 (porter_with_pending_iq none)
        { type := .IQ, sub_type := .SET } none (.user 5 [])).map
        (fun r => (r.1.id, r.2.next_id, r.2.iq_reply_handlers.map Prod.fst)) =
      some (some "y", 4, ["y", "x"]) ∧
    ∃ (m : Nat) (p : WockyPorter Unit),
      wocky_porter_send_iq_async repeating_env 3 (porter_with_pending_iq none)
        { type := .IQ, sub_type := .SET } none (.user 5 []) =
        some ({ type := .IQ, sub_type := .SET, id := some (repeating_env.new_id m) }, p) ∧
      (∀ m', (porter_with_pending_iq none).next_id ≤ m' → m' < m →
        repeating_env.new_id m' ∈ (porter_with_pending_iq none).iq_reply_handlers.map Prod.fst) ∧
      repeating_env.new_id m ∉ (porter_with_pending_iq none).iq_reply_handlers.map Prod.fst ∧
      (p.iq_reply_handlers.map Prod.fst).Nodup :=
  ⟨rfl, by decide, by decide, by decide, by decide,
    match wocky_porter_send_iq_async_unique_id repeating_env 3 (porter_with_pending_iq none)
        { type := .IQ, sub_type := .SET } none (.user 5 []) 2 rfl (Or.inr rfl) (by decide)
        (by decide) with
    | ⟨m, p, _, _, h1, _, _, h4, h5, _, _, _, _, _, h11⟩ => ⟨m, p, h1, h4, h5, h11 (by decide)⟩⟩

/-- C10: the message with cancellable 100 is in flight and the IQ "x" waits behind it.  When
the connection reports G_IO_ERROR_CANCELLED for the message, send_stanza_cb fails
both queue elements (results 4 and 8) with that error, and iq_sent_cb returns
early: the IQ's own result (address 6) is never completed, nothing is left in
the idle queue for it, and its entry stays in the table.  With any other error
of the connection the same run completes result 6 with the error and empties
the table. -/
theorem iq_sent_cb_cancelled_by_other_stanza :
    porter_with_queued_iq.sending_queue.map (fun e => (e.ptr, e.cancellable)) =
      [(3, some 100), (7, none)] ∧
    porter_with_queued_iq.iq_reply_handlers.map (fun e => (e.1, e.2.result.ptr)) = [("x", 6)] ∧
    (send_stanza_cb porter_with_queued_iq (some .G_IO_ERROR_CANCELLED)).sending_queue = [] ∧
    completions (send_stanza_cb porter_with_queued_iq (some .G_IO_ERROR_CANCELLED)).trace =
      [(4, some .G_IO_ERROR_CANCELLED), (8, some .G_IO_ERROR_CANCELLED)] ∧
    (send_stanza_cb porter_with_queued_iq (some .G_IO_ERROR_CANCELLED)).idle = [] ∧
    (send_stanza_cb porter_with_queued_iq (some .G_IO_ERROR_CANCELLED)).iq_reply_handlers.map
      (fun e => (e.1, e.2.result.ptr)) = [("x", 6)] ∧
    completions (send_stanza_cb porter_with_queued_iq (some (.OTHER 1 1))).trace =
      [(4, some (.OTHER 1 1)), (8, some (.OTHER 1 1)), (6, some (.OTHER 1 1))] ∧
    (send_stanza_cb porter_with_queued_iq (some (.OTHER 1 1))).iq_reply_handlers = [] := by
  decide



/-! ## Cancellation of pending IQs -/

/-- C11: two pending IQs share the cancellable 100 (results 4 and 8).  When it is cancelled,
send_iq_cancelled_cb runs for the first IQ, completes result 4 with
G_IO_ERROR_CANCELLED and removes every entry of that cancellable, which frees
the second handler and disconnects it: result 8 is never completed, neither at
once nor from the idle queue (the only idle completion is that of the send of
the second stanza, result 10), although its entry has left the table. -/
theorem send_iq_cancelled_cb_shared_cancellable :
    porter_with_shared_cancellable.iq_reply_handlers.map
      (fun e => (e.1, e.2.result.ptr, e.2.cancellable)) =
      [("xx", 8, some 100), ("x", 4, some 100)] ∧
    completions porter_with_shared_cancellable.trace = [] ∧
    completions (g_cancellable_cancel porter_with_shared_cancellable 100).trace =
      [(4, some .G_IO_ERROR_CANCELLED)] ∧
    (g_cancellable_cancel porter_with_shared_cancellable 100).iq_reply_handlers = [] ∧
    (g_cancellable_cancel porter_with_shared_cancellable 100).connections = [] ∧
    (g_cancellable_cancel porter_with_shared_cancellable 100).idle.map
      (fun r => (r.ptr, r.error)) = [(10, some .G_IO_ERROR_CANCELLED)] ∧
    completions (idle_dispatch (g_cancellable_cancel porter_with_shared_cancellable 100)).trace =
      [(4, some .G_IO_ERROR_CANCELLED), (10, some .G_IO_ERROR_CANCELLED)] ∧
    (idle_dispatch (g_cancellable_cancel porter_with_shared_cancellable 100)).idle = [] := by
  decide

/-! ## Sending while closing -/

/-- C13: while a close is in progress (close_result is set from the moment
wocky_porter_close_async accepts the close until complete_close resolves it), a
wocky_porter_send_async call only schedules the CLOSING error for the caller's
callback: the send queue and the trace are unchanged, so nothing is handed to the
connection.  A close that wocky_porter_close_async accepts puts the porter in
that state. -/
theorem wocky_porter_send_async_closing {σ : Type} (self : WockyPorter σ)
    (stanza : WockyXmppStanza) (cancellable : Option Nat) (callback : GAsyncReadyCallback) :
    (self.close_result ≠ none →
      wocky_porter_send_async self stanza cancellable callback =
        { self with
          next_ptr := self.next_ptr + 1
          idle := self.idle ++ [{ ptr := self.next_ptr, callback := callback,
                                  error := some GError.WOCKY_PORTER_ERROR_CLOSING }] }) ∧
    (∀ (c : Option Nat) (cb : GAsyncReadyCallback),
      self.local_closed = false →
      ¬ (self.receive_cancellable = none ∧ self.remote_closed = false) →
      self.close_result = none →
      (wocky_porter_close_async self c cb).close_result ≠ none) := by
  constructor
  · intro h
    unfold wocky_porter_send_async
    rw [if_pos h]
    rfl
  · intro c cb h1 h2 h3
    unfold wocky_porter_close_async
    simp only [h1, h2, h3, ne_eq, not_true_eq_false, if_false, Bool.false_eq_true]
    split <;> simp [send_close]

/-! ## At most one send outstanding -/

/-- C18: the message "a" is outstanding on the connection and its completion callback sends
the message "b".  When the connection reports success, send_stanza_cb completes
"a" (result 4); the callback's wocky_porter_send finds the queue empty and
hands "b" to the connection; back in send_stanza_cb the queue is not empty and
send_head_stanza hands "b" to the connection a second time: two sends are
outstanding.  The first of the two completions empties the queue and the second
one trips the g_assert of send_stanza_cb on the popped element. -/
theorem send_stanza_cb_hands_over_twice :
    porter_with_resending_callback.trace = [Event.send_stanza_async (message "a") none] ∧
    (send_stanza_cb porter_with_resending_callback none).trace =
      [Event.send_stanza_async (message "a") none,
       Event.complete { ptr := 4, callback := .user 1 [message "b"] },
       Event.send_stanza_async (message "b") none,
       Event.send_stanza_async (message "b") none] ∧
    (send_stanza_cb porter_with_resending_callback none).sending_queue.map
      (fun e => e.stanza) = [message "b"] ∧
    (send_stanza_cb (send_stanza_cb porter_with_resending_callback none) none).sending_queue =
      [] ∧
    (send_stanza_cb (send_stanza_cb (send_stanza_cb porter_with_resending_callback none) none)
      none).trace.getLast? = some Event.g_assert_failed := by
  decide

/-- C17: wocky_porter_send_async is called for "a" and then, from the completion callback
of "a", for "b"; every send succeeds and no cancellable is involved.  The
stanzas handed to the connection are "a", "b", "b", which is not a subsequence
of the enqueue order "a", "b". -/
theorem send_order_duplicate_on_reentrant_send :
    handed (send_stanza_cb porter_with_resending_callback none).trace =
      [message "a", message "b", message "b"] ∧
    ¬ (handed (send_stanza_cb porter_with_resending_callback none).trace).Sublist
      [message "a", message "b"] := by
  decide



/-! ## Closing -/

theorem completions_append (a b : List Event) :
    completions (a ++ b) = completions a ++ completions b := by
  simp [completions, List.filterMap_append]

theorem send_head_stanza_completions {σ : Type} (self : WockyPorter σ) :
    completions (send_head_stanza self).trace = completions self.trace := by
  unfold send_head_stanza
  split
  · rfl
  · split <;> simp [completions_append, completions, g_signal_handler_disconnect]

theorem wocky_porter_send_async_completions {σ : Type} (self : WockyPorter σ)
    (stanza : WockyXmppStanza) (cancellable : Option Nat) (callback : GAsyncReadyCallback) :
    completions (wocky_porter_send_async self stanza cancellable callback).trace =
      completions self.trace := by
  unfold wocky_porter_send_async
  split
  · rfl
  · simp only []
    split
    · rw [send_head_stanza_completions]
    · split
      · rfl
      · simp only [g_cancellable_connect]
        split
        · simp [send_cancelled_cb_trace]
        · rfl

theorem resend_completions {σ : Type} (resend : List WockyXmppStanza) :
    ∀ self : WockyPorter σ,
      completions (resend.foldl wocky_porter_send self).trace = completions self.trace := by
  induction resend with
  | nil => intro self; rfl
  | cons s rest ih =>
    intro self
    rw [List.foldl_cons, ih]
    exact wocky_porter_send_async_completions self s none .NULL

theorem g_simple_async_result_complete_completions {σ : Type} (self : WockyPorter σ)
    (result : GSimpleAsyncResult) :
    completions (g_simple_async_result_complete self result).trace =
      completions self.trace ++ [(result.ptr, result.error)] := by
  unfold g_simple_async_result_complete
  split
  · rw [resend_completions]; simp [completions_append, completions]
  · simp [completions_append, completions]

/-- While a close is in progress a send from a callback changes neither the queue, nor the
trace, nor the close operation. -/
theorem resend_closing {σ : Type} (resend : List WockyXmppStanza) :
    ∀ self : WockyPorter σ, self.close_result ≠ none →
      (resend.foldl wocky_porter_send self).sending_queue = self.sending_queue ∧
      (resend.foldl wocky_porter_send self).trace = self.trace ∧
      (resend.foldl wocky_porter_send self).close_result = self.close_result ∧
      (resend.foldl wocky_porter_send self).close_cancellable = self.close_cancellable ∧
      (resend.foldl wocky_porter_send self).local_closed = self.local_closed ∧
      (resend.foldl wocky_porter_send self).remote_closed = self.remote_closed := by
  induction resend with
  | nil => intro self _; exact ⟨rfl, rfl, rfl, rfl, rfl, rfl⟩
  | cons s rest ih =>
    intro self h
    rw [List.foldl_cons]
    have hs : wocky_porter_send self s =
        g_simple_async_report_error_in_idle self GAsyncReadyCallback.NULL
          GError.WOCKY_PORTER_ERROR_CLOSING := by
      unfold wocky_porter_send wocky_porter_send_async
      rw [if_pos h]
    rw [hs]
    exact ih _ h

theorem complete_close_resolves_only_close {σ : Type} (self : WockyPorter σ) :
    resolves_only_close self (complete_close self) := by
  unfold complete_close
  split
  · exact ⟨rfl, [], by simp [completions_append, completions], by simp⟩
  · rename_i result hres
    refine ⟨?_, ?_⟩
    · simp only [g_simple_async_result_complete_iq]
    · simp only [g_simple_async_result_complete_completions]
      refine ⟨_, rfl, ?_⟩
      intro x hx
      simp only [List.mem_singleton] at hx
      subst hx
      refine ⟨result, hres, ?_⟩
      split <;> rfl

theorem resolves_only_close_refl {σ : Type} (self : WockyPorter σ) :
    resolves_only_close self self :=
  ⟨rfl, [], by simp, by simp⟩

theorem close_sent_cb_resolves_only_close {σ : Type} (self : WockyPorter σ)
    (error : Option GError) : resolves_only_close self (close_sent_cb self error) := by
  unfold close_sent_cb
  cases error with
  | some e =>
    cases hres : self.close_result with
    | none =>
      simp only [hres, ne_eq, not_true_eq_false, if_false]
      exact ⟨rfl, [], by simp [completions_append, completions], by simp⟩
    | some result =>
      simp only [hres, ne_eq, reduceCtorEq, not_false_eq_true, if_true]
      obtain ⟨h1, L, h2, h3⟩ := complete_close_resolves_only_close
        { self with local_closed := true, close_result := some { result with error := some e } }
      refine ⟨h1, L, h2, ?_⟩
      intro x hx
      obtain ⟨r, hr, hx'⟩ := h3 x hx
      simp only [Option.some.injEq] at hr
      subst hr
      exact ⟨result, hres, hx'⟩
  | none =>
    simp only []
    split
    · exact ⟨rfl, [], by simp, by simp⟩
    · split
      · exact complete_close_resolves_only_close { self with local_closed := true }
      · exact ⟨rfl, [], by simp, by simp⟩

theorem stanza_received_cb_resolves_only_close {σ : Type} (env : Env σ) (self : WockyPorter σ)
    (error : GError) :
    resolves_only_close self (stanza_received_cb env self (.error error)) := by
  unfold stanza_received_cb
  simp only []
  split
  · split
    · obtain ⟨h1, L, h2, h3⟩ := complete_close_resolves_only_close self
      refine ⟨h1, L, ?_, h3⟩
      show completions ((complete_close self).trace ++ [Event.remote_closed_signal]) = _
      rw [completions_append, h2]
      simp [completions]
    · exact ⟨rfl, [], by simp [completions_append, completions], by simp⟩
  · exact ⟨rfl, [], by simp [completions_append, completions], by simp⟩

/-- C12 (as stated, refuted): an IQ get is pending (entry "x", result 5) when the close goes
all the way (close frame sent, peer closed, close result 8 completed without
error).  The IQ's result is not among the completed results (7 is the send of
the IQ, 8 the close) and its entry is still in the table. -/
theorem complete_close_pending_iq_counterexample :
    completions porter_closed_with_pending_iq.trace = [(7, none), (8, none)] ∧
    porter_closed_with_pending_iq.close_result = none ∧
    porter_closed_with_pending_iq.local_closed = true ∧
    porter_closed_with_pending_iq.remote_closed = true ∧
    porter_closed_with_pending_iq.iq_reply_handlers.map (fun e => (e.1, e.2.result.ptr)) =
      [("x", 5)] ∧
    porter_closed_with_pending_iq.idle = [] := by
  decide

/-- C12 (amended): the completion of a close leaves the pending IQs alone.  Through
complete_close, and through its two callers close_sent_cb and stanza_received_cb
(on any error of the connection), the table of pending IQs is unchanged and the
only result completed is that of the close operation: no outstanding IQ future is
resolved and the entries stay pending. -/
theorem close_leaves_pending_iqs {σ : Type} (env : Env σ) (self : WockyPorter σ) :
    resolves_only_close self (complete_close self) ∧
    (∀ error : Option GError, resolves_only_close self (close_sent_cb self error)) ∧
    (∀ error : GError, resolves_only_close self (stanza_received_cb env self (.error error))) :=
  ⟨complete_close_resolves_only_close self, close_sent_cb_resolves_only_close self,
    stanza_received_cb_resolves_only_close env self⟩

/-- A stanza sent on a porter that is not closing and whose queue is empty is handed to the
connection at once, and no error is scheduled. -/
theorem wocky_porter_send_async_handed {σ : Type} (self : WockyPorter σ)
    (stanza : WockyXmppStanza) (cancellable : Option Nat) (callback : GAsyncReadyCallback)
    (hc : self.close_result = none) (hq : self.sending_queue = []) :
    (wocky_porter_send_async self stanza cancellable callback).trace =
      self.trace ++ [Event.send_stanza_async stanza cancellable] ∧
    (wocky_porter_send_async self stanza cancellable callback).idle = self.idle ∧
    (wocky_porter_send_async self stanza cancellable callback).sending_queue.map
      (fun e => e.stanza) = [stanza] := by
  unfold wocky_porter_send_async
  simp [hc, hq, send_head_stanza]

/-- C16 (as stated, refuted): the close of `porter_closed_with_pending_iq` has resolved
without error (result 8); a later wocky_porter_send_async of the message "late"
schedules no error and hands the message to the connection. -/
theorem send_after_close_counterexample :
    completions porter_closed_with_pending_iq.trace = [(7, none), (8, none)] ∧
    (handed (wocky_porter_send_async porter_closed_with_pending_iq (message "late") none
      (.user 3 [])).trace).getLast? = some (message "late") ∧
    (wocky_porter_send_async porter_closed_with_pending_iq (message "late") none
      (.user 3 [])).idle = [] := by
  decide

/-- C16 (amended): once complete_close has resolved a close, close_result is NULL again while
the send queue and the trace are what they were apart from the completion; a
later wocky_porter_send_async is then not refused: with the send queue empty
(the close flushed it) the stanza is handed to the connection and no error is
scheduled by the porter. -/
theorem send_after_complete_close {σ : Type} (self : WockyPorter σ) (result : GSimpleAsyncResult)
    (stanza : WockyXmppStanza) (cancellable : Option Nat) (callback : GAsyncReadyCallback)
    (hc : self.close_result = some result) (hq : self.sending_queue = []) :
    (complete_close self).close_result = none ∧
    (complete_close self).sending_queue = [] ∧
    (wocky_porter_send_async (complete_close self) stanza cancellable callback).trace =
      (complete_close self).trace ++ [Event.send_stanza_async stanza cancellable] ∧
    (wocky_porter_send_async (complete_close self) stanza cancellable callback).idle =
      (complete_close self).idle := by
  have h1 : (complete_close self).close_result = none := by
    unfold complete_close
    simp only [hc]
  have h2 : (complete_close self).sending_queue = [] := by
    unfold complete_close
    simp only [hc, g_simple_async_result_complete]
    split
    · rename_i resend _
      rw [(resend_closing resend _ (by simp)).1]
      exact hq
    · exact hq
  obtain ⟨h3, h4, _⟩ := wocky_porter_send_async_handed (complete_close self) stanza cancellable
    callback h1 h2
  exact ⟨h1, h2, h3, h4⟩

/-- C16 (amended), at a concrete input: the close of a started porter is completed after
its frame was sent, and the message "late" is sent afterwards. -/
theorem send_after_complete_close_witness :
    (complete_close porter_waiting_for_remote_close).close_result = none ∧
    (complete_close porter_waiting_for_remote_close).sending_queue = [] ∧
    (wocky_porter_send_async (complete_close porter_waiting_for_remote_close) (message "late")
      none (.user 3 [])).trace =
      (complete_close porter_waiting_for_remote_close).trace ++
        [Event.send_stanza_async (message "late") none] ∧
    (wocky_porter_send_async (complete_close porter_waiting_for_remote_close) (message "late")
      none (.user 3 [])).idle = (complete_close porter_waiting_for_remote_close).idle :=
  send_after_complete_close porter_waiting_for_remote_close
    { ptr := 4, callback := .user 9 [] } (message "late") none (.user 3 []) (by decide)
    (by decide)

theorem iq_reply_handlers_insert_trace {σ : Type} (self : WockyPorter σ) (id : String)
    (handler : StanzaIqHandler) :
    (iq_reply_handlers_insert self id handler).trace = self.trace := by
  unfold iq_reply_handlers_insert
  simp only [iq_reply_handlers_remove_trace]

/-- The callback send_iq_cancelled_cb completes the result of its IQ with
G_IO_ERROR_CANCELLED, and nothing else. -/
theorem send_iq_cancelled_cb_completions {σ : Type} (self : WockyPorter σ) (c : Nat)
    (handler : StanzaIqHandler) :
    completions (send_iq_cancelled_cb self c handler).trace =
      completions self.trace ++ [(handler.result.ptr, some GError.G_IO_ERROR_CANCELLED)] := by
  unfold send_iq_cancelled_cb
  simp only []
  rw [iq_reply_handlers_foreach_remove_trace, g_simple_async_result_complete_completions]

/-- The completions made during a call of wocky_porter_send_iq_async for an IQ get or set:
none, unless the cancellable of the call had already been cancelled, in which
case the result of the IQ is completed with G_IO_ERROR_CANCELLED. -/
theorem wocky_porter_send_iq_async_completions {σ : Type} (env : Env σ) (fuel : Nat)
    (self : WockyPorter σ) (stanza : WockyXmppStanza) (cancellable : Option Nat)
    (callback : GAsyncReadyCallback) (id : String) (next_id : Nat)
    (hiq : stanza.type = WockyStanzaType.IQ)
    (hsub : stanza.sub_type = WockyStanzaSubType.GET ∨ stanza.sub_type = WockyStanzaSubType.SET)
    (hid : new_unique_id env self.iq_reply_handlers fuel self.next_id = some (id, next_id)) :
    ∃ p : WockyPorter σ,
      wocky_porter_send_iq_async env fuel self stanza cancellable callback =
        some ({ stanza with id := some id }, p) ∧
      completions p.trace = completions self.trace ++
        (if g_cancellable_is_cancelled self cancellable = true then
          [(self.next_ptr + 1, some GError.G_IO_ERROR_CANCELLED)] else []) := by
  have hsub' : ¬ (stanza.sub_type ≠ WockyStanzaSubType.GET ∧
      stanza.sub_type ≠ WockyStanzaSubType.SET) := by
    rintro ⟨a, b⟩; rcases hsub with c | c
    · exact a c
    · exact b c
  unfold wocky_porter_send_iq_async
  simp only [hiq, ne_eq, not_true_eq_false, if_false, hsub', hid]
  cases cancellable with
  | none =>
    refine ⟨_, rfl, ?_⟩
    rw [wocky_porter_send_async_completions, iq_reply_handlers_insert_trace]
    simp [g_cancellable_is_cancelled]
  | some c =>
    refine ⟨_, rfl, ?_⟩
    rw [wocky_porter_send_async_completions, iq_reply_handlers_insert_trace]
    unfold g_cancellable_connect
    by_cases hc : c ∈ self.cancelled
    · simp only [hc, if_true, send_iq_cancelled_cb_completions, g_cancellable_is_cancelled,
        decide_True]
    · simp [hc, g_cancellable_is_cancelled]

/-- C8: wocky_porter_send_iq_async fails with NOT_IQ if and only if the stanza is not an IQ
or its sub-kind is neither get nor set.  In that case the call only schedules
the NOT_IQ error for the caller's callback: the stanza keeps its id, the table of
pending IQs, the send queue and the trace are unchanged.  In the other case the
call returns as soon as one of the draws allowed gives an id that is not
pending, and it does not fail with NOT_IQ, neither at once nor from the main
loop: no result it adds to the idle queue carries NOT_IQ, and the completions it
makes itself are none, or, when the cancellable of the call had already been
cancelled, the one of the caller's result (address next_ptr + 1) with
G_IO_ERROR_CANCELLED. -/
theorem wocky_porter_send_iq_async_not_iq {σ : Type} (env : Env σ) (fuel : Nat)
    (self : WockyPorter σ) (stanza : WockyXmppStanza) (cancellable : Option Nat)
    (callback : GAsyncReadyCallback) :
    ((stanza.type ≠ WockyStanzaType.IQ ∨
        (stanza.sub_type ≠ WockyStanzaSubType.GET ∧ stanza.sub_type ≠ WockyStanzaSubType.SET)) →
      wocky_porter_send_iq_async env fuel self stanza cancellable callback =
        some (stanza,
          { self with
            next_ptr := self.next_ptr + 1
            idle := self.idle ++ [{ ptr := self.next_ptr, callback := callback,
                                    error := some GError.WOCKY_PORTER_ERROR_NOT_IQ }] })) ∧
    (¬ (stanza.type ≠ WockyStanzaType.IQ ∨
        (stanza.sub_type ≠ WockyStanzaSubType.GET ∧ stanza.sub_type ≠ WockyStanzaSubType.SET)) →
      (∀ k, k < fuel →
        g_hash_table_lookup self.iq_reply_handlers (env.new_id (self.next_id + k)) = none →
        ∃ s p, wocky_porter_send_iq_async env fuel self stanza cancellable callback =
          some (s, p)) ∧
      ∀ s p, wocky_porter_send_iq_async env fuel self stanza cancellable callback = some (s, p) →
        (∃ extra, p.idle = self.idle ++ extra ∧
          ∀ r ∈ extra, r.error ≠ some GError.WOCKY_PORTER_ERROR_NOT_IQ) ∧
        completions p.trace = completions self.trace ++
          (if g_cancellable_is_cancelled self cancellable = true then
            [(self.next_ptr + 1, some GError.G_IO_ERROR_CANCELLED)] else [])) := by
  constructor
  · intro hbad
    unfold wocky_porter_send_iq_async
    by_cases h1 : stanza.type ≠ WockyStanzaType.IQ
    · rw [if_pos h1]; rfl
    · rw [if_neg h1]
      rcases hbad with h | h
      · exact absurd h h1
      · rw [if_pos h]; rfl
  · intro hgood
    have hiq : stanza.type = WockyStanzaType.IQ := by
      by_contra h; exact hgood (Or.inl h)
    have hsub : stanza.sub_type = WockyStanzaSubType.GET ∨
        stanza.sub_type = WockyStanzaSubType.SET := by
      by_contra h
      exact hgood (Or.inr ⟨fun c => h (Or.inl c), fun c => h (Or.inr c)⟩)
    constructor
    · intro k hk hfree
      obtain ⟨m, _, _, hm3, _, _⟩ :=
        new_unique_id_some env self.iq_reply_handlers fuel self.next_id k hk hfree
      obtain ⟨p, heq, _⟩ := wocky_porter_send_iq_async_completions env fuel self stanza
        cancellable callback (env.new_id m) (m + 1) hiq hsub hm3
      exact ⟨_, p, heq⟩
    · intro s p hres
      cases hid : new_unique_id env self.iq_reply_handlers fuel self.next_id with
      | none =>
        have hsub' : ¬ (stanza.sub_type ≠ WockyStanzaSubType.GET ∧
            stanza.sub_type ≠ WockyStanzaSubType.SET) := by
          rintro ⟨a, b⟩; rcases hsub with c | c
          · exact a c
          · exact b c
        unfold wocky_porter_send_iq_async at hres
        simp [hiq, hsub', hid] at hres
      | some v =>
        obtain ⟨id, next_id⟩ := v
        obtain ⟨r, handler, heq, _, _, _, _, hidle, _, _⟩ :=
          wocky_porter_send_iq_async_eq env fuel self stanza cancellable callback id next_id
            hiq hsub hid
        obtain ⟨q, heq2, hcomp⟩ := wocky_porter_send_iq_async_completions env fuel self stanza
          cancellable callback id next_id hiq hsub hid
        constructor
        · rw [heq] at hres
          simp only [Option.some.injEq, Prod.mk.injEq] at hres
          rw [← hres.2]
          exact idle_ext_trans hidle (idle_ext_trans
            (idle_ext_of_eq (iq_reply_handlers_insert_idle _ _ _))
            (wocky_porter_send_async_idle _ _ _ _))
        · rw [heq2] at hres
          simp only [Option.some.injEq, Prod.mk.injEq] at hres
          rw [← hres.2]
          exact hcomp

/-- C8, at concrete inputs.  A message given to wocky_porter_send_iq_async on a new porter is
answered with NOT_IQ from the main loop (result 3) and changes nothing else.
An IQ get whose cancellable 100 was cancelled before the call is given the id
"x" and its result (address 4) is completed during the call, with
G_IO_ERROR_CANCELLED and not with NOT_IQ; nothing is left in the idle queue. -/
theorem wocky_porter_send_iq_async_not_iq_witness :
    wocky_porter_send_iq_async plain_env 1 (wocky_porter_new plain_env ())
        { type := .MESSAGE, sub_type := .GET } none (.user 2 []) =
      some ({ type := .MESSAGE, sub_type := .GET },
        { wocky_porter_new plain_env () with
          next_ptr := (wocky_porter_new plain_env ()).next_ptr + 1
          idle := (wocky_porter_new plain_env ()).idle ++
            [{ ptr := (wocky_porter_new plain_env ()).next_ptr, callback := .user 2 [],
               error := some GError.WOCKY_PORTER_ERROR_NOT_IQ }] }) ∧
    (wocky_porter_send_iq_async plain_env 1
        (g_cancellable_cancel (wocky_porter_new plain_env ()) 100)
        { type := .IQ, sub_type := .GET } (some 100) (.user 2 [])).map
        (fun r => (r.1.id, r.2.idle, completions r.2.trace)) =
      some (some "x", [], [(4, some GError.G_IO_ERROR_CANCELLED)]) ∧
    ∃ (s : WockyXmppStanza) (p : WockyPorter Unit),
      wocky_porter_send_iq_async plain_env 1
        (g_cancellable_cancel (wocky_porter_new plain_env ()) 100)
        { type := .IQ, sub_type := .GET } (some 100) (.user 2 []) = some (s, p) ∧
      (∃ extra, p.idle = (g_cancellable_cancel (wocky_porter_new plain_env ()) 100).idle ++ extra ∧
        ∀ r ∈ extra, r.error ≠ some GError.WOCKY_PORTER_ERROR_NOT_IQ) ∧
      completions p.trace =
        completions (g_cancellable_cancel (wocky_porter_new plain_env ()) 100).trace ++
          (if g_cancellable_is_cancelled (g_cancellable_cancel (wocky_porter_new plain_env ()) 100)
              (some 100) = true then
            [((g_cancellable_cancel (wocky_porter_new plain_env ()) 100).next_ptr + 1,
              some GError.G_IO_ERROR_CANCELLED)] else []) :=
  ⟨(wocky_porter_send_iq_async_not_iq plain_env 1 (wocky_porter_new plain_env ())
      { type := .MESSAGE, sub_type := .GET } none (.user 2 [])).1 (Or.inl (by decide)),
    by decide,
    match ((wocky_porter_send_iq_async_not_iq plain_env 1
        (g_cancellable_cancel (wocky_porter_new plain_env ()) 100)
        { type := .IQ, sub_type := .GET } (some 100) (.user 2 [])).2 (by decide)).1 0
        (by decide) (by decide) with
    | ⟨s, p, h⟩ => ⟨s, p, h,
        ((wocky_porter_send_iq_async_not_iq plain_env 1
          (g_cancellable_cancel (wocky_porter_new plain_env ()) 100)
          { type := .IQ, sub_type := .GET } (some 100) (.user 2 [])).2 (by decide)).2 s p h⟩⟩



/-! ## Failure of a send -/

theorem callback_sends_eq {σ : Type} (self : WockyPorter σ) (callback : GAsyncReadyCallback) :
    callback_sends self callback = (callback_stanzas self callback).length := by
  unfold callback_sends callback_stanzas
  cases callback with
  | NULL => rfl
  | user tag resend => rfl
  | iq_sent_cb h =>
    simp only []
    cases hf : self.iq_reply_handlers.find? (fun e => decide (e.2.ptr = h)) with
    | none => rfl
    | some e =>
      obtain ⟨k, v⟩ := e
      obtain ⟨p, r, c, s, rc⟩ := v
      obtain ⟨rp, rcb, re, ro⟩ := r
      cases rcb <;> rfl

theorem sends_only_refl {σ : Type} (S : List WockyXmppStanza) (n : Nat) (p : WockyPorter σ) :
    sends_only S n p p :=
  ⟨⟨[], by simp, by simp, by simp⟩, ⟨[], by simp, by simp⟩, rfl⟩

theorem sends_only_trans {σ : Type} {S : List WockyXmppStanza} {n m : Nat}
    {a b c : WockyPorter σ} (h1 : sends_only S n a b) (h2 : sends_only S m b c) :
    sends_only S (n + m) a c := by
  obtain ⟨⟨new1, q1, c1, l1⟩, ⟨ad1, t1, e1⟩, r1⟩ := h1
  obtain ⟨⟨new2, q2, c2, l2⟩, ⟨ad2, t2, e2⟩, r2⟩ := h2
  refine ⟨⟨new1 ++ new2, by rw [q2, q1, List.append_assoc], ?_, by simp; omega⟩,
    ⟨ad1 ++ ad2, by rw [t2, t1, List.append_assoc], ?_⟩, by rw [r2, r1]⟩
  · intro x hx
    rcases List.mem_append.1 hx with h | h
    · exact c1 x h
    · exact c2 x h
  · intro ev hev
    rcases List.mem_append.1 hev with h | h
    · exact e1 ev h
    · exact e2 ev h

theorem sends_only_mono {σ : Type} {S T : List WockyXmppStanza} {n m : Nat}
    {a b : WockyPorter σ} (h : sends_only S n a b) (hS : ∀ s ∈ S, s ∈ T) (hn : n ≤ m) :
    sends_only T m a b := by
  obtain ⟨⟨new1, q1, c1, l1⟩, ⟨ad1, t1, e1⟩, r1⟩ := h
  refine ⟨⟨new1, q1, c1, by omega⟩, ⟨ad1, t1, ?_⟩, r1⟩
  intro ev hev
  rcases e1 ev hev with h | ⟨s, hs, h⟩
  · exact Or.inl h
  · exact Or.inr ⟨s, hS s hs, h⟩

/-- The queue element that wocky_porter_send_async allocates. -/
theorem wocky_porter_send_async_open {σ : Type} (self : WockyPorter σ)
    (stanza : WockyXmppStanza) (callback : GAsyncReadyCallback)
    (hc : self.close_result = none) :
    ∃ elem : sending_queue_elem, elem.result.callback = callback ∧ elem.stanza = stanza ∧
      elem.ptr = self.next_ptr ∧ elem.cancelled_sig_id = 0 ∧ elem.cancellable = none ∧
      elem.result.ptr = self.next_ptr + 1 ∧ elem.result.error = none ∧
      (self.sending_queue = [] →
        wocky_porter_send_async self stanza none callback =
          { self with
            next_ptr := self.next_ptr + 2
            sending_queue := [elem]
            trace := self.trace ++ [Event.send_stanza_async stanza none] }) ∧
      (self.sending_queue ≠ [] →
        wocky_porter_send_async self stanza none callback =
          { self with
            next_ptr := self.next_ptr + 2
            sending_queue := self.sending_queue ++ [elem] }) := by
  refine ⟨{ ptr := self.next_ptr, stanza := stanza, cancellable := none,
            result := { ptr := self.next_ptr + 1, callback := callback } },
    rfl, rfl, rfl, rfl, rfl, rfl, rfl, ?_, ?_⟩
  · intro hq
    unfold wocky_porter_send_async
    simp [hc, hq, send_head_stanza]
  · intro hq
    unfold wocky_porter_send_async
    have hlen : ¬ (self.sending_queue.length + 1 = 1) := by
      cases hq' : self.sending_queue with
      | nil => exact absurd hq' hq
      | cons x xs => simp
    simp [hc, hlen]

/-- A wocky_porter_send from a callback: at most one element without callback is added to the
queue, and the only event is the hand-over of that stanza. -/
theorem wocky_porter_send_sends_only {σ : Type} (self : WockyPorter σ) (s : WockyXmppStanza) :
    sends_only [s] 1 self (wocky_porter_send self s) ∧
    (wocky_porter_send self s).iq_reply_handlers = self.iq_reply_handlers := by
  refine ⟨?_, wocky_porter_send_async_iq self s none .NULL⟩
  unfold wocky_porter_send
  by_cases hc : self.close_result = none
  · obtain ⟨elem, h1, _, _, _, _, _, _, he, hne⟩ :=
      wocky_porter_send_async_open self s GAsyncReadyCallback.NULL hc
    by_cases hq : self.sending_queue = []
    · rw [he hq]
      refine ⟨⟨[elem], by simp [hq], ?_, by simp⟩,
        ⟨[Event.send_stanza_async s none], rfl, ?_⟩, rfl⟩
      · intro x hx
        simp only [List.mem_singleton] at hx
        subst hx
        exact h1
      · intro ev hev
        simp only [List.mem_singleton] at hev
        exact Or.inr ⟨s, by simp, hev⟩
    · rw [hne hq]
      refine ⟨⟨[elem], rfl, ?_, by simp⟩, ⟨[], by simp, by simp⟩, rfl⟩
      intro x hx
      simp only [List.mem_singleton] at hx
      subst hx
      exact h1
  · unfold wocky_porter_send_async
    rw [if_pos hc]
    exact ⟨⟨[], by simp [g_simple_async_report_error_in_idle,
      g_simple_async_result_complete_in_idle], by simp, by simp⟩,
      ⟨[], by simp [g_simple_async_report_error_in_idle,
        g_simple_async_result_complete_in_idle], by simp⟩, rfl⟩

theorem resend_sends_only {σ : Type} (resend : List WockyXmppStanza) :
    ∀ self : WockyPorter σ,
      sends_only resend resend.length self (resend.foldl wocky_porter_send self) := by
  induction resend with
  | nil => intro self; exact sends_only_refl _ _ _
  | cons s rest ih =>
    intro self
    rw [List.foldl_cons]
    have h1 := (wocky_porter_send_sends_only self s).1
    have h2 := ih (wocky_porter_send self s)
    have h := sends_only_trans
      (sends_only_mono h1 (T := s :: rest) (by intro x hx; simp at hx; simp [hx]) (le_refl 1))
      (sends_only_mono h2 (T := s :: rest) (by intro x hx; simp [hx]) (le_refl _))
    exact sends_only_mono h (fun x hx => hx) (by simp; omega)

/-- The completion of a result of the caller: the completion is recorded, then the
callback's sends take place. -/
theorem g_simple_async_result_complete_step {σ : Type} (self : WockyPorter σ)
    (result : GSimpleAsyncResult) :
    (∃ new : List sending_queue_elem,
      (g_simple_async_result_complete self result).sending_queue = self.sending_queue ++ new ∧
      (∀ x ∈ new, x.result.callback = GAsyncReadyCallback.NULL) ∧
      new.length ≤ (caller_stanzas result.callback).length) ∧
    (∃ rest : List Event,
      (g_simple_async_result_complete self result).trace =
        self.trace ++ Event.complete result :: rest ∧
      ∀ ev ∈ rest, (∃ r, ev = Event.complete r) ∨
        (∃ s ∈ caller_stanzas result.callback, ev = Event.send_stanza_async s none)) ∧
    (g_simple_async_result_complete self result).close_result = self.close_result := by
  unfold g_simple_async_result_complete
  split
  · rename_i tag resend hcb
    obtain ⟨⟨new, q1, c1, l1⟩, ⟨added, t1, e1⟩, r1⟩ := resend_sends_only resend
      { self with trace := self.trace ++ [Event.complete result] }
    refine ⟨⟨new, q1, c1, by simpa [caller_stanzas, hcb] using l1⟩,
      ⟨added, by rw [t1]; simp, ?_⟩, r1⟩
    intro ev hev
    simpa [caller_stanzas, hcb] using e1 ev hev
  · exact ⟨⟨[], by simp, by simp, by simp⟩, ⟨[], by simp, by simp⟩, rfl⟩

theorem find_filter_ptr (t : List (String × StanzaIqHandler)) (h h' : Nat) :
    (t.filter (fun e => !(decide (e.2.ptr = h)))).find? (fun e => decide (e.2.ptr = h')) =
      if h' = h then none else t.find? (fun e => decide (e.2.ptr = h')) := by
  induction t with
  | nil => simp
  | cons x xs ih =>
    by_cases hx : x.2.ptr = h
    · simp only [List.filter_cons, hx, decide_True, Bool.not_true, Bool.false_eq_true, if_false]
      rw [ih]
      by_cases hh : h' = h
      · simp [hh]
      · have : ¬ x.2.ptr = h' := fun c => hh (c.symm.trans hx)
        simp [hh, List.find?_cons, this]
    · simp only [List.filter_cons, hx, decide_False, Bool.not_false, if_true, List.find?_cons]
      by_cases hx' : x.2.ptr = h'
      · have : ¬ h' = h := fun c => hx (hx'.trans c)
        simp [hx', this]
      · simp only [hx', decide_False]
        exact ih

theorem table_shrinks_refl {σ : Type} (p : WockyPorter σ) : table_shrinks p p :=
  fun _ => Or.inl rfl

theorem table_shrinks_of_eq {σ : Type} {p q : WockyPorter σ}
    (h : q.iq_reply_handlers = p.iq_reply_handlers) : table_shrinks p q :=
  fun _ => Or.inl (by rw [h])

theorem table_shrinks_trans {σ : Type} {a b c : WockyPorter σ} (h1 : table_shrinks a b)
    (h2 : table_shrinks b c) : table_shrinks a c := by
  intro h
  rcases h2 h with e | e
  · rcases h1 h with e' | e'
    · exact Or.inl (e.trans e')
    · exact Or.inr (e.trans e')
  · exact Or.inr e

theorem callback_stanzas_shrinks {σ : Type} {p q : WockyPorter σ} (h : table_shrinks p q)
    (callback : GAsyncReadyCallback) :
    callback_stanzas q callback = callback_stanzas p callback ∨
      callback_stanzas q callback = [] := by
  cases callback with
  | NULL => exact Or.inl rfl
  | user tag resend => exact Or.inl rfl
  | iq_sent_cb hp =>
    unfold callback_stanzas
    simp only []
    rcases h hp with e | e
    · rw [e]; exact Or.inl rfl
    · rw [e]; exact Or.inr rfl



theorem stanza_iq_handler_free_queue {σ : Type} (self : WockyPorter σ) (h : StanzaIqHandler) :
    (stanza_iq_handler_free self h).sending_queue = self.sending_queue ∧
    (stanza_iq_handler_free self h).close_result = self.close_result := by
  unfold stanza_iq_handler_free
  split <;> exact ⟨rfl, rfl⟩

theorem free_all_queue {σ : Type} (removed : List (String × StanzaIqHandler)) :
    ∀ self : WockyPorter σ,
      (removed.foldl (fun p e => stanza_iq_handler_free p e.2) self).sending_queue =
        self.sending_queue ∧
      (removed.foldl (fun p e => stanza_iq_handler_free p e.2) self).close_result =
        self.close_result := by
  induction removed with
  | nil => intro self; exact ⟨rfl, rfl⟩
  | cons e rest ih =>
    intro self
    rw [List.foldl_cons]
    obtain ⟨h1, h2⟩ := ih (stanza_iq_handler_free self e.2)
    obtain ⟨h3, h4⟩ := stanza_iq_handler_free_queue self e.2
    exact ⟨h1.trans h3, h2.trans h4⟩

theorem iq_reply_handlers_foreach_remove_queue {σ : Type} (self : WockyPorter σ)
    (func : String → StanzaIqHandler → Bool) :
    (iq_reply_handlers_foreach_remove self func).sending_queue = self.sending_queue ∧
    (iq_reply_handlers_foreach_remove self func).close_result = self.close_result := by
  unfold iq_reply_handlers_foreach_remove
  simp only []
  obtain ⟨h1, h2⟩ := free_all_queue
    (self.iq_reply_handlers.filter (fun e => func e.1 e.2))
    { self with iq_reply_handlers := self.iq_reply_handlers.filter (fun e => !(func e.1 e.2)) }
  exact ⟨h1, h2⟩

/-- The completion of the result of a queue element: the completion is recorded; the only
other effects are completions and sends made by the callbacks of the caller, and,
through iq_sent_cb, the removal of entries from the table of pending IQs. -/
theorem sending_queue_elem_complete_step {σ : Type} (p : WockyPorter σ)
    (r : GSimpleAsyncResult) :
    (∃ new : List sending_queue_elem,
      (sending_queue_elem_complete p r).sending_queue = p.sending_queue ++ new ∧
      (∀ x ∈ new, x.result.callback = GAsyncReadyCallback.NULL) ∧
      new.length ≤ (callback_stanzas p r.callback).length) ∧
    (∃ rest : List Event,
      (sending_queue_elem_complete p r).trace = p.trace ++ Event.complete r :: rest ∧
      ∀ ev ∈ rest, (∃ r', ev = Event.complete r') ∨
        (∃ s ∈ callback_stanzas p r.callback, ev = Event.send_stanza_async s none)) ∧
    (sending_queue_elem_complete p r).close_result = p.close_result ∧
    table_shrinks p (sending_queue_elem_complete p r) := by
  have trivial_case : ∀ (S : List WockyXmppStanza) (q : WockyPorter σ),
      q = { p with trace := p.trace ++ [Event.complete r] } →
      (∃ new : List sending_queue_elem, q.sending_queue = p.sending_queue ++ new ∧
        (∀ x ∈ new, x.result.callback = GAsyncReadyCallback.NULL) ∧
        new.length ≤ S.length) ∧
      (∃ rest : List Event, q.trace = p.trace ++ Event.complete r :: rest ∧
        ∀ ev ∈ rest, (∃ r', ev = Event.complete r') ∨
          (∃ s ∈ S, ev = Event.send_stanza_async s none)) ∧
      q.close_result = p.close_result ∧ table_shrinks p q := by
    intro S q hq
    subst hq
    exact ⟨⟨[], by simp, by simp, by simp⟩, ⟨[], by simp, by simp⟩, rfl,
      table_shrinks_refl p⟩
  cases hcb : r.callback with
  | NULL =>
    have h : sending_queue_elem_complete p r = g_simple_async_result_complete p r := by
      simp only [sending_queue_elem_complete, hcb]
    rw [h]
    obtain ⟨h1, h2, h3⟩ := g_simple_async_result_complete_step p r
    rw [hcb] at h1 h2
    exact ⟨h1, h2, h3, table_shrinks_of_eq (g_simple_async_result_complete_iq p r)⟩
  | user tag resend =>
    have h : sending_queue_elem_complete p r = g_simple_async_result_complete p r := by
      simp only [sending_queue_elem_complete, hcb]
    rw [h]
    obtain ⟨h1, h2, h3⟩ := g_simple_async_result_complete_step p r
    rw [hcb] at h1 h2
    exact ⟨h1, h2, h3, table_shrinks_of_eq (g_simple_async_result_complete_iq p r)⟩
  | iq_sent_cb hp =>
    have h : sending_queue_elem_complete p r =
        iq_sent_cb { p with trace := p.trace ++ [Event.complete r] } r hp := by
      simp only [sending_queue_elem_complete, hcb]
    rw [h]
    unfold iq_sent_cb
    split
    · exact trivial_case _ _ rfl
    · rename_i e _
      split
      · exact trivial_case _ _ rfl
      · split
        · exact trivial_case _ _ rfl
        · rename_i entry hf
          have hf : p.iq_reply_handlers.find? (fun e => decide (e.2.ptr = hp)) = some entry := hf
          have hst : callback_stanzas p (GAsyncReadyCallback.iq_sent_cb hp) =
              caller_stanzas entry.2.result.callback := by
            simp only [callback_stanzas, hf]
          rw [hst]
          obtain ⟨⟨new, q1, c1, l1⟩, ⟨rest, t1, e1⟩, r1⟩ := g_simple_async_result_complete_step
            { p with trace := p.trace ++ [Event.complete r] }
            { entry.2.result with error := some e }
          obtain ⟨fq, fc⟩ := iq_reply_handlers_foreach_remove_queue
            (g_simple_async_result_complete
              { p with trace := p.trace ++ [Event.complete r] }
              { entry.2.result with error := some e })
            (fun _ value => decide (value.ptr = hp))
          refine ⟨⟨new, by rw [fq, q1], c1, l1⟩,
            ⟨Event.complete { entry.2.result with error := some e } :: rest, ?_, ?_⟩,
            by rw [fc, r1], ?_⟩
          · rw [iq_reply_handlers_foreach_remove_trace, t1]
            simp
          · intro ev hev
            rcases List.mem_cons.1 hev with h' | h'
            · exact Or.inl ⟨_, h'⟩
            · exact e1 ev h'
          · intro h'
            rw [iq_reply_handlers_foreach_remove_iq, g_simple_async_result_complete_iq]
            have := find_filter_ptr p.iq_reply_handlers hp h'
            simp only [] at this ⊢
            rw [this]
            by_cases hh : h' = hp
            · exact Or.inr (by simp [hh])
            · exact Or.inl (by simp [hh])



theorem callback_stanzas_congr {σ : Type} {p q : WockyPorter σ}
    (h : q.iq_reply_handlers = p.iq_reply_handlers) (callback : GAsyncReadyCallback) :
    callback_stanzas q callback = callback_stanzas p callback := by
  unfold callback_stanzas
  rw [h]

theorem sending_queue_elem_free_frame {σ : Type} (self : WockyPorter σ)
    (e : sending_queue_elem) :
    (sending_queue_elem_free self e).sending_queue = self.sending_queue ∧
    (sending_queue_elem_free self e).close_result = self.close_result := by
  unfold sending_queue_elem_free
  split <;> exact ⟨rfl, rfl⟩

theorem sending_queue_work_null {σ : Type} (p : WockyPorter σ) (new : List sending_queue_elem)
    (h : ∀ x ∈ new, x.result.callback = GAsyncReadyCallback.NULL) :
    (new.map (fun e => 1 + callback_sends p e.result.callback)).sum = new.length := by
  induction new with
  | nil => rfl
  | cons x xs ih =>
    have hx : x.result.callback = GAsyncReadyCallback.NULL := h x (List.mem_cons_self x xs)
    have ih1 := ih (fun y hy => h y (List.mem_cons_of_mem x hy))
    have h0 : callback_sends p x.result.callback = 0 := by
      rw [hx]
      rfl
    rw [List.map_cons, List.sum_cons, List.length_cons, ih1, h0]
    omega

theorem sending_queue_work_shrinks {σ : Type} {p q : WockyPorter σ} (h : table_shrinks p q)
    (l : List sending_queue_elem) :
    (l.map (fun e => 1 + callback_sends q e.result.callback)).sum ≤
      (l.map (fun e => 1 + callback_sends p e.result.callback)).sum := by
  induction l with
  | nil => simp
  | cons x xs ih =>
    simp only [List.map_cons, List.sum_cons]
    have : callback_sends q x.result.callback ≤ callback_sends p x.result.callback := by
      rw [callback_sends_eq, callback_sends_eq]
      rcases callback_stanzas_shrinks h x.result.callback with e | e
      · rw [e]
      · rw [e]; simp
    omega

/-- One turn of the failure loop of send_stanza_cb, as a porter. -/
theorem send_stanza_cb_fail_succ {σ : Type} (error : GError) (n : Nat) (p : WockyPorter σ)
    (elem : sending_queue_elem) (rest : List sending_queue_elem)
    (hq : p.sending_queue = elem :: rest) :
    send_stanza_cb_fail error (n + 1) p =
      send_stanza_cb_fail error n
        (sending_queue_elem_free
          (sending_queue_elem_complete { p with sending_queue := rest }
            { elem.result with error := some error }) elem) := by
  rw [send_stanza_cb_fail]
  simp only [hq]

/-- The failure loop of send_stanza_cb, given as many turns as `sending_queue_work` counts:
it ends with an empty queue; the result of every element that was in the queue
is completed with the error; every other event is a completion or the hand-over,
without cancellable, of a stanza sent by the callback of one of the elements;
close_result is unchanged. -/
theorem send_stanza_cb_fail_spec {σ : Type} (error : GError) :
    ∀ (n : Nat) (p : WockyPorter σ), sending_queue_work p ≤ n →
      (send_stanza_cb_fail error n p).sending_queue = [] ∧
      (send_stanza_cb_fail error n p).close_result = p.close_result ∧
      ∃ added : List Event, (send_stanza_cb_fail error n p).trace = p.trace ++ added ∧
        (∀ elem ∈ p.sending_queue,
          Event.complete { elem.result with error := some error } ∈ added) ∧
        (∀ ev ∈ added, (∃ r, ev = Event.complete r) ∨
          (∃ s, (∃ elem ∈ p.sending_queue, s ∈ callback_stanzas p elem.result.callback) ∧
            ev = Event.send_stanza_async s none)) := by
  intro n
  induction n with
  | zero =>
    intro p hw
    have hq : p.sending_queue = [] := by
      cases hq : p.sending_queue with
      | nil => rfl
      | cons x xs =>
        unfold sending_queue_work at hw
        rw [hq] at hw
        simp only [List.map_cons, List.sum_cons] at hw
        omega
    rw [send_stanza_cb_fail]
    exact ⟨hq, rfl, [], by simp, by simp [hq], by simp⟩
  | succ n ih =>
    intro p hw
    cases hq : p.sending_queue with
    | nil =>
      have : send_stanza_cb_fail error (n + 1) p = p := by
        rw [send_stanza_cb_fail]
        simp only [hq]
      rw [this]
      exact ⟨hq, rfl, [], by simp, by simp, by simp⟩
    | cons elem rest =>
      rw [send_stanza_cb_fail_succ error n p elem rest hq]
      obtain ⟨⟨new, q1, c1, l1⟩, ⟨tr, t1, e1⟩, r1, ts⟩ := sending_queue_elem_complete_step
        { p with sending_queue := rest } { elem.result with error := some error }
      obtain ⟨fq, fc⟩ := sending_queue_elem_free_frame
        (sending_queue_elem_complete { p with sending_queue := rest }
          { elem.result with error := some error }) elem
      have ftr := sending_queue_elem_free_trace
        (sending_queue_elem_complete { p with sending_queue := rest }
          { elem.result with error := some error }) elem
      have fiq := sending_queue_elem_free_iq
        (sending_queue_elem_complete { p with sending_queue := rest }
          { elem.result with error := some error }) elem
      generalize hp3 : sending_queue_elem_free
        (sending_queue_elem_complete { p with sending_queue := rest }
          { elem.result with error := some error }) elem = p3 at fq fc ftr fiq ⊢
      generalize hp2 : sending_queue_elem_complete { p with sending_queue := rest }
          { elem.result with error := some error } = p2 at q1 t1 r1 ts fq fc ftr fiq
      have hts : table_shrinks p p3 := by
        intro h
        have := ts h
        rw [← fiq] at this
        exact this
      have hst : callback_stanzas { p with sending_queue := rest } elem.result.callback =
          callback_stanzas p elem.result.callback := callback_stanzas_congr rfl _
      have hq3 : p3.sending_queue = rest ++ new := by rw [fq, q1]
      have hw3 : sending_queue_work p3 ≤ n := by
        unfold sending_queue_work at hw ⊢
        rw [hq3, List.map_append, List.sum_append, sending_queue_work_null p3 new c1]
        rw [hq] at hw
        simp only [List.map_cons, List.sum_cons] at hw
        have h1 := sending_queue_work_shrinks hts rest
        have h2 : new.length ≤ callback_sends p elem.result.callback := by
          rw [callback_sends_eq, ← hst]
          exact l1
        omega
      obtain ⟨i1, i2, added, i3, i4, i5⟩ := ih p3 hw3
      refine ⟨i1, by rw [i2, fc, r1], Event.complete { elem.result with error := some error } ::
        tr ++ added, ?_, ?_, ?_⟩
      · rw [i3, ftr, t1]
        simp
      · intro x hx
        rcases List.mem_cons.1 hx with h | h
        · subst h
          simp
        · have := i4 x (by rw [hq3]; exact List.mem_append_left _ h)
          simp [this]
      · intro ev hev
        simp only [List.cons_append, List.mem_cons, List.mem_append] at hev
        rcases hev with h | h | h
        · exact Or.inl ⟨_, h⟩
        · rcases e1 ev h with h' | ⟨s, hs, h'⟩
          · exact Or.inl h'
          · rw [hst] at hs
            exact Or.inr ⟨s, ⟨elem, List.mem_cons_self _ _, hs⟩, h'⟩
        · rcases i5 ev h with h' | ⟨s, ⟨x, hx, hs⟩, h'⟩
          · exact Or.inl h'
          · rw [hq3] at hx
            rcases List.mem_append.1 hx with hx' | hx'
            · rcases callback_stanzas_shrinks hts x.result.callback with e | e
              · rw [e] at hs
                exact Or.inr ⟨s, ⟨x, List.mem_cons_of_mem _ hx', hs⟩, h'⟩
              · rw [e] at hs
                simp at hs
            · have hnull := c1 x hx'
              rw [hnull] at hs
              simp [callback_stanzas, caller_stanzas] at hs



/-- The failure branch of send_stanza_cb as a whole: the queue ends empty, close_result is
unchanged, and the trace grows by completions, hand-overs of stanzas that the
callbacks of the queue elements send, and the close frame if a close waits for
the queue. -/
theorem send_stanza_cb_failure {σ : Type} (self : WockyPorter σ) (e : GError) :
    (send_stanza_cb self (some e)).sending_queue = [] ∧
    (send_stanza_cb self (some e)).close_result = self.close_result ∧
    ∃ added : List Event, (send_stanza_cb self (some e)).trace = self.trace ++ added ∧
      (∀ elem ∈ self.sending_queue,
        Event.complete { elem.result with error := some e } ∈ added) ∧
      (∀ ev ∈ added, (∃ r, ev = Event.complete r) ∨ ev = Event.send_close_async ∨
        (∃ s, (∃ elem ∈ self.sending_queue, s ∈ callback_stanzas self elem.result.callback) ∧
          ev = Event.send_stanza_async s none)) := by
  obtain ⟨h1, h2, added, h3, h4, h5⟩ :=
    send_stanza_cb_fail_spec e (sending_queue_work self) self (Nat.le_refl _)
  unfold send_stanza_cb
  simp only []
  split
  · refine ⟨h1, h2, added ++ [Event.send_close_async], ?_, ?_, ?_⟩
    · simp [send_close, h3]
    · intro elem he
      exact List.mem_append_left _ (h4 elem he)
    · intro ev hev
      rcases List.mem_append.1 hev with h | h
      · rcases h5 ev h with h' | h'
        · exact Or.inl h'
        · exact Or.inr (Or.inr h')
      · exact Or.inr (Or.inl (by simpa using h))
  · refine ⟨h1, h2, added, h3, h4, ?_⟩
    intro ev hev
    rcases h5 ev hev with h' | h'
    · exact Or.inl h'
    · exact Or.inr (Or.inr h')

/-! ## Failure of a send -/

/-- C15: when the connection reports the failure `e` of the stanza in flight (the head of
the send queue), send_stanza_cb leaves the send queue empty, whatever its
length; the result of every element that was in the queue, the head included,
is completed with `e`; and what is handed to the connection meanwhile is never
one of the waiting entries: the only hand-overs are of stanzas that a completion
callback of one of the elements sends itself, so there is none when no callback
sends. -/
theorem send_stanza_cb_failure_fails_queue {σ : Type} (self : WockyPorter σ) (e : GError) :
    (send_stanza_cb self (some e)).sending_queue = [] ∧
    ∃ added : List Event, (send_stanza_cb self (some e)).trace = self.trace ++ added ∧
      (∀ elem ∈ self.sending_queue,
        Event.complete { elem.result with error := some e } ∈ added) ∧
      (∀ s c, Event.send_stanza_async s c ∈ added →
        ∃ elem ∈ self.sending_queue, s ∈ callback_stanzas self elem.result.callback) ∧
      ((∀ elem ∈ self.sending_queue, callback_stanzas self elem.result.callback = []) →
        handed added = []) := by
  obtain ⟨h1, _, added, h3, h4, h5⟩ := send_stanza_cb_failure self e
  have h6 : ∀ s c, Event.send_stanza_async s c ∈ added →
      ∃ elem ∈ self.sending_queue, s ∈ callback_stanzas self elem.result.callback := by
    intro s c hs
    rcases h5 _ hs with ⟨r, h⟩ | h | ⟨s', hs', h⟩
    · cases h
    · cases h
    · cases h
      exact hs'
  refine ⟨h1, added, h3, h4, h6, ?_⟩
  intro hno
  unfold handed
  rw [List.filterMap_eq_nil_iff]
  intro ev hev
  cases ev with
  | send_stanza_async s c =>
    obtain ⟨elem, he, hs⟩ := h6 s c hev
    rw [hno elem he] at hs
    cases hs
  | _ => rfl

/-- C14 (as stated, refuted): the messages "a" and "b" are in the send queue and the
connection reports a failure for "a"; both results are failed (4 and 6).  A
later wocky_porter_send_async of the message "late" schedules no error, puts the
message in the queue and hands it to the connection. -/
theorem send_after_failure_counterexample :
    completions (send_stanza_cb porter_with_two_messages (some (.OTHER 1 1))).trace =
      [(4, some (.OTHER 1 1)), (6, some (.OTHER 1 1))] ∧
    (wocky_porter_send_async (send_stanza_cb porter_with_two_messages (some (.OTHER 1 1)))
      (message "late") none (.user 3 [])).idle = [] ∧
    (wocky_porter_send_async (send_stanza_cb porter_with_two_messages (some (.OTHER 1 1)))
      (message "late") none (.user 3 [])).sending_queue.map (fun x => x.stanza) =
        [message "late"] ∧
    handed (wocky_porter_send_async (send_stanza_cb porter_with_two_messages (some (.OTHER 1 1)))
      (message "late") none (.user 3 [])).trace =
        [message "a", message "late"] := by
  decide

/-- C14 (amended): a failure reported by the connection sets no flag: close_result is what
it was and the send queue is empty.  A wocky_porter_send_async call after it
fails with CLOSING, without touching the queue or the connection, exactly when a
close is in progress; otherwise the stanza is put in the queue and handed to the
connection, and no error is scheduled. -/
theorem send_after_failure {σ : Type} (self : WockyPorter σ) (e : GError)
    (stanza : WockyXmppStanza) (cancellable : Option Nat) (callback : GAsyncReadyCallback) :
    (send_stanza_cb self (some e)).close_result = self.close_result ∧
    (send_stanza_cb self (some e)).sending_queue = [] ∧
    (self.close_result ≠ none →
      wocky_porter_send_async (send_stanza_cb self (some e)) stanza cancellable callback =
        { send_stanza_cb self (some e) with
          next_ptr := (send_stanza_cb self (some e)).next_ptr + 1
          idle := (send_stanza_cb self (some e)).idle ++
            [{ ptr := (send_stanza_cb self (some e)).next_ptr, callback := callback,
               error := some GError.WOCKY_PORTER_ERROR_CLOSING }] }) ∧
    (self.close_result = none →
      (wocky_porter_send_async (send_stanza_cb self (some e)) stanza cancellable callback).trace =
        (send_stanza_cb self (some e)).trace ++ [Event.send_stanza_async stanza cancellable] ∧
      (wocky_porter_send_async (send_stanza_cb self (some e)) stanza cancellable callback).idle =
        (send_stanza_cb self (some e)).idle ∧
      (wocky_porter_send_async (send_stanza_cb self (some e)) stanza cancellable
        callback).sending_queue.map (fun x => x.stanza) = [stanza]) := by
  obtain ⟨h1, h2, _⟩ := send_stanza_cb_failure self e
  refine ⟨h2, h1, ?_, ?_⟩
  · intro hc
    have hc' : (send_stanza_cb self (some e)).close_result ≠ none := by
      rw [h2]
      exact hc
    unfold wocky_porter_send_async
    rw [if_pos hc']
    rfl
  · intro hc
    exact wocky_porter_send_async_handed _ stanza cancellable callback (h2.trans hc) h1



theorem find_ptr_append (l1 l2 : List sending_queue_elem) (elem : sending_queue_elem)
    (h : ∀ x ∈ l1, x.ptr ≠ elem.ptr) :
    (l1 ++ elem :: l2).find? (fun e => decide (e.ptr = elem.ptr)) = some elem := by
  induction l1 with
  | nil => simp
  | cons x xs ih =>
    have hx : x.ptr ≠ elem.ptr := h x (List.mem_cons_self x xs)
    rw [List.cons_append, List.find?_cons_of_neg _ (by simpa using hx)]
    exact ih (fun y hy => h y (List.mem_cons_of_mem x hy))

theorem g_queue_remove_append (l1 l2 : List sending_queue_elem) (elem : sending_queue_elem)
    (h : ∀ x ∈ l1, x.ptr ≠ elem.ptr) :
    g_queue_remove (l1 ++ elem :: l2) elem.ptr = l1 ++ l2 := by
  induction l1 with
  | nil => simp [g_queue_remove]
  | cons x xs ih =>
    have hx : x.ptr ≠ elem.ptr := h x (List.mem_cons_self x xs)
    rw [List.cons_append, g_queue_remove, if_neg hx,
      ih (fun y hy => h y (List.mem_cons_of_mem x hy))]
    rfl

/-- What send_cancelled_cb does for an element of the queue: the element leaves the queue,
its result is completed from the main loop with the cancellation error, and
nothing is handed to the connection. -/
theorem send_cancelled_cb_spec {σ : Type} (p : WockyPorter σ) (elem : sending_queue_elem)
    (l1 l2 : List sending_queue_elem) (hq : p.sending_queue = l1 ++ elem :: l2)
    (h : ∀ x ∈ l1, x.ptr ≠ elem.ptr) :
    (send_cancelled_cb p elem.ptr).sending_queue = l1 ++ l2 ∧
    (send_cancelled_cb p elem.ptr).idle =
      p.idle ++ [{ elem.result with error := some GError.G_IO_ERROR_CANCELLED }] ∧
    (send_cancelled_cb p elem.ptr).trace = p.trace := by
  unfold send_cancelled_cb
  rw [hq, find_ptr_append l1 l2 elem h]
  simp only []
  rw [(sending_queue_elem_free_frame _ elem).1, sending_queue_elem_free_idle,
    sending_queue_elem_free_trace]
  refine ⟨?_, rfl, rfl⟩
  show g_queue_remove p.sending_queue elem.ptr = l1 ++ l2
  rw [hq]
  exact g_queue_remove_append l1 l2 elem h

theorem map_set_sig_id (l : List sending_queue_elem) (ptr sig : Nat)
    (h : ∀ e ∈ l, e.ptr ≠ ptr) :
    l.map (fun e => if e.ptr = ptr then { e with cancelled_sig_id := sig } else e) = l := by
  induction l with
  | nil => rfl
  | cons x xs ih =>
    rw [List.map_cons, if_neg (h x (List.mem_cons_self x xs)),
      ih (fun y hy => h y (List.mem_cons_of_mem x hy))]

/-- A stanza sent with a cancellable that has not fired, on a porter that is not closing
and whose queue is not empty: the new element waits at the tail of the queue and
send_cancelled_cb is connected to the cancellable. -/
theorem wocky_porter_send_async_queued {σ : Type} (self : WockyPorter σ)
    (stanza : WockyXmppStanza) (c : Nat) (callback : GAsyncReadyCallback)
    (hc : self.close_result = none) (hq : self.sending_queue ≠ [])
    (hnc : c ∉ self.cancelled) (hptr : ∀ e ∈ self.sending_queue, e.ptr ≠ self.next_ptr) :
    wocky_porter_send_async self stanza (some c) callback =
      { self with
        next_ptr := self.next_ptr + 2
        sending_queue := self.sending_queue ++
          [{ ptr := self.next_ptr, stanza := stanza, cancellable := some c,
             result := { ptr := self.next_ptr + 1, callback := callback },
             cancelled_sig_id := self.next_sig_id }]
        connections := self.connections ++
          [{ sig_id := self.next_sig_id, cancellable := c,
             callback := CancelCallback.send_cancelled_cb self.next_ptr }]
        next_sig_id := self.next_sig_id + 1 } := by
  have hlen : ¬ (self.sending_queue ++
      [({ ptr := self.next_ptr, stanza := stanza, cancellable := some c,
          result := { ptr := self.next_ptr + 1, callback := callback } } :
          sending_queue_elem)]).length = 1 := by
    cases hs : self.sending_queue with
    | nil => exact absurd hs hq
    | cons x xs => simp
  unfold wocky_porter_send_async
  simp only [hc, ne_eq, not_true_eq_false, if_false, hlen, g_cancellable_connect, hnc,
    List.map_append, map_set_sig_id _ _ _ hptr, List.map_cons, List.map_nil, if_true]



/-- Cancelling the cancellable of the stanza sent last, when nothing else is connected to
it and the stanza waits in the queue: send_cancelled_cb runs for the new
element. -/
theorem g_cancellable_cancel_queued {σ : Type} (self : WockyPorter σ)
    (stanza : WockyXmppStanza) (c : Nat) (callback : GAsyncReadyCallback)
    (hc : self.close_result = none) (hq : self.sending_queue ≠ [])
    (hnc : c ∉ self.cancelled)
    (hfresh : ∀ conn ∈ self.connections, conn.cancellable ≠ c)
    (hptr : ∀ e ∈ self.sending_queue, e.ptr ≠ self.next_ptr) :
    g_cancellable_cancel (wocky_porter_send_async self stanza (some c) callback) c =
      send_cancelled_cb
        { wocky_porter_send_async self stanza (some c) callback with
          cancelled := c :: self.cancelled } self.next_ptr := by
  rw [wocky_porter_send_async_queued self stanza c callback hc hq hnc hptr]
  have hfil : (self.connections ++
      [({ sig_id := self.next_sig_id, cancellable := c,
          callback := CancelCallback.send_cancelled_cb self.next_ptr } : SignalConnection)]).filter
        (fun x => decide (x.cancellable = c)) =
      [{ sig_id := self.next_sig_id, cancellable := c,
         callback := CancelCallback.send_cancelled_cb self.next_ptr }] := by
    rw [List.filter_append, List.filter_eq_nil_iff.2 (fun x hx => by simpa using hfresh x hx)]
    simp
  unfold g_cancellable_cancel
  simp only [hnc, if_false, hfil, g_signal_emit_cancelled, List.any_append, List.any_cons,
    decide_True, Bool.true_or, Bool.or_true, if_true, run_cancel_callback]


/-- The lemma send_cancelled_cb_spec for the element at the tail of the queue. -/
theorem send_cancelled_cb_tail {σ : Type} (p : WockyPorter σ) (elem : sending_queue_elem)
    (l1 : List sending_queue_elem) (hq : p.sending_queue = l1 ++ [elem])
    (h : ∀ x ∈ l1, x.ptr ≠ elem.ptr) :
    (send_cancelled_cb p elem.ptr).sending_queue = l1 ∧
    (send_cancelled_cb p elem.ptr).idle =
      p.idle ++ [{ elem.result with error := some GError.G_IO_ERROR_CANCELLED }] ∧
    (send_cancelled_cb p elem.ptr).trace = p.trace := by
  have := send_cancelled_cb_spec p elem l1 [] hq h
  rwa [List.append_nil] at this

/-! ## Cancellation of a queued send -/

/-- C19: pre-dispatch and post-dispatch cancellation of a send.  (1) send_cancelled_cb, the
callback connected to the cancellable of a stanza that waits in the queue, takes
that element out of the queue, leaves the elements before and after it as they
were and in their order, schedules the completion of its result with
G_IO_ERROR_CANCELLED, and hands nothing to the connection.  (2) Firing the
cancellable of a stanza just queued behind others runs exactly that: the queue is
what it was before the send, the result (at next_ptr + 1) is scheduled with the
cancellation error and the trace has no new event, so the stanza is not handed
over.  (3) When the queue is empty the stanza is handed to the connection at
once, no callback is connected, and firing the cancellable changes nothing in
the porter but the state of the cancellable.  (4) send_head_stanza disconnects
the callback of the element it hands over, so that a later firing finds no
connection for it. -/
theorem send_cancelled_cb_pre_dispatch {σ : Type} (self : WockyPorter σ)
    (stanza : WockyXmppStanza) (c : Nat) (callback : GAsyncReadyCallback)
    (hc : self.close_result = none) (hnc : c ∉ self.cancelled)
    (hfresh : ∀ conn ∈ self.connections, conn.cancellable ≠ c)
    (hptr : ∀ e ∈ self.sending_queue, e.ptr ≠ self.next_ptr) :
    (∀ (p : WockyPorter σ) (elem : sending_queue_elem) (l1 l2 : List sending_queue_elem),
      p.sending_queue = l1 ++ elem :: l2 → (∀ x ∈ l1, x.ptr ≠ elem.ptr) →
      (send_cancelled_cb p elem.ptr).sending_queue = l1 ++ l2 ∧
      (send_cancelled_cb p elem.ptr).idle =
        p.idle ++ [{ elem.result with error := some GError.G_IO_ERROR_CANCELLED }] ∧
      (send_cancelled_cb p elem.ptr).trace = p.trace) ∧
    (self.sending_queue ≠ [] →
      (g_cancellable_cancel (wocky_porter_send_async self stanza (some c) callback)
        c).sending_queue = self.sending_queue ∧
      (g_cancellable_cancel (wocky_porter_send_async self stanza (some c) callback) c).idle =
        self.idle ++ [{ ptr := self.next_ptr + 1, callback := callback,
                        error := some GError.G_IO_ERROR_CANCELLED }] ∧
      (g_cancellable_cancel (wocky_porter_send_async self stanza (some c) callback) c).trace =
        self.trace) ∧
    (self.sending_queue = [] →
      (wocky_porter_send_async self stanza (some c) callback).trace =
        self.trace ++ [Event.send_stanza_async stanza (some c)] ∧
      g_cancellable_cancel (wocky_porter_send_async self stanza (some c) callback) c =
        { wocky_porter_send_async self stanza (some c) callback with
          cancelled := c :: self.cancelled }) ∧
    (∀ (p : WockyPorter σ) (elem : sending_queue_elem) (rest : List sending_queue_elem),
      p.sending_queue = elem :: rest → elem.cancelled_sig_id ≠ 0 →
      (send_head_stanza p).trace =
        p.trace ++ [Event.send_stanza_async elem.stanza elem.cancellable] ∧
      (send_head_stanza p).sending_queue = { elem with cancelled_sig_id := 0 } :: rest ∧
      ∀ conn ∈ (send_head_stanza p).connections, conn.sig_id ≠ elem.cancelled_sig_id) := by
  refine ⟨fun p elem l1 l2 hq h => send_cancelled_cb_spec p elem l1 l2 hq h, ?_, ?_, ?_⟩
  · intro hq
    rw [g_cancellable_cancel_queued self stanza c callback hc hq hnc hfresh hptr,
      wocky_porter_send_async_queued self stanza c callback hc hq hnc hptr]
    exact send_cancelled_cb_tail _
      { ptr := self.next_ptr, stanza := stanza, cancellable := some c,
        result := { ptr := self.next_ptr + 1, callback := callback },
        cancelled_sig_id := self.next_sig_id } self.sending_queue rfl hptr
  · intro hq
    have hsend : wocky_porter_send_async self stanza (some c) callback =
        { self with
          next_ptr := self.next_ptr + 2
          sending_queue := [{ ptr := self.next_ptr, stanza := stanza, cancellable := some c,
                              result := { ptr := self.next_ptr + 1, callback := callback } }]
          trace := self.trace ++ [Event.send_stanza_async stanza (some c)] } := by
      unfold wocky_porter_send_async
      simp [hc, hq, send_head_stanza]
    rw [hsend]
    refine ⟨rfl, ?_⟩
    unfold g_cancellable_cancel
    have hfil : self.connections.filter (fun x => decide (x.cancellable = c)) = [] :=
      List.filter_eq_nil_iff.2 (fun x hx => by simpa using hfresh x hx)
    simp only [hnc, if_false, hfil, g_signal_emit_cancelled]
  · intro p elem rest hq hs
    unfold send_head_stanza
    simp only [hq, ne_eq, hs, not_false_eq_true, if_true, g_signal_handler_disconnect]
    refine ⟨trivial, trivial, ?_⟩
    intro conn hconn
    simpa using (List.mem_filter.1 hconn).2

/-- C19, at a concrete input: on the porter with the messages "a" (in flight) and "b"
(waiting), the message "c" is sent with the cancellable 100, which then fires:
the queue holds "a" and "b" again, the result of "c" (8) is scheduled with the
cancellation error, and only "a" was handed to the connection. -/
theorem send_cancelled_cb_pre_dispatch_witness :
    ((g_cancellable_cancel (wocky_porter_send_async porter_with_two_messages (message "c")
        (some 100) (.user 3 [])) 100).sending_queue = porter_with_two_messages.sending_queue ∧
      (g_cancellable_cancel (wocky_porter_send_async porter_with_two_messages (message "c")
        (some 100) (.user 3 [])) 100).idle =
        porter_with_two_messages.idle ++
          [{ ptr := porter_with_two_messages.next_ptr + 1, callback := .user 3 [],
             error := some GError.G_IO_ERROR_CANCELLED }] ∧
      (g_cancellable_cancel (wocky_porter_send_async porter_with_two_messages (message "c")
        (some 100) (.user 3 [])) 100).trace = porter_with_two_messages.trace) ∧
    porter_with_two_messages.sending_queue.map (fun e => e.stanza) = [message "a", message "b"] ∧
    porter_with_two_messages.next_ptr + 1 = 8 ∧
    handed porter_with_two_messages.trace = [message "a"] :=
  ⟨(send_cancelled_cb_pre_dispatch porter_with_two_messages (message "c") 100 (.user 3 [])
      (by decide) (by decide) (by decide) (by decide)).2.1 (by decide),
    by decide, by decide, by decide⟩



/-! ## The statements above at concrete inputs -/

/-- C13, at concrete inputs: on the porter whose close waits for the peer, the message
"late" is refused with CLOSING and nothing else changes; and the close accepted
on a started new porter sets close_result. -/
theorem wocky_porter_send_async_closing_witness :
    wocky_porter_send_async porter_waiting_for_remote_close (message "late") none (.user 3 []) =
      { porter_waiting_for_remote_close with
        next_ptr := porter_waiting_for_remote_close.next_ptr + 1
        idle := porter_waiting_for_remote_close.idle ++
          [{ ptr := porter_waiting_for_remote_close.next_ptr, callback := .user 3 [],
             error := some GError.WOCKY_PORTER_ERROR_CLOSING }] } ∧
    (wocky_porter_close_async (wocky_porter_start (wocky_porter_new plain_env ())) none
      (.user 9 [])).close_result ≠ none :=
  ⟨(wocky_porter_send_async_closing porter_waiting_for_remote_close (message "late") none
      (.user 3 [])).1 (by decide),
   (wocky_porter_send_async_closing (wocky_porter_start (wocky_porter_new plain_env ()))
      (message "late") none (.user 3 [])).2 none (.user 9 []) (by decide) (by decide)
      (by decide)⟩

/-- C14 (amended), at concrete inputs: after the failure of "a" on the open porter with two
messages the message "late" is handed to the connection; after the same failure
on the porter that is closing it is refused with CLOSING. -/
theorem send_after_failure_witness :
    ((wocky_porter_send_async (send_stanza_cb porter_with_two_messages (some (.OTHER 1 1)))
        (message "late") none (.user 3 [])).trace =
        (send_stanza_cb porter_with_two_messages (some (.OTHER 1 1))).trace ++
          [Event.send_stanza_async (message "late") none] ∧
      (wocky_porter_send_async (send_stanza_cb porter_with_two_messages (some (.OTHER 1 1)))
        (message "late") none (.user 3 [])).idle =
        (send_stanza_cb porter_with_two_messages (some (.OTHER 1 1))).idle ∧
      (wocky_porter_send_async (send_stanza_cb porter_with_two_messages (some (.OTHER 1 1)))
        (message "late") none (.user 3 [])).sending_queue.map (fun x => x.stanza) =
        [message "late"]) ∧
    (wocky_porter_send_async
        (send_stanza_cb porter_closing_with_two_messages (some (.OTHER 1 1)))
        (message "late") none (.user 3 [])).idle.map (fun r => (r.callback, r.error)) =
      [(.user 3 [], some GError.WOCKY_PORTER_ERROR_CLOSING)] := by
  refine ⟨(send_after_failure porter_with_two_messages (.OTHER 1 1) (message "late") none
    (.user 3 [])).2.2.2 (by decide), ?_⟩
  rw [(send_after_failure porter_closing_with_two_messages (.OTHER 1 1) (message "late") none
    (.user 3 [])).2.2.1 (by decide)]
  decide

/-- C15, at a concrete input: the failure of "a" on the porter with the messages "a" and
"b", whose callbacks send nothing, empties the queue and hands nothing more to
the connection. -/
theorem send_stanza_cb_failure_fails_queue_witness :
    (send_stanza_cb porter_with_two_messages (some (.OTHER 1 1))).sending_queue = [] ∧
    handed (send_stanza_cb porter_with_two_messages (some (.OTHER 1 1))).trace =
      handed porter_with_two_messages.trace := by
  obtain ⟨h1, added, h2, _, _, h5⟩ :=
    send_stanza_cb_failure_fails_queue porter_with_two_messages (.OTHER 1 1)
  refine ⟨h1, ?_⟩
  have h6 : handed added = [] := h5 (by decide)
  unfold handed at h6 ⊢
  rw [h2, List.filterMap_append, h6, List.append_nil]

/-- C26: wocky_porter_start is idempotent.  On a porter that is already started (its
receive_cancellable is set) it returns the porter as it is, so no field changes
and no receive is issued; on a porter that is not, it issues exactly one
receive; and start after start is start: the second call adds no receive to
the one, if any, that the first call issued. -/
theorem wocky_porter_start_idempotent {σ : Type} (self : WockyPorter σ) :
    (self.receive_cancellable ≠ none → wocky_porter_start self = self) ∧
    (self.receive_cancellable = none →
      (wocky_porter_start self).trace = self.trace ++ [Event.recv_stanza_async] ∧
      (wocky_porter_start self).receive_cancellable ≠ none) ∧
    wocky_porter_start (wocky_porter_start self) = wocky_porter_start self ∧
    receives (wocky_porter_start (wocky_porter_start self)).trace ≤ receives self.trace + 1 := by
  have h1 : self.receive_cancellable ≠ none → wocky_porter_start self = self := by
    intro h
    unfold wocky_porter_start
    rw [if_pos h]
  have h2 : self.receive_cancellable = none →
      (wocky_porter_start self).trace = self.trace ++ [Event.recv_stanza_async] ∧
      (wocky_porter_start self).receive_cancellable ≠ none := by
    intro h
    unfold wocky_porter_start
    rw [if_neg (by simp [h])]
    simp [receive_stanza]
  have h3 : wocky_porter_start (wocky_porter_start self) = wocky_porter_start self := by
    by_cases h : self.receive_cancellable = none
    · have h4 := (h2 h).2
      generalize wocky_porter_start self = p at h4
      unfold wocky_porter_start
      rw [if_pos h4]
    · rw [h1 h, h1 h]
  refine ⟨h1, h2, h3, ?_⟩
  rw [h3]
  by_cases h : self.receive_cancellable = none
  · rw [(h2 h).1]
    simp [receives]
  · rw [h1 h]
    omega

/-- C26, at a concrete input: a new porter is started twice; one receive has been
issued. -/
theorem wocky_porter_start_idempotent_witness :
    wocky_porter_start (wocky_porter_start (wocky_porter_new plain_env ())) =
      wocky_porter_start (wocky_porter_new plain_env ()) ∧
    receives (wocky_porter_start (wocky_porter_start (wocky_porter_new plain_env ()))).trace =
      1 :=
  ⟨(wocky_porter_start_idempotent
      (wocky_porter_start (wocky_porter_new plain_env ()))).1 (by decide),
   by decide⟩



/-! ## Unregistering a handler -/

theorem g_list_remove_sublist (l : List StanzaHandler) (data : Nat) :
    (g_list_remove l data).Sublist l := by
  induction l with
  | nil => exact List.Sublist.refl _
  | cons x xs ih =>
    rw [g_list_remove]
    split
    · exact List.sublist_cons_self x xs
    · exact ih.cons₂ x

theorem g_list_remove_keeps (l : List StanzaHandler) (data : Nat) (h : StanzaHandler)
    (hm : h ∈ l) (hp : h.ptr ≠ data) : h ∈ g_list_remove l data := by
  induction l with
  | nil => cases hm
  | cons x xs ih =>
    rw [g_list_remove]
    rcases List.mem_cons.1 hm with e | e
    · subst e
      rw [if_neg hp]
      exact List.mem_cons_self _ _
    · split
      · exact e
      · exact List.mem_cons_of_mem _ (ih e)

theorem g_list_remove_absent (l : List StanzaHandler) (data : Nat)
    (h : ∀ x ∈ l, x.ptr ≠ data) : g_list_remove l data = l := by
  induction l with
  | nil => rfl
  | cons x xs ih =>
    rw [g_list_remove, if_neg (h x (List.mem_cons_self x xs)),
      ih (fun y hy => h y (List.mem_cons_of_mem x hy))]

theorem g_list_remove_gone (l : List StanzaHandler) (data : Nat)
    (hn : (l.map (fun h => h.ptr)).Nodup) : ∀ x ∈ g_list_remove l data, x.ptr ≠ data := by
  induction l with
  | nil =>
    intro x hx
    cases hx
  | cons y ys ih =>
    rw [List.map_cons, List.nodup_cons] at hn
    rw [g_list_remove]
    split
    · rename_i hy
      intro x hx hxp
      exact hn.1 (List.mem_map.2 ⟨x, hx, hxp.trans hy.symm⟩)
    · rename_i hy
      intro x hx
      rcases List.mem_cons.1 hx with e | e
      · subst e
        exact hy
      · exact ih hn.2 x e

theorem g_list_remove_insert_sorted (func : StanzaHandler → StanzaHandler → Int)
    (x : StanzaHandler) (l : List StanzaHandler) (h : ∀ y ∈ l, y.ptr ≠ x.ptr) :
    g_list_remove (g_list_insert_sorted func x l) x.ptr = l := by
  induction l with
  | nil => simp [g_list_insert_sorted, g_list_remove]
  | cons y ys ih =>
    rw [g_list_insert_sorted]
    split
    · rw [g_list_remove, if_neg (h y (List.mem_cons_self y ys)),
        ih (fun z hz => h z (List.mem_cons_of_mem y hz))]
    · rw [g_list_remove, if_pos rfl]

theorem g_hash_table_lookup_insert {κ ν : Type} [DecidableEq κ] (t : List (κ × ν)) (k : κ)
    (v : ν) : g_hash_table_lookup (g_hash_table_insert t k v) k = some v := by
  simp [g_hash_table_lookup, g_hash_table_insert]

theorem g_hash_table_lookup_remove_other {κ ν : Type} [DecidableEq κ] (t : List (κ × ν))
    (k j : κ) (h : j ≠ k) :
    g_hash_table_lookup (g_hash_table_remove t k) j = g_hash_table_lookup t j := by
  induction t with
  | nil => rfl
  | cons e es ih =>
    unfold g_hash_table_remove at ih ⊢
    unfold g_hash_table_lookup at ih ⊢
    rw [List.filter_cons]
    by_cases he : e.1 = k
    · have hj : ¬ e.1 = j := fun c => h (c.symm.trans he)
      simp only [he, ne_eq, not_true_eq_false, decide_False, Bool.false_eq_true, if_false]
      rw [List.find?_cons_of_neg _ (by simpa using hj)]
      exact ih
    · simp only [ne_eq, he, not_false_eq_true, decide_True, if_true]
      by_cases hj : e.1 = j
      · rw [List.find?_cons_of_pos _ (by simpa using hj),
          List.find?_cons_of_pos _ (by simpa using hj)]
      · rw [List.find?_cons_of_neg _ (by simpa using hj),
          List.find?_cons_of_neg _ (by simpa using hj)]
        exact ih

theorem g_hash_table_remove_insert {κ ν : Type} [DecidableEq κ] (t : List (κ × ν)) (k : κ)
    (v : ν) : g_hash_table_remove (g_hash_table_insert t k v) k = g_hash_table_remove t k := by
  simp [g_hash_table_remove, g_hash_table_insert, List.filter_filter]

/-- The handlers that a dispatch calls are in the list it walks. -/
theorem handle_stanza_loop_called {σ : Type} (env : Env σ) (stanza : WockyXmppStanza)
    (jid : Jid) (l : List StanzaHandler) :
    ∀ self : WockyPorter σ, ∃ calls : List (Nat × Bool),
      handler_calls (handle_stanza_loop env stanza jid l self).trace =
        handler_calls self.trace ++ calls ∧
      ∀ c ∈ calls, c.1 ∈ l.map (fun h => h.ptr) := by
  induction l with
  | nil =>
    intro self
    exact ⟨[], by simp [handle_stanza_loop], by simp⟩
  | cons h l ih =>
    intro self
    have skip : ∃ calls : List (Nat × Bool),
        handler_calls (handle_stanza_loop env stanza jid l self).trace =
          handler_calls self.trace ++ calls ∧
        ∀ c ∈ calls, c.1 ∈ (h :: l).map (fun h => h.ptr) := by
      obtain ⟨calls, h1, h2⟩ := ih self
      exact ⟨calls, h1, fun c hc => List.mem_cons_of_mem _ (h2 c hc)⟩
    rw [handle_stanza_loop]
    split
    · exact skip
    · split
      · exact skip
      · split
        · exact ⟨[], by simp [handler_calls_append, handler_calls], by simp⟩
        · split
          · exact skip
          · split
            · exact skip
            · split
              · exact skip
              · split
                · exact skip
                · simp only []
                  have hc := call_handler_calls env self h stanza
                  split
                  · exact ⟨[(h.ptr, (call_handler env self h stanza).1)], hc, by simp⟩
                  · obtain ⟨calls, h1, h2⟩ := ih (call_handler env self h stanza).2
                    refine ⟨(h.ptr, (call_handler env self h stanza).1) :: calls, ?_, ?_⟩
                    · rw [h1, hc]
                      simp
                    · intro c hcm
                      rcases List.mem_cons.1 hcm with e | e
                      · subst e
                        simp
                      · exact List.mem_cons_of_mem _ (h2 c e)

theorem handle_stanza_called {σ : Type} (env : Env σ) (self : WockyPorter σ)
    (stanza : WockyXmppStanza) :
    ∃ calls : List (Nat × Bool),
      handler_calls (handle_stanza env self stanza).trace = handler_calls self.trace ++ calls ∧
      ∀ c ∈ calls, c.1 ∈ self.handlers.map (fun h => h.ptr) := by
  unfold handle_stanza
  exact handle_stanza_loop_called env stanza _ self.handlers self



/-- What wocky_porter_unregister_handler does when the id is in handlers_by_id. -/
theorem wocky_porter_unregister_handler_found {σ : Type} (self : WockyPorter σ) (id : Nat)
    (handler : StanzaHandler) (h : g_hash_table_lookup self.handlers_by_id id = some handler) :
    wocky_porter_unregister_handler self id =
      { self with
        handlers := g_list_remove self.handlers handler.ptr
        handlers_by_id := g_hash_table_remove self.handlers_by_id id } := by
  unfold wocky_porter_unregister_handler
  rw [h]

/-- C24: wocky_porter_register_handler followed by wocky_porter_unregister_handler of the
returned id.  The registration returns next_handler_id, stores the new handler
(allocated at next_ptr) under it and puts it in the list; the unregistration
then leaves the handler list exactly as it was before the registration (same
handlers, same order), with no handler of that address in it, no entry under
the id and every other id as before, and a dispatch of any stanza calls no
handler of that address.  More generally, unregistering an id that maps to a
handler, in any porter whose handlers have distinct addresses, takes that
handler out, keeps every other handler and their order, drops the id, and no
dispatch calls that handler afterwards. -/
theorem register_unregister_inverse {σ : Type} (env : Env σ) (self : WockyPorter σ)
    (r : Registration) (hfresh : ∀ h ∈ self.handlers, h.ptr ≠ self.next_ptr) :
    (wocky_porter_register_handler env self r.type r.sub_type r.from_ r.priority r.callback
      r.stanza).1 = self.next_handler_id ∧
    g_hash_table_lookup (register_one env self r).handlers_by_id self.next_handler_id =
      some (r.handler env self.next_ptr) ∧
    r.handler env self.next_ptr ∈ (register_one env self r).handlers ∧
    (wocky_porter_unregister_handler (register_one env self r) self.next_handler_id).handlers =
      self.handlers ∧
    (∀ h ∈ (wocky_porter_unregister_handler (register_one env self r)
      self.next_handler_id).handlers, h.ptr ≠ self.next_ptr) ∧
    g_hash_table_lookup (wocky_porter_unregister_handler (register_one env self r)
      self.next_handler_id).handlers_by_id self.next_handler_id = none ∧
    (∀ k, k ≠ self.next_handler_id →
      g_hash_table_lookup (wocky_porter_unregister_handler (register_one env self r)
        self.next_handler_id).handlers_by_id k = g_hash_table_lookup self.handlers_by_id k) ∧
    (∀ stanza : WockyXmppStanza, ∃ calls : List (Nat × Bool),
      handler_calls (handle_stanza env (wocky_porter_unregister_handler
        (register_one env self r) self.next_handler_id) stanza).trace =
        handler_calls self.trace ++ calls ∧
      ∀ c ∈ calls, c.1 ≠ self.next_ptr) ∧
    (∀ (p : WockyPorter σ) (id : Nat) (handler : StanzaHandler),
      g_hash_table_lookup p.handlers_by_id id = some handler →
      (p.handlers.map (fun h => h.ptr)).Nodup →
      (wocky_porter_unregister_handler p id).handlers.Sublist p.handlers ∧
      (∀ h ∈ p.handlers, h.ptr ≠ handler.ptr →
        h ∈ (wocky_porter_unregister_handler p id).handlers) ∧
      (∀ h ∈ (wocky_porter_unregister_handler p id).handlers, h.ptr ≠ handler.ptr) ∧
      g_hash_table_lookup (wocky_porter_unregister_handler p id).handlers_by_id id = none ∧
      (∀ stanza : WockyXmppStanza, ∃ calls : List (Nat × Bool),
        handler_calls (handle_stanza env (wocky_porter_unregister_handler p id) stanza).trace =
          handler_calls p.trace ++ calls ∧
        ∀ c ∈ calls, c.1 ≠ handler.ptr)) := by
  have hl : g_hash_table_lookup (register_one env self r).handlers_by_id self.next_handler_id =
      some (r.handler env self.next_ptr) := by
    unfold register_one wocky_porter_register_handler
    exact g_hash_table_lookup_insert _ _ _
  have hu := wocky_porter_unregister_handler_found (register_one env self r)
    self.next_handler_id _ hl
  have hh : (wocky_porter_unregister_handler (register_one env self r)
      self.next_handler_id).handlers = self.handlers := by
    rw [hu]
    show g_list_remove (register_one env self r).handlers (r.handler env self.next_ptr).ptr = _
    rw [register_one_handlers]
    exact g_list_remove_insert_sorted compare_handler (r.handler env self.next_ptr)
      self.handlers (by rw [Registration.handler_ptr]; exact hfresh)
  have ht : (wocky_porter_unregister_handler (register_one env self r)
      self.next_handler_id).trace = self.trace := by
    rw [hu]
    rfl
  have hid : (wocky_porter_unregister_handler (register_one env self r)
      self.next_handler_id).handlers_by_id =
      g_hash_table_remove self.handlers_by_id self.next_handler_id := by
    rw [hu]
    show g_hash_table_remove (register_one env self r).handlers_by_id _ = _
    unfold register_one wocky_porter_register_handler
    exact g_hash_table_remove_insert _ _ _
  refine ⟨rfl, hl, ?_, hh, ?_, ?_, ?_, ?_, ?_⟩
  · rw [register_one_handlers]
    exact g_list_insert_sorted_mem compare_handler _ _
  · rw [hh]
    exact hfresh
  · rw [hid]
    exact g_hash_table_lookup_remove _ _
  · intro k hk
    rw [hid]
    exact g_hash_table_lookup_remove_other _ _ _ hk
  · intro stanza
    obtain ⟨calls, h1, h2⟩ := handle_stanza_called env (wocky_porter_unregister_handler
      (register_one env self r) self.next_handler_id) stanza
    rw [ht] at h1
    refine ⟨calls, h1, ?_⟩
    intro c hc hcp
    have := h2 c hc
    rw [hh] at this
    obtain ⟨h, hm, hp⟩ := List.mem_map.1 this
    exact hfresh h hm (hp.trans hcp)
  · intro p id handler hlook hnd
    have hp := wocky_porter_unregister_handler_found p id handler hlook
    have hph : (wocky_porter_unregister_handler p id).handlers =
        g_list_remove p.handlers handler.ptr := by
      rw [hp]
    have hgone := g_list_remove_gone p.handlers handler.ptr hnd
    refine ⟨?_, ?_, ?_, ?_, ?_⟩
    · rw [hph]
      exact g_list_remove_sublist _ _
    · intro h hm hne
      rw [hph]
      exact g_list_remove_keeps _ _ h hm hne
    · rw [hph]
      exact hgone
    · rw [hp]
      exact g_hash_table_lookup_remove _ _
    · intro stanza
      obtain ⟨calls, h1, h2⟩ := handle_stanza_called env (wocky_porter_unregister_handler p id)
        stanza
      have hpt : (wocky_porter_unregister_handler p id).trace = p.trace := by
        rw [hp]
      rw [hpt] at h1
      refine ⟨calls, h1, ?_⟩
      intro c hc hcp
      have := h2 c hc
      rw [hph] at this
      obtain ⟨h, hm, hq⟩ := List.mem_map.1 this
      exact hgone h hm (hq.trans hcp)

/-- C24, at a concrete input: on a new porter the caller's handler 7 is registered for IQ
gets with priority 5 (it gets the id 2) and unregistered again; the handler list
is that of the new porter. -/
theorem register_unregister_inverse_witness :
    (wocky_porter_unregister_handler
      (register_one plain_env (wocky_porter_new plain_env ())
        (Registration.user .IQ .GET none 5 7))
      (wocky_porter_new plain_env ()).next_handler_id).handlers =
      (wocky_porter_new plain_env ()).handlers ∧
    (wocky_porter_new plain_env ()).next_handler_id = 2 :=
  ⟨(register_unregister_inverse plain_env (wocky_porter_new plain_env ())
      (Registration.user .IQ .GET none 5 7) (by decide)).2.2.2.1,
   by decide⟩



/-! ## The handler list is touched by registration and unregistration only -/

theorem g_signal_handler_disconnect_handlers {σ : Type} (self : WockyPorter σ) (sig_id : Nat) :
    (g_signal_handler_disconnect self sig_id).handlers = self.handlers := rfl

theorem sending_queue_elem_free_handlers {σ : Type} (self : WockyPorter σ)
    (e : sending_queue_elem) : (sending_queue_elem_free self e).handlers = self.handlers := by
  unfold sending_queue_elem_free
  split <;> rfl

theorem send_head_stanza_handlers {σ : Type} (self : WockyPorter σ) :
    (send_head_stanza self).handlers = self.handlers := by
  unfold send_head_stanza
  split
  · rfl
  · simp only []
    split <;> rfl

theorem send_cancelled_cb_handlers {σ : Type} (self : WockyPorter σ) (elem_ptr : Nat) :
    (send_cancelled_cb self elem_ptr).handlers = self.handlers := by
  unfold send_cancelled_cb
  split
  · rfl
  · simp only [sending_queue_elem_free_handlers]
    rfl

theorem wocky_porter_send_async_handlers {σ : Type} (self : WockyPorter σ)
    (stanza : WockyXmppStanza) (cancellable : Option Nat) (callback : GAsyncReadyCallback) :
    (wocky_porter_send_async self stanza cancellable callback).handlers = self.handlers := by
  unfold wocky_porter_send_async
  split
  · rfl
  · simp only []
    split
    · rw [send_head_stanza_handlers]
    · split
      · rfl
      · simp only [g_cancellable_connect]
        split
        · simp only [send_cancelled_cb_handlers]
        · rfl

theorem resend_handlers {σ : Type} (resend : List WockyXmppStanza) :
    ∀ self : WockyPorter σ, (resend.foldl wocky_porter_send self).handlers = self.handlers := by
  induction resend with
  | nil => intro self; rfl
  | cons s rest ih =>
    intro self
    rw [List.foldl_cons, ih]
    exact wocky_porter_send_async_handlers _ _ _ _

theorem g_simple_async_result_complete_handlers {σ : Type} (self : WockyPorter σ)
    (result : GSimpleAsyncResult) :
    (g_simple_async_result_complete self result).handlers = self.handlers := by
  unfold g_simple_async_result_complete
  simp only []
  split
  · rw [resend_handlers]
  · rfl

theorem stanza_iq_handler_free_handlers {σ : Type} (self : WockyPorter σ)
    (h : StanzaIqHandler) : (stanza_iq_handler_free self h).handlers = self.handlers := by
  unfold stanza_iq_handler_free
  split <;> rfl

theorem free_all_handlers {σ : Type} (removed : List (String × StanzaIqHandler)) :
    ∀ self : WockyPorter σ,
      (removed.foldl (fun p e => stanza_iq_handler_free p e.2) self).handlers =
        self.handlers := by
  induction removed with
  | nil => intro self; rfl
  | cons e rest ih =>
    intro self
    rw [List.foldl_cons, ih, stanza_iq_handler_free_handlers]

theorem iq_reply_handlers_foreach_remove_handlers {σ : Type} (self : WockyPorter σ)
    (func : String → StanzaIqHandler → Bool) :
    (iq_reply_handlers_foreach_remove self func).handlers = self.handlers := by
  unfold iq_reply_handlers_foreach_remove
  simp only [free_all_handlers]

theorem iq_reply_handlers_remove_handlers {σ : Type} (self : WockyPorter σ) (id : String) :
    (iq_reply_handlers_remove self id).handlers = self.handlers := by
  unfold iq_reply_handlers_remove
  simp only []
  split
  · rw [stanza_iq_handler_free_handlers]
  · rfl

theorem iq_reply_handlers_insert_handlers {σ : Type} (self : WockyPorter σ) (id : String)
    (handler : StanzaIqHandler) :
    (iq_reply_handlers_insert self id handler).handlers = self.handlers := by
  unfold iq_reply_handlers_insert
  simp only [iq_reply_handlers_remove_handlers]

theorem handle_iq_reply_handlers {σ : Type} (self : WockyPorter σ) (reply : WockyXmppStanza) :
    (handle_iq_reply self reply).2.handlers = self.handlers := by
  unfold handle_iq_reply
  split
  · rfl
  · split
    · rfl
    · split
      · rfl
      · simp only [iq_reply_handlers_remove_handlers]
        split
        · rfl
        · rw [g_simple_async_result_complete_handlers]

theorem call_handler_handlers {σ : Type} (env : Env σ) (self : WockyPorter σ)
    (h : StanzaHandler) (stanza : WockyXmppStanza) :
    (call_handler env self h stanza).2.handlers = self.handlers := by
  unfold call_handler
  simp only []
  split
  · exact handle_iq_reply_handlers self stanza
  · rfl

theorem handle_stanza_loop_handlers {σ : Type} (env : Env σ) (stanza : WockyXmppStanza)
    (jid : Jid) (l : List StanzaHandler) :
    ∀ self : WockyPorter σ,
      (handle_stanza_loop env stanza jid l self).handlers = self.handlers := by
  induction l with
  | nil => intro self; rfl
  | cons h l ih =>
    intro self
    rw [handle_stanza_loop]
    repeat' split
    all_goals first
      | exact ih self
      | rfl
      | (simp only []
         split
         · exact call_handler_handlers env self h stanza
         · rw [ih]
           exact call_handler_handlers env self h stanza)

theorem handle_stanza_handlers {σ : Type} (env : Env σ) (self : WockyPorter σ)
    (stanza : WockyXmppStanza) : (handle_stanza env self stanza).handlers = self.handlers := by
  unfold handle_stanza
  exact handle_stanza_loop_handlers env stanza _ self.handlers self

theorem iq_sent_cb_handlers {σ : Type} (self : WockyPorter σ) (res : GSimpleAsyncResult)
    (handler_ptr : Nat) : (iq_sent_cb self res handler_ptr).handlers = self.handlers := by
  unfold iq_sent_cb
  split
  · rfl
  · split
    · rfl
    · split
      · rfl
      · simp only [iq_reply_handlers_foreach_remove_handlers,
          g_simple_async_result_complete_handlers]

theorem sending_queue_elem_complete_handlers {σ : Type} (self : WockyPorter σ)
    (result : GSimpleAsyncResult) :
    (sending_queue_elem_complete self result).handlers = self.handlers := by
  unfold sending_queue_elem_complete
  split
  · rw [iq_sent_cb_handlers]
  · rw [g_simple_async_result_complete_handlers]

theorem send_stanza_cb_fail_handlers {σ : Type} (error : GError) (n : Nat) :
    ∀ self : WockyPorter σ, (send_stanza_cb_fail error n self).handlers = self.handlers := by
  induction n with
  | zero =>
    intro self
    rw [send_stanza_cb_fail]
  | succ n ih =>
    intro self
    rw [send_stanza_cb_fail]
    split
    · rfl
    · simp only []
      rw [ih, sending_queue_elem_free_handlers, sending_queue_elem_complete_handlers]

theorem send_stanza_cb_handlers {σ : Type} (self : WockyPorter σ) (error : Option GError) :
    (send_stanza_cb self error).handlers = self.handlers := by
  unfold send_stanza_cb
  simp only []
  split
  · split
    · simp only [send_close, send_stanza_cb_fail_handlers]
    · rw [send_stanza_cb_fail_handlers]
  · split
    · rfl
    · repeat' split
      all_goals simp only [send_close, send_head_stanza_handlers,
        sending_queue_elem_free_handlers, sending_queue_elem_complete_handlers]



theorem send_iq_cancelled_cb_handlers {σ : Type} (self : WockyPorter σ) (c : Nat)
    (handler : StanzaIqHandler) :
    (send_iq_cancelled_cb self c handler).handlers = self.handlers := by
  unfold send_iq_cancelled_cb
  simp only [iq_reply_handlers_foreach_remove_handlers, g_simple_async_result_complete_handlers]

theorem g_cancellable_connect_handlers {σ : Type} (self : WockyPorter σ) (c : Nat)
    (callback : CancelCallback) (run : WockyPorter σ → WockyPorter σ)
    (hrun : ∀ p : WockyPorter σ, (run p).handlers = p.handlers) :
    (g_cancellable_connect self c callback run).2.handlers = self.handlers := by
  unfold g_cancellable_connect
  split
  · exact hrun self
  · rfl

theorem wocky_porter_send_iq_async_handlers {σ : Type} (env : Env σ) (fuel : Nat)
    (self : WockyPorter σ) (stanza : WockyXmppStanza) (cancellable : Option Nat)
    (callback : GAsyncReadyCallback) (r : WockyXmppStanza × WockyPorter σ)
    (h : wocky_porter_send_iq_async env fuel self stanza cancellable callback = some r) :
    r.2.handlers = self.handlers := by
  unfold wocky_porter_send_iq_async at h
  split at h
  · cases h
    rfl
  · split at h
    · cases h
      rfl
    · split at h
      · cases h
      · cases h
        simp only [wocky_porter_send_async_handlers, iq_reply_handlers_insert_handlers]
        split
        · rfl
        · exact g_cancellable_connect_handlers _ _ _ _
            (fun p => send_iq_cancelled_cb_handlers p _ _)

theorem run_cancel_callback_handlers {σ : Type} (self : WockyPorter σ)
    (conn : SignalConnection) : (run_cancel_callback self conn).handlers = self.handlers := by
  unfold run_cancel_callback
  split
  · exact send_cancelled_cb_handlers _ _
  · split
    · exact send_iq_cancelled_cb_handlers _ _ _
    · rfl

theorem g_signal_emit_cancelled_handlers {σ : Type} (l : List SignalConnection) :
    ∀ self : WockyPorter σ, (g_signal_emit_cancelled l self).handlers = self.handlers := by
  induction l with
  | nil => intro self; rfl
  | cons c rest ih =>
    intro self
    rw [g_signal_emit_cancelled]
    split
    · rw [ih, run_cancel_callback_handlers]
    · exact ih self

theorem g_cancellable_cancel_handlers {σ : Type} (self : WockyPorter σ) (c : Nat) :
    (g_cancellable_cancel self c).handlers = self.handlers := by
  unfold g_cancellable_cancel
  split
  · rfl
  · rw [g_signal_emit_cancelled_handlers]

theorem complete_close_handlers {σ : Type} (self : WockyPorter σ) :
    (complete_close self).handlers = self.handlers := by
  unfold complete_close
  split
  · rfl
  · simp only [g_simple_async_result_complete_handlers]

theorem stanza_received_cb_handlers {σ : Type} (env : Env σ) (self : WockyPorter σ)
    (res : Except GError WockyXmppStanza) :
    (stanza_received_cb env self res).handlers = self.handlers := by
  unfold stanza_received_cb
  split
  · simp only []
    split
    · split
      · exact complete_close_handlers self
      · rfl
    · rfl
  · simp only [receive_stanza, handle_stanza_handlers]

theorem wocky_porter_start_handlers {σ : Type} (self : WockyPorter σ) :
    (wocky_porter_start self).handlers = self.handlers := by
  unfold wocky_porter_start
  split <;> rfl

theorem close_sent_cb_handlers {σ : Type} (self : WockyPorter σ) (error : Option GError) :
    (close_sent_cb self error).handlers = self.handlers := by
  unfold close_sent_cb
  simp only []
  repeat' split
  all_goals first
    | rfl
    | simp only [complete_close_handlers]

theorem wocky_porter_close_async_handlers {σ : Type} (self : WockyPorter σ)
    (cancellable : Option Nat) (callback : GAsyncReadyCallback) :
    (wocky_porter_close_async self cancellable callback).handlers = self.handlers := by
  unfold wocky_porter_close_async
  split
  · rfl
  · split
    · rfl
    · split
      · rfl
      · simp only []
        split <;> rfl

theorem idle_dispatch_handlers {σ : Type} (self : WockyPorter σ) :
    (idle_dispatch self).handlers = self.handlers := by
  unfold idle_dispatch
  split
  · rfl
  · rw [sending_queue_elem_complete_handlers]

theorem g_list_remove_sorted (l : List StanzaHandler) (data : Nat) (h : handlers_sorted l) :
    handlers_sorted (g_list_remove l data) :=
  List.Pairwise.sublist (g_list_remove_sublist l data) h

theorem wocky_porter_unregister_handler_sorted {σ : Type} (self : WockyPorter σ) (id : Nat)
    (h : handlers_sorted self.handlers) :
    handlers_sorted (wocky_porter_unregister_handler self id).handlers := by
  unfold wocky_porter_unregister_handler
  split
  · exact h
  · exact g_list_remove_sorted _ _ h

theorem register_one_sorted {σ : Type} (env : Env σ) (self : WockyPorter σ) (r : Registration)
    (h : handlers_sorted self.handlers) :
    handlers_sorted (register_one env self r).handlers := by
  rw [register_one_handlers]
  exact g_list_insert_sorted_sorted _ _ h

theorem run_call_sorted {σ : Type} (env : Env σ) (self : WockyPorter σ) (c : PorterCall)
    (h : handlers_sorted self.handlers) : handlers_sorted (run_call env self c).handlers := by
  cases c with
  | register_handler r => exact register_one_sorted env self r h
  | unregister_handler id => exact wocky_porter_unregister_handler_sorted self id h
  | start =>
    show handlers_sorted (wocky_porter_start self).handlers
    rw [wocky_porter_start_handlers]
    exact h
  | send_async stanza cancellable callback =>
    show handlers_sorted (wocky_porter_send_async self stanza cancellable callback).handlers
    rw [wocky_porter_send_async_handlers]
    exact h
  | send_iq_async fuel stanza cancellable callback =>
    show handlers_sorted (match wocky_porter_send_iq_async env fuel self stanza cancellable
      callback with
      | some r => r.2
      | none => self).handlers
    split
    · rename_i res hres
      rw [wocky_porter_send_iq_async_handlers env fuel self stanza cancellable callback res hres]
      exact h
    · exact h
  | close_async cancellable callback =>
    show handlers_sorted (wocky_porter_close_async self cancellable callback).handlers
    rw [wocky_porter_close_async_handlers]
    exact h
  | send_stanza_cb error =>
    show handlers_sorted (send_stanza_cb self error).handlers
    rw [send_stanza_cb_handlers]
    exact h
  | close_sent_cb error =>
    show handlers_sorted (close_sent_cb self error).handlers
    rw [close_sent_cb_handlers]
    exact h
  | stanza_received_cb res =>
    show handlers_sorted (stanza_received_cb env self res).handlers
    rw [stanza_received_cb_handlers]
    exact h
  | cancel cancellable =>
    show handlers_sorted (g_cancellable_cancel self cancellable).handlers
    rw [g_cancellable_cancel_handlers]
    exact h
  | idle =>
    show handlers_sorted (idle_dispatch self).handlers
    rw [idle_dispatch_handlers]
    exact h

theorem run_calls_sorted {σ : Type} (env : Env σ) (calls : List PorterCall) :
    ∀ self : WockyPorter σ, handlers_sorted self.handlers →
      handlers_sorted (run_calls env self calls).handlers := by
  induction calls with
  | nil =>
    intro self h
    exact h
  | cons c cs ih =>
    intro self h
    exact ih _ (run_call_sorted env self c h)



/-! ## The handler list stays sorted -/

/-- C29: the handler list is sorted by non-increasing priority.  It is so after
construction (the two built-in handlers); wocky_porter_register_handler keeps
it so for every priority, and wocky_porter_unregister_handler for every id; and
it is so after every sequence of calls and callbacks of the porter started from
a new porter, since no other function writes the list.  Dispatch walks that
list from its front. -/
theorem handlers_sorted_invariant {σ : Type} (env : Env σ) (user : σ) :
    handlers_sorted (wocky_porter_new env user).handlers ∧
    (∀ (self : WockyPorter σ) (type : WockyStanzaType) (sub_type : WockyStanzaSubType)
      (from_ : Option String) (priority : Nat) (callback : WockyPorterHandlerFunc)
      (stanza : WockyNode), handlers_sorted self.handlers →
      handlers_sorted (wocky_porter_register_handler env self type sub_type from_ priority
        callback stanza).2.handlers) ∧
    (∀ (self : WockyPorter σ) (id : Nat), handlers_sorted self.handlers →
      handlers_sorted (wocky_porter_unregister_handler self id).handlers) ∧
    (∀ calls : List PorterCall,
      handlers_sorted (run_calls env (wocky_porter_new env user) calls).handlers) ∧
    (∀ (self : WockyPorter σ) (stanza : WockyXmppStanza),
      handle_stanza env self stanza =
        handle_stanza_loop env stanza (sender env stanza) self.handlers self) := by
  refine ⟨wocky_porter_new_sorted env user, ?_, ?_, ?_, ?_⟩
  · intro self type sub_type from_ priority callback stanza h
    exact register_one_sorted env self
      { type := type, sub_type := sub_type, from_ := from_, priority := priority,
        callback := callback, stanza := stanza } h
  · intro self id h
    exact wocky_porter_unregister_handler_sorted self id h
  · intro calls
    exact run_calls_sorted env calls _ (wocky_porter_new_sorted env user)
  · intro self stanza
    rfl

/-- C29, at a concrete input: on a new porter handlers of priority 5, of the maximum
priority and of priority 0 are registered, a stanza is received, and the first
of them (id 2) is unregistered; the priorities in the list are in
non-increasing order. -/
theorem handlers_sorted_invariant_witness :
    handlers_sorted (run_calls plain_env (wocky_porter_new plain_env ())
      [.register_handler (Registration.user .IQ .GET none 5 7),
       .register_handler (Registration.user .MESSAGE .NONE none G_MAXUINT 8),
       .register_handler (Registration.user .IQ .SET none 0 9),
       .stanza_received_cb (.ok (message "a")),
       .unregister_handler 2]).handlers ∧
    (run_calls plain_env (wocky_porter_new plain_env ())
      [.register_handler (Registration.user .IQ .GET none 5 7),
       .register_handler (Registration.user .MESSAGE .NONE none G_MAXUINT 8),
       .register_handler (Registration.user .IQ .SET none 0 9),
       .stanza_received_cb (.ok (message "a")),
       .unregister_handler 2]).handlers.map (fun h => h.priority) =
      [G_MAXUINT, G_MAXUINT, G_MAXUINT, 0] :=
  ⟨(handlers_sorted_invariant plain_env ()).2.2.2.1 _, by decide⟩



/-! ## Flushing the queue for a close -/

/-- While a close is in progress the sends of a callback change the idle queue and the
allocation counter only. -/
theorem resend_closing_eq {σ : Type} (resend : List WockyXmppStanza) :
    ∀ self : WockyPorter σ, self.close_result ≠ none →
      ∃ (i : List GSimpleAsyncResult) (n : Nat),
        resend.foldl wocky_porter_send self = { self with idle := i, next_ptr := n } := by
  induction resend with
  | nil =>
    intro self _
    exact ⟨self.idle, self.next_ptr, rfl⟩
  | cons s rest ih =>
    intro self h
    rw [List.foldl_cons]
    have hs : wocky_porter_send self s =
        g_simple_async_report_error_in_idle self GAsyncReadyCallback.NULL
          GError.WOCKY_PORTER_ERROR_CLOSING := by
      unfold wocky_porter_send wocky_porter_send_async
      rw [if_pos h]
    rw [hs]
    obtain ⟨i, n, e⟩ := ih (g_simple_async_report_error_in_idle self GAsyncReadyCallback.NULL
      GError.WOCKY_PORTER_ERROR_CLOSING) h
    exact ⟨i, n, e⟩

/-- While a close is in progress the completion of a result records the completion and,
through the callback, changes the idle queue and the allocation counter only. -/
theorem g_simple_async_result_complete_closing {σ : Type} (self : WockyPorter σ)
    (result : GSimpleAsyncResult) (h : self.close_result ≠ none) :
    ∃ (i : List GSimpleAsyncResult) (n : Nat),
      g_simple_async_result_complete self result =
        { self with trace := self.trace ++ [Event.complete result], idle := i, next_ptr := n } := by
  unfold g_simple_async_result_complete
  simp only []
  split
  · rename_i tag resend _
    obtain ⟨i, n, e⟩ := resend_closing_eq resend
      { self with trace := self.trace ++ [Event.complete result] } h
    exact ⟨i, n, e⟩
  · exact ⟨self.idle, self.next_ptr, rfl⟩

theorem sending_queue_elem_complete_closing {σ : Type} (self : WockyPorter σ)
    (result : GSimpleAsyncResult) (h : self.close_result ≠ none) (he : result.error = none) :
    ∃ (i : List GSimpleAsyncResult) (n : Nat),
      sending_queue_elem_complete self result =
        { self with trace := self.trace ++ [Event.complete result], idle := i, next_ptr := n } := by
  unfold sending_queue_elem_complete
  split
  · unfold iq_sent_cb
    rw [he]
    exact ⟨self.idle, self.next_ptr, rfl⟩
  · exact g_simple_async_result_complete_closing self result h

theorem sending_queue_elem_free_eq {σ : Type} (self : WockyPorter σ) (e : sending_queue_elem) :
    ∃ c : List SignalConnection, sending_queue_elem_free self e = { self with connections := c } := by
  unfold sending_queue_elem_free
  split
  · exact ⟨_, rfl⟩
  · exact ⟨self.connections, rfl⟩

theorem cancelled_sig_id_zero (e : sending_queue_elem) (h : e.cancelled_sig_id = 0) :
    { e with cancelled_sig_id := 0 } = e := by
  cases e
  simp only [] at h
  simp [h]

theorem send_head_stanza_cons {σ : Type} (self : WockyPorter σ) (e : sending_queue_elem)
    (rest : List sending_queue_elem) (hq : self.sending_queue = e :: rest) :
    ∃ c : List SignalConnection, send_head_stanza self =
      { self with
        sending_queue := { e with cancelled_sig_id := 0 } :: rest
        connections := c
        trace := self.trace ++ [Event.send_stanza_async e.stanza e.cancellable] } := by
  unfold send_head_stanza
  rw [hq]
  simp only []
  split
  · exact ⟨_, rfl⟩
  · rename_i h
    have h0 : e.cancelled_sig_id = 0 := by
      by_cases c : e.cancelled_sig_id = 0
      · exact c
      · exact absurd c h
    refine ⟨self.connections, ?_⟩
    rw [cancelled_sig_id_zero e h0, ← hq]



/-- One successful send while a close is in progress: the head leaves the queue and its
result is completed; the next element is handed to the connection, or, when
there is none, the close frame is. -/
theorem send_stanza_cb_closing {σ : Type} (self : WockyPorter σ) (e : sending_queue_elem)
    (rest : List sending_queue_elem) (hq : self.sending_queue = e :: rest)
    (hc : self.close_result ≠ none) (he : e.result.error = none) :
    ∃ (i : List GSimpleAsyncResult) (n : Nat) (c : List SignalConnection),
      send_stanza_cb self none =
        { self with
          sending_queue := (match rest with
            | [] => []
            | next :: r => { next with cancelled_sig_id := 0 } :: r)
          trace := self.trace ++ Event.complete e.result ::
            (match rest with
              | [] => [Event.send_close_async]
              | next :: _ => [Event.send_stanza_async next.stanza next.cancellable])
          idle := i
          next_ptr := n
          connections := c } := by
  obtain ⟨i, n, h1⟩ := sending_queue_elem_complete_closing
    { self with sending_queue := rest } e.result hc he
  obtain ⟨c1, h2⟩ := sending_queue_elem_free_eq
    (sending_queue_elem_complete { self with sending_queue := rest } e.result) e
  unfold send_stanza_cb
  simp only [hq]
  rw [h2, h1]
  cases rest with
  | nil =>
    refine ⟨i, n, c1, ?_⟩
    simp [send_close, hc]
  | cons next r =>
    obtain ⟨c2, h3⟩ := send_head_stanza_cons
      ({ self with
          sending_queue := next :: r
          trace := self.trace ++ [Event.complete e.result]
          idle := i
          next_ptr := n
          connections := c1 } : WockyPorter σ) next r rfl
    refine ⟨i, n, c2, ?_⟩
    simp only [List.length_cons, gt_iff_lt, Nat.zero_lt_succ, if_true]
    rw [h3]
    simp


theorem flush_events_head (e : sending_queue_elem) (rest : List sending_queue_elem) :
    flush_events ({ e with cancelled_sig_id := 0 } :: rest) = flush_events (e :: rest) := rfl

/-- The whole flush while a close is in progress: after as many successful sends as the
queue has elements the queue is empty, the trace has grown by the events of
the flush followed by the close frame, and otherwise only the idle queue, the
allocation counter and the signal connections can have changed. -/
theorem flush_closing {σ : Type} :
    ∀ (k : Nat) (q : List sending_queue_elem) (self : WockyPorter σ),
      q.length = k + 1 → self.sending_queue = q → self.close_result ≠ none →
      (∀ e ∈ q, e.result.error = none) →
      ∃ (i : List GSimpleAsyncResult) (n : Nat) (c : List SignalConnection),
        flush (k + 1) self =
          { self with
            sending_queue := []
            trace := self.trace ++ flush_events q ++ [Event.send_close_async]
            idle := i
            next_ptr := n
            connections := c } := by
  intro k
  induction k with
  | zero =>
    intro q self hl hq hc he
    cases q with
    | nil => simp at hl
    | cons e rest =>
      cases rest with
      | cons next r => simp at hl
      | nil =>
        obtain ⟨i, n, c, h⟩ := send_stanza_cb_closing self e [] hq hc
          (he e (List.mem_singleton.2 rfl))
        refine ⟨i, n, c, ?_⟩
        rw [flush, flush, h]
        simp [flush_events]
  | succ k ih =>
    intro q self hl hq hc he
    cases q with
    | nil => simp at hl
    | cons e rest =>
      cases rest with
      | nil => simp at hl
      | cons next r =>
        obtain ⟨i, n, c, h⟩ := send_stanza_cb_closing self e (next :: r) hq hc
          (he e (List.mem_cons_self _ _))
        rw [flush, h]
        obtain ⟨i2, n2, c2, h2⟩ := ih ({ next with cancelled_sig_id := 0 } :: r)
          ({ self with
              sending_queue := { next with cancelled_sig_id := 0 } :: r
              trace := self.trace ++ Event.complete e.result ::
                [Event.send_stanza_async next.stanza next.cancellable]
              idle := i
              next_ptr := n
              connections := c } : WockyPorter σ)
          (by simpa using hl) rfl hc
          (by
            intro x hx
            rcases List.mem_cons.1 hx with h | h
            · subst h
              exact he next (by simp)
            · exact he x (by simp [h]))
        refine ⟨i2, n2, c2, ?_⟩
        rw [h2, flush_events_head]
        simp [flush_events]



theorem flush_events_cons (e next : sending_queue_elem) (r : List sending_queue_elem) :
    flush_events (e :: next :: r) =
      Event.complete e.result :: Event.send_stanza_async next.stanza next.cancellable ::
        flush_events (next :: r) := rfl

theorem flush_events_handed (q : List sending_queue_elem) :
    handed (flush_events q) = q.tail.map (fun e => e.stanza) := by
  induction q with
  | nil => rfl
  | cons e rest ih =>
    cases rest with
    | nil => rfl
    | cons next r =>
      rw [flush_events_cons]
      simp only [handed, List.filterMap_cons, List.tail_cons, List.map_cons] at ih ⊢
      rw [ih]

theorem flush_events_completions (q : List sending_queue_elem) :
    completions (flush_events q) = q.map (fun e => (e.result.ptr, e.result.error)) := by
  induction q with
  | nil => rfl
  | cons e rest ih =>
    cases rest with
    | nil => rfl
    | cons next r =>
      rw [flush_events_cons]
      simp only [completions, List.filterMap_cons, List.map_cons] at ih ⊢
      rw [ih]

theorem flush_events_no_close (q : List sending_queue_elem) :
    Event.send_close_async ∉ flush_events q := by
  induction q with
  | nil => simp [flush_events]
  | cons e rest ih =>
    cases rest with
    | nil => simp [flush_events]
    | cons next r =>
      rw [flush_events_cons]
      simpa using ih

/-- A close accepted on a porter that is not closing, followed by the flush of its queue. -/
theorem wocky_porter_close_async_flush {σ : Type} (self : WockyPorter σ)
    (cancellable : Option Nat) (callback : GAsyncReadyCallback)
    (hl : self.local_closed = false)
    (hs : ¬ (self.receive_cancellable = none ∧ self.remote_closed = false))
    (hc : self.close_result = none) (he : ∀ e ∈ self.sending_queue, e.result.error = none) :
    ∃ (i : List GSimpleAsyncResult) (n : Nat) (c : List SignalConnection),
      flush self.sending_queue.length (wocky_porter_close_async self cancellable callback) =
        { self with
          sending_queue := []
          close_result := some { ptr := self.next_ptr, callback := callback }
          close_cancellable := cancellable
          trace := self.trace ++ flush_events self.sending_queue ++ [Event.send_close_async]
          idle := i
          next_ptr := n
          connections := c } := by
  cases hq : self.sending_queue with
  | nil =>
    refine ⟨self.idle, self.next_ptr + 1, self.connections, ?_⟩
    unfold wocky_porter_close_async
    rw [if_neg (by simp [hl]), if_neg hs, if_neg (by simp [hc])]
    simp [hq, flush, send_close, flush_events]
  | cons e rest =>
    have h0 : wocky_porter_close_async self cancellable callback =
        { self with
          close_result := some { ptr := self.next_ptr, callback := callback }
          close_cancellable := cancellable
          next_ptr := self.next_ptr + 1 } := by
      unfold wocky_porter_close_async
      rw [if_neg (by simp [hl]), if_neg hs, if_neg (by simp [hc])]
      simp [hq]
    rw [h0]
    obtain ⟨i, n, c, h⟩ := flush_closing rest.length (e :: rest)
      ({ self with
          close_result := some { ptr := self.next_ptr, callback := callback }
          close_cancellable := cancellable
          next_ptr := self.next_ptr + 1 } : WockyPorter σ)
      rfl hq (by simp) (by rw [← hq]; exact he)
    refine ⟨i, n, c, ?_⟩
    rw [List.length_cons, h]



/-- What complete_close does to a pending close: its result is completed, with the
cancellation error when the close cancellable is cancelled, and the close
operation is cleared; the callback can change the idle queue and the allocation
counter only. -/
theorem complete_close_eq {σ : Type} (self : WockyPorter σ) (r : GSimpleAsyncResult)
    (h : self.close_result = some r) :
    ∃ (i : List GSimpleAsyncResult) (n : Nat),
      complete_close self =
        { self with
          close_result := none
          close_cancellable := none
          trace := self.trace ++
            [Event.complete (if g_cancellable_is_cancelled self self.close_cancellable then
              { r with error := some GError.G_IO_ERROR_CANCELLED } else r)]
          idle := i
          next_ptr := n } := by
  unfold complete_close
  rw [h]
  simp only []
  generalize (if g_cancellable_is_cancelled self self.close_cancellable = true then
    ({ r with error := some GError.G_IO_ERROR_CANCELLED } : GSimpleAsyncResult) else r) = R
  obtain ⟨i, n, e⟩ := g_simple_async_result_complete_closing
    ({ self with close_result := some R } : WockyPorter σ) R (by simp)
  rw [e]
  exact ⟨i, n, rfl⟩

/-- The peer's close while a close is pending: the close is completed, then remote-closed
is emitted and the receive loop ends. -/
theorem stanza_received_cb_closed_eq {σ : Type} (env : Env σ) (self : WockyPorter σ)
    (r : GSimpleAsyncResult) (h : self.close_result = some r) :
    ∃ (i : List GSimpleAsyncResult) (n : Nat),
      stanza_received_cb env self (.error GError.WOCKY_XMPP_CONNECTION_ERROR_CLOSED) =
        { self with
          close_result := none
          close_cancellable := none
          receive_cancellable := none
          remote_closed := true
          trace := self.trace ++
            [Event.complete (if g_cancellable_is_cancelled self self.close_cancellable then
              { r with error := some GError.G_IO_ERROR_CANCELLED } else r),
             Event.remote_closed_signal]
          idle := i
          next_ptr := n } := by
  obtain ⟨i, n, e⟩ := complete_close_eq self r h
  refine ⟨i, n, ?_⟩
  unfold stanza_received_cb
  simp only [if_true]
  rw [if_pos (by rw [h]; simp), e]
  simp

/-- The close frame has been sent without error while the close cancellable is not
cancelled and the peer has not closed: close_sent_cb sets local_closed and
waits. -/
theorem close_sent_cb_waits {σ : Type} (self : WockyPorter σ)
    (hn : g_cancellable_is_cancelled self self.close_cancellable = false)
    (hr : self.remote_closed = false) :
    close_sent_cb self none = { self with local_closed := true } := by
  unfold close_sent_cb
  simp only []
  rw [if_pos ⟨hn, hr⟩]

/-- The close frame has been sent, with or without error, while the close cancellable is
cancelled or the peer has closed, or with an error: close_sent_cb completes the
pending close. -/
theorem close_sent_cb_completes {σ : Type} (self : WockyPorter σ) (r : GSimpleAsyncResult)
    (error : Option GError) (h : self.close_result = some r) :
    (error ≠ none ∨ g_cancellable_is_cancelled self self.close_cancellable = true ∨
      self.remote_closed = true) →
    ∃ (i : List GSimpleAsyncResult) (n : Nat),
      close_sent_cb self error =
        { self with
          local_closed := true
          close_result := none
          close_cancellable := none
          trace := self.trace ++
            [Event.complete (if g_cancellable_is_cancelled self self.close_cancellable then
              { r with error := some GError.G_IO_ERROR_CANCELLED }
              else match error with
                | some e => { r with error := some e }
                | none => r)]
          idle := i
          next_ptr := n } := by
  intro hd
  unfold close_sent_cb
  cases error with
  | some e =>
    simp only [h]
    rw [if_pos (by simp)]
    obtain ⟨i, n, eq⟩ := complete_close_eq
      ({ self with local_closed := true, close_result := some { r with error := some e } } :
        WockyPorter σ) { r with error := some e } rfl
    refine ⟨i, n, ?_⟩
    rw [eq]
    rfl
  | none =>
    simp only []
    have hnot : ¬ (g_cancellable_is_cancelled ({ self with local_closed := true } : WockyPorter σ)
        self.close_cancellable = false ∧ self.remote_closed = false) := by
      rintro ⟨a, b⟩
      rcases hd with c | c | c
      · exact c rfl
      · have a' : g_cancellable_is_cancelled self self.close_cancellable = false := a
        rw [c] at a'
        cases a'
      · rw [c] at b
        cases b
    rw [if_neg hnot, if_pos (by rw [h]; simp)]
    obtain ⟨i, n, eq⟩ := complete_close_eq
      ({ self with local_closed := true } : WockyPorter σ) r h
    refine ⟨i, n, ?_⟩
    rw [eq]
    rfl



/-! ## Graceful close -/

/-- C21: wocky_porter_close_async is accepted on a started porter whose peer has not closed,
with any number of elements in the send queue (the head, if any, is in flight);
the connection then reports the success of each send, the peer does not close
meanwhile and the close cancellable does not fire.  After as many
send_stanza_cb as the queue had elements the queue is empty and the trace has
grown by exactly: for each element in queue order the completion of its result
as it stands (without error) followed by the hand-over of the next element, and
then, once and after the last completion, the close frame (at once when the
queue was empty).  When the frame has been sent (close_sent_cb) the close is
still pending; it is completed, without error, when the peer's close is
observed. -/
theorem close_flushes_first {σ : Type} (env : Env σ) (self : WockyPorter σ)
    (cancellable : Option Nat) (callback : GAsyncReadyCallback)
    (hl : self.local_closed = false) (hr : self.remote_closed = false)
    (hs : self.receive_cancellable ≠ none) (hc : self.close_result = none)
    (he : ∀ e ∈ self.sending_queue, e.result.error = none)
    (hn : g_cancellable_is_cancelled self cancellable = false) :
    (flush self.sending_queue.length
      (wocky_porter_close_async self cancellable callback)).sending_queue = [] ∧
    (flush self.sending_queue.length (wocky_porter_close_async self cancellable callback)).trace =
      self.trace ++ flush_events self.sending_queue ++ [Event.send_close_async] ∧
    handed (flush_events self.sending_queue) =
      self.sending_queue.tail.map (fun e => e.stanza) ∧
    completions (flush_events self.sending_queue) =
      self.sending_queue.map (fun e => (e.result.ptr, none)) ∧
    Event.send_close_async ∉ flush_events self.sending_queue ∧
    (close_sent_cb (flush self.sending_queue.length
      (wocky_porter_close_async self cancellable callback)) none).trace =
      self.trace ++ flush_events self.sending_queue ++ [Event.send_close_async] ∧
    (close_sent_cb (flush self.sending_queue.length
      (wocky_porter_close_async self cancellable callback)) none).close_result =
      some { ptr := self.next_ptr, callback := callback } ∧
    (stanza_received_cb env (close_sent_cb (flush self.sending_queue.length
      (wocky_porter_close_async self cancellable callback)) none)
      (.error GError.WOCKY_XMPP_CONNECTION_ERROR_CLOSED)).trace =
      self.trace ++ flush_events self.sending_queue ++ [Event.send_close_async] ++
        [Event.complete { ptr := self.next_ptr, callback := callback },
         Event.remote_closed_signal] ∧
    (stanza_received_cb env (close_sent_cb (flush self.sending_queue.length
      (wocky_porter_close_async self cancellable callback)) none)
      (.error GError.WOCKY_XMPP_CONNECTION_ERROR_CLOSED)).close_result = none := by
  obtain ⟨i, n, c, h1⟩ := wocky_porter_close_async_flush self cancellable callback hl
    (fun h => hs h.1) hc he
  have hcomp : completions (flush_events self.sending_queue) =
      self.sending_queue.map (fun e => (e.result.ptr, none)) := by
    rw [flush_events_completions]
    apply List.map_congr_left
    intro e hm
    rw [he e hm]
  rw [h1]
  have h2 := close_sent_cb_waits
    ({ self with
        sending_queue := []
        close_result := some { ptr := self.next_ptr, callback := callback }
        close_cancellable := cancellable
        trace := self.trace ++ flush_events self.sending_queue ++ [Event.send_close_async]
        idle := i
        next_ptr := n
        connections := c } : WockyPorter σ) hn hr
  rw [h2]
  obtain ⟨i3, n3, h3⟩ := stanza_received_cb_closed_eq env
    ({ self with
        sending_queue := []
        close_result := some { ptr := self.next_ptr, callback := callback }
        close_cancellable := cancellable
        trace := self.trace ++ flush_events self.sending_queue ++ [Event.send_close_async]
        idle := i
        next_ptr := n
        connections := c
        local_closed := true } : WockyPorter σ)
    { ptr := self.next_ptr, callback := callback } rfl
  rw [h3]
  refine ⟨rfl, rfl, flush_events_handed _, hcomp, flush_events_no_close _, rfl, rfl, ?_, rfl⟩
  have hn' : g_cancellable_is_cancelled
      ({ self with
        sending_queue := []
        close_result := some { ptr := self.next_ptr, callback := callback }
        close_cancellable := cancellable
        trace := self.trace ++ flush_events self.sending_queue ++ [Event.send_close_async]
        idle := i
        next_ptr := n
        connections := c
        local_closed := true } : WockyPorter σ) cancellable = false := hn
  simp only [hn']
  simp

/-- C21, at a concrete input: the started porter with the messages "a" (in flight, result
4) and "b" (waiting, result 6) is closed with the callback 9; after the two
sends "b" has been handed over, both results are completed without error and
the close frame comes last; the close result (9) is completed when the peer
closes. -/
theorem close_flushes_first_witness :
    (flush 2 (wocky_porter_close_async (wocky_porter_start porter_with_two_messages) none
      (.user 9 []))).trace =
      (wocky_porter_start porter_with_two_messages).trace ++
        [Event.complete { ptr := 4, callback := .user 1 [] },
         Event.send_stanza_async (message "b") none,
         Event.complete { ptr := 6, callback := .user 2 [] },
         Event.send_close_async] ∧
    completions (stanza_received_cb plain_env (close_sent_cb (flush 2
      (wocky_porter_close_async (wocky_porter_start porter_with_two_messages) none
        (.user 9 []))) none) (.error GError.WOCKY_XMPP_CONNECTION_ERROR_CLOSED)).trace =
      [(4, none), (6, none), (8, none)] :=
  ⟨(close_flushes_first plain_env (wocky_porter_start porter_with_two_messages) none
      (.user 9 []) (by decide) (by decide) (by decide) (by decide) (by decide)
      (by decide)).2.1,
   by decide⟩



/-! ## The peer closes first -/

theorem and_all_ones (word : Nat) (h : word < 4294967296) : word &&& 4294967295 = word := by
  have := Nat.and_pow_two_sub_one_eq_mod word 32
  norm_num at this
  rw [this]
  exact Nat.mod_eq_of_lt h

theorem most_important_status_ok (g : Gnutls) (word : Nat) :
    most_important_status g word = .WOCKY_TLS_CERT_OK ↔ word = 0 := by
  unfold most_important_status
  constructor
  · intro h
    repeat' split at h
    all_goals first
      | (rename_i h0; exact not_not.1 h0)
      | cases h
  · intro h
    subst h
    simp

/-- The loop over status_map finds the status of the claim. -/
theorem status_map_loop_eq (g : Gnutls) (word : Nat) (hbits : g.bits_set)
    (hw : word < 4294967296) :
    status_map_loop word (status_map g) =
      if word = 0 then none else some (most_important_status g word) := by
  obtain ⟨b1, b2, b3, b4, b5, b6, b7⟩ := hbits
  unfold status_map most_important_status
  simp only [status_map_loop, b1, b2, b3, b4, b5, b6, b7, if_false, and_all_ones word hw]
  by_cases h0 : word = 0
  · subst h0
    simp
  · simp only [h0, if_false, ne_eq, not_false_eq_true, if_true]
    repeat' split
    all_goals first
      | rfl
      | (rename_i h1; exact absurd h1 (by decide))


/-- C30: wocky_tls_session_verify_peer reports the most important certificate error only.
With `word` the status word that GnuTLS leaves in the guint `_stat`: when the
check of the peer name passes or is not made (peer_name_ok stays TRUE) the
status is the one that the claim's order gives for `word`, which is OK exactly
when `word` is 0, and for every other status the return value is
GNUTLS_E_CERTIFICATE_ERROR; when the check fails the status is
WOCKY_TLS_CERT_NAME_MISMATCH whatever `word` is.  The check fails exactly when
the verification succeeded, a peer name was given, and either the hostname
check of the X.509 or OpenPGP certificate returns 0 after a successful init or
the certificate type is neither of the two. -/
theorem wocky_tls_session_verify_peer_status (g : Gnutls) (session : WockyTLSSession)
    (peername : Option String) (hbits : g.bits_set) (hs : g.GNUTLS_E_SUCCESS ≠ -1) :
    ((peer_name_check g session peername).2 = true →
      (wocky_tls_session_verify_peer g session peername).2 =
        most_important_status g (session.verify_peers2.2 % 4294967296) ∧
      ((wocky_tls_session_verify_peer g session peername).2 = .WOCKY_TLS_CERT_OK ↔
        session.verify_peers2.2 % 4294967296 = 0) ∧
      ((wocky_tls_session_verify_peer g session peername).2 ≠ .WOCKY_TLS_CERT_OK →
        (wocky_tls_session_verify_peer g session peername).1 = g.GNUTLS_E_CERTIFICATE_ERROR)) ∧
    ((peer_name_check g session peername).2 = false →
      (wocky_tls_session_verify_peer g session peername).2 = .WOCKY_TLS_CERT_NAME_MISMATCH) ∧
    ((peer_name_check g session peername).2 = false ↔
      ∃ name, peername = some name ∧ session.verify_peers2.1 = g.GNUTLS_E_SUCCESS ∧
        match session.certificate_type with
        | .GNUTLS_CRT_X509 =>
          session.x509_crt_init = g.GNUTLS_E_SUCCESS ∧ session.x509_crt_check_hostname name = 0
        | .GNUTLS_CRT_OPENPGP =>
          session.openpgp_crt_init = g.GNUTLS_E_SUCCESS ∧
            session.openpgp_crt_check_hostname name = 0
        | .OTHER _ => True) := by
  have hw : session.verify_peers2.2 % 4294967296 < 4294967296 := Nat.mod_lt _ (by decide)
  have hloop := status_map_loop_eq g _ hbits hw
  refine ⟨?_, ?_, ?_⟩
  · intro hok
    have hv : wocky_tls_session_verify_peer g session peername =
        if session.verify_peers2.2 % 4294967296 = 0 then
          ((peer_name_check g session peername).1, .WOCKY_TLS_CERT_OK)
        else (g.GNUTLS_E_CERTIFICATE_ERROR,
          most_important_status g (session.verify_peers2.2 % 4294967296)) := by
      unfold wocky_tls_session_verify_peer
      simp only [hok, Bool.true_eq_false, if_false, hloop]
      by_cases h0 : session.verify_peers2.2 % 4294967296 = 0
      · simp only [h0, if_true]
      · simp only [h0, if_false]
    rw [hv]
    by_cases h0 : session.verify_peers2.2 % 4294967296 = 0
    · rw [if_pos h0]
      exact ⟨((most_important_status_ok g _).2 h0).symm, ⟨fun _ => h0, fun _ => rfl⟩,
        fun c => absurd rfl c⟩
    · rw [if_neg h0]
      have hne : most_important_status g (session.verify_peers2.2 % 4294967296) ≠
          .WOCKY_TLS_CERT_OK := fun c => h0 ((most_important_status_ok g _).1 c)
      exact ⟨rfl, ⟨fun c => absurd c hne, fun c => absurd c h0⟩, fun _ => rfl⟩
  · intro hbad
    unfold wocky_tls_session_verify_peer
    simp only [hbad, if_true]
  · unfold peer_name_check
    cases peername with
    | none => simp
    | some name =>
      simp only [Option.some.injEq, exists_eq_left']
      by_cases hr : session.verify_peers2.1 = g.GNUTLS_E_SUCCESS
      · simp only [hr, if_true, true_and]
        cases session.certificate_type with
        | GNUTLS_CRT_X509 =>
          simp only []
          by_cases hi : session.x509_crt_init = g.GNUTLS_E_SUCCESS
          · by_cases hh : session.x509_crt_check_hostname name = 0
            · simp [hi, hh, hs.symm]
            · simp [hi, hh]
          · simp [hi]
        | GNUTLS_CRT_OPENPGP =>
          simp only []
          by_cases hi : session.openpgp_crt_init = g.GNUTLS_E_SUCCESS
          · by_cases hh : session.openpgp_crt_check_hostname name = 0
            · simp [hi, hh, hs.symm]
            · simp [hi, hh]
          · simp [hi]
        | OTHER tag => simp
      · simp [hr]

/-- C30, at concrete inputs, with the values of gnutls.h: a status word with the bits of
INVALID and SIGNER_NOT_FOUND gives WOCKY_TLS_CERT_SIGNER_UNKNOWN and the
certificate error when the name matches, and WOCKY_TLS_CERT_NAME_MISMATCH when
it does not. -/
theorem wocky_tls_session_verify_peer_status_witness :
    wocky_tls_session_verify_peer gnutls_h (x509_session 66) (some "example.com") =
      (-43, .WOCKY_TLS_CERT_SIGNER_UNKNOWN) ∧
    (wocky_tls_session_verify_peer gnutls_h (x509_session 66) (some "evil.org")).2 =
      .WOCKY_TLS_CERT_NAME_MISMATCH :=
  ⟨by decide,
   (wocky_tls_session_verify_peer_status gnutls_h (x509_session 66) (some "evil.org")
      (by simp [Gnutls.bits_set, gnutls_h]) (by decide)).2.1 (by decide)⟩



/-! ## SASL mechanism selection -/

/-- C27: the selection of the SASL mechanism.  Without a `<mechanisms>` element it fails with
SASL_NOT_SUPPORTED.  With one it fails with NO_SUPPORTED_MECHANISMS exactly when
nothing is left of the offered mechanisms among DIGEST-MD5 and PLAIN once PLAIN
is removed if cleartext is not allowed, that is when DIGEST-MD5 is not offered
and PLAIN is not offered or not allowed; otherwise DIGEST-MD5 is chosen if it is
offered, and PLAIN if not.  On every row of the table of
wocky-test-sasl-auth.c the selection gives what the test expects, whatever the
default list of the test server is, provided it has DIGEST-MD5. -/
theorem wocky_sasl_auth_select_mechanism_spec (offered : List String) (allow_plain : Bool) :
    wocky_sasl_auth_select_mechanism none allow_plain =
      .error .WOCKY_SASL_AUTH_ERROR_SASL_NOT_SUPPORTED ∧
    (wocky_sasl_auth_select_mechanism (some offered) allow_plain =
        .error .WOCKY_SASL_AUTH_ERROR_NO_SUPPORTED_MECHANISMS ↔
      "DIGEST-MD5" ∉ offered ∧ ("PLAIN" ∉ offered ∨ allow_plain = false)) ∧
    ("DIGEST-MD5" ∈ offered →
      wocky_sasl_auth_select_mechanism (some offered) allow_plain = .ok "DIGEST-MD5") ∧
    ("DIGEST-MD5" ∉ offered → "PLAIN" ∈ offered → allow_plain = true →
      wocky_sasl_auth_select_mechanism (some offered) allow_plain = .ok "PLAIN") ∧
    wocky_sasl_auth_select_mechanism (some ["NONSENSE"]) true =
      .error .WOCKY_SASL_AUTH_ERROR_NO_SUPPORTED_MECHANISMS ∧
    wocky_sasl_auth_select_mechanism (some ["PLAIN"]) false =
      .error .WOCKY_SASL_AUTH_ERROR_NO_SUPPORTED_MECHANISMS ∧
    (∀ default : List String, "DIGEST-MD5" ∈ default →
      ∀ t ∈ tests, selection_code default t = t.code) := by
  have key : wocky_sasl_auth_select_mechanism (some offered) allow_plain =
      if "DIGEST-MD5" ∈ offered then .ok "DIGEST-MD5"
      else if "PLAIN" ∈ offered ∧ allow_plain = true then .ok "PLAIN"
      else .error .WOCKY_SASL_AUTH_ERROR_NO_SUPPORTED_MECHANISMS := by
    unfold wocky_sasl_auth_select_mechanism sasl_implemented_mechanisms
    by_cases hd : "DIGEST-MD5" ∈ offered <;> by_cases hp : "PLAIN" ∈ offered <;>
      cases allow_plain <;> simp [hd, hp, List.filter]
  refine ⟨rfl, ?_, ?_, ?_,
    by simp [wocky_sasl_auth_select_mechanism, sasl_implemented_mechanisms, List.filter],
    by simp [wocky_sasl_auth_select_mechanism, sasl_implemented_mechanisms, List.filter], ?_⟩
  · rw [key]
    by_cases hd : "DIGEST-MD5" ∈ offered <;> by_cases hp : "PLAIN" ∈ offered <;>
      cases allow_plain <;> simp [hd, hp]
  · intro hd
    rw [key, if_pos hd]
  · intro hd hp ha
    rw [key, if_neg hd, if_pos ⟨hp, ha⟩]
  · intro default hdef t ht
    have kd : ∀ a : Bool, wocky_sasl_auth_select_mechanism (some default) a =
        .ok "DIGEST-MD5" := by
      intro a
      unfold wocky_sasl_auth_select_mechanism sasl_implemented_mechanisms
      by_cases hp : "PLAIN" ∈ default <;> cases a <;> simp [hdef, hp, List.filter]
    simp only [tests, List.mem_cons, List.mem_singleton, List.not_mem_nil, or_false] at ht
    rcases ht with h | h | h | h | h | h | h <;> subst h <;>
      simp [selection_code, server_mechanisms, kd] <;> decide

/-- C27, at a concrete input: with a test server that offers PLAIN and DIGEST-MD5 by default
the selection gives on the seven rows of the table what the tests expect. -/
theorem wocky_sasl_auth_select_mechanism_spec_witness :
    tests.map (selection_code ["PLAIN", "DIGEST-MD5"]) = tests.map (fun t => t.code) :=
  List.map_congr_left
    ((wocky_sasl_auth_select_mechanism_spec [] true).2.2.2.2.2.2 ["PLAIN", "DIGEST-MD5"]
      (by decide))



/-! ## The roster after a fetch -/

theorem roster_insert_absent (contacts : List (String × WockyContact)) (contact : WockyContact)
    (h : ∀ e ∈ contacts, e.1 ≠ contact.jid) :
    roster_insert contacts contact = contacts ++ [(contact.jid, contact)] := by
  induction contacts with
  | nil => rfl
  | cons e rest ih =>
    obtain ⟨jid, c⟩ := e
    rw [roster_insert, if_neg (h (jid, c) (List.mem_cons_self _ _)),
      ih (fun x hx => h x (List.mem_cons_of_mem _ hx))]
    rfl

theorem roster_fold_distinct (items : List WockyContact) :
    ∀ acc : List (String × WockyContact),
      (items.map (fun c => c.jid)).Nodup →
      (∀ e ∈ acc, ∀ c ∈ items, e.1 ≠ c.jid) →
      items.foldl roster_insert acc = acc ++ items.map (fun c => (c.jid, c)) := by
  induction items with
  | nil =>
    intro acc _ _
    simp
  | cons c rest ih =>
    intro acc hn hacc
    rw [List.map_cons, List.nodup_cons] at hn
    rw [List.foldl_cons, roster_insert_absent acc c
      (fun e he => hacc e he c (List.mem_cons_self _ _))]
    rw [ih _ hn.2]
    · simp
    · intro e he x hx
      rcases List.mem_append.1 he with h | h
      · exact hacc e h x (List.mem_cons_of_mem _ hx)
      · simp only [List.mem_singleton] at h
        subst h
        intro heq
        exact hn.1 (List.mem_map.2 ⟨x, hx, heq.symm⟩)

theorem find_contact_distinct (items : List WockyContact) (item : WockyContact)
    (hn : (items.map (fun c => c.jid)).Nodup) (hm : item ∈ items) :
    (items.map (fun c => (c.jid, c))).find? (fun e => decide (e.1 = item.jid)) =
      some (item.jid, item) := by
  induction items with
  | nil => cases hm
  | cons c rest ih =>
    rw [List.map_cons, List.nodup_cons] at hn
    rw [List.map_cons]
    rcases List.mem_cons.1 hm with h | h
    · subst h
      simp
    · have hne : c.jid ≠ item.jid := by
        intro heq
        exact hn.1 (List.mem_map.2 ⟨item, h, heq.symm⟩)
      rw [List.find?_cons_of_neg _ (by simpa using hne)]
      exact ih hn.2 h

/-- C28 (as stated, refuted): a reply carries two items with the same jid.  The reply has
two items, the roster one contact: the map has one entry per jid, and what
wocky_roster_get_contact returns for that jid is not the first of the two
items. -/
theorem fetch_roster_duplicate_jid_counterexample :
    reply_with_duplicate_jid.length = 2 ∧
    (wocky_roster_get_all_contacts (wocky_roster_fetch_roster reply_with_duplicate_jid)).length =
      1 ∧
    (wocky_roster_get_contact (wocky_roster_fetch_roster reply_with_duplicate_jid)
      "romeo@example.net").map (fun c => c.name) = some (some "Romeo M.") := by
  decide

/-- C28 (amended): for a reply whose items have pairwise distinct jids, the contacts of the
roster after the fetch are the items of the reply, one contact per item with
the item's jid as key and its name, subscription and groups;
wocky_roster_get_contact returns the item for its jid, and nothing for a jid
that no item has; wocky_roster_get_all_contacts has as many entries as the reply
has items. -/
theorem wocky_roster_fetch_roster_distinct (items : List WockyContact)
    (h : (items.map (fun c => c.jid)).Nodup) :
    wocky_roster_fetch_roster items = items.map (fun c => (c.jid, c)) ∧
    wocky_roster_get_all_contacts (wocky_roster_fetch_roster items) = items ∧
    (wocky_roster_get_all_contacts (wocky_roster_fetch_roster items)).length = items.length ∧
    (∀ item ∈ items,
      wocky_roster_get_contact (wocky_roster_fetch_roster items) item.jid = some item) ∧
    (∀ jid : String, (∀ item ∈ items, item.jid ≠ jid) →
      wocky_roster_get_contact (wocky_roster_fetch_roster items) jid = none) := by
  have h1 : wocky_roster_fetch_roster items = items.map (fun c => (c.jid, c)) := by
    unfold wocky_roster_fetch_roster
    rw [roster_fold_distinct items [] h (by simp)]
    simp
  have h2 : wocky_roster_get_all_contacts (wocky_roster_fetch_roster items) = items := by
    rw [h1]
    unfold wocky_roster_get_all_contacts
    rw [List.map_map]
    exact List.map_id _
  refine ⟨h1, h2, by rw [h2], ?_, ?_⟩
  · intro item hm
    rw [h1]
    unfold wocky_roster_get_contact
    rw [find_contact_distinct items item h hm]
    rfl
  · intro jid hj
    rw [h1]
    unfold wocky_roster_get_contact
    rw [List.find?_eq_none.2]
    · rfl
    · intro e he
      obtain ⟨c, hc, rfl⟩ := List.mem_map.1 he
      simpa using hj c hc

/-- C28 (amended), at a concrete input: the reply of fetch_roster_reply_cb in
wocky-roster-test.c and what fetch_roster_reply_roster_cb asserts: two
contacts, Romeo and Juliet found under their jids and equal to create_romeo and
create_juliet. -/
theorem wocky_roster_fetch_roster_distinct_witness :
    (wocky_roster_get_all_contacts (wocky_roster_fetch_roster fetch_roster_reply)).length = 2 ∧
    (wocky_roster_get_contact (wocky_roster_fetch_roster fetch_roster_reply)
      "romeo@example.net").map (fun c => wocky_contact_equal c create_romeo) = some true ∧
    (wocky_roster_get_contact (wocky_roster_fetch_roster fetch_roster_reply)
      "juliet@example.net").map (fun c => wocky_contact_equal c create_juliet) = some true :=
  ⟨(wocky_roster_fetch_roster_distinct fetch_roster_reply (by decide)).2.2.1,
   by decide, by decide⟩



/-! ## A read error while a close is pending -/

/-- A read error that is not the peer's close: remote-error is emitted and the receive loop
ends; nothing else changes. -/
theorem stanza_received_cb_error_eq {σ : Type} (env : Env σ) (self : WockyPorter σ)
    (e : GError) (h : e ≠ GError.WOCKY_XMPP_CONNECTION_ERROR_CLOSED) :
    stanza_received_cb env self (.error e) =
      { self with
        trace := self.trace ++ [Event.remote_error_signal e]
        receive_cancellable := none
        remote_closed := true } := by
  unfold stanza_received_cb
  simp only [h, if_false]

/-- C25 (as stated, refuted): two runs in which the read fails with an error that is not the
peer's close while a close is pending.  In the first the close (result 8) waits
for the queue: the error completes nothing, the close stays pending, and when
the two sends and the send of the close frame have succeeded it is completed
without error.  In the second the close (result 4) has sent its frame and
waits for the peer: the error completes nothing and the close stays pending
with the receive loop stopped. -/
theorem read_error_pending_close_counterexample :
    porter_closing_with_two_messages.close_result = some { ptr := 8, callback := .user 9 [] } ∧
    completions (stanza_received_cb plain_env porter_closing_with_two_messages
      (.error (.OTHER 1 1))).trace = [] ∧
    (stanza_received_cb plain_env porter_closing_with_two_messages
      (.error (.OTHER 1 1))).close_result = some { ptr := 8, callback := .user 9 [] } ∧
    completions (close_sent_cb (flush 2 (stanza_received_cb plain_env
      porter_closing_with_two_messages (.error (.OTHER 1 1)))) none).trace =
      [(4, none), (6, none), (8, none)] ∧
    porter_waiting_for_remote_close.close_result = some { ptr := 4, callback := .user 9 [] } ∧
    porter_waiting_for_remote_close.local_closed = true ∧
    porter_after_read_error.trace =
      porter_waiting_for_remote_close.trace ++ [Event.remote_error_signal (.OTHER 1 1)] ∧
    porter_after_read_error.close_result = some { ptr := 4, callback := .user 9 [] } ∧
    completions porter_after_read_error.trace = [] ∧
    porter_after_read_error.idle = [] ∧
    porter_after_read_error.receive_cancellable = none ∧
    porter_after_read_error.sending_queue = [] := by
  decide

/-- C25 (amended): a read error that is not the peer's close, while a close is pending, does
not complete the close: stanza_received_cb emits remote-error, stops the receive
loop and marks the peer as closed, and the close operation stays as it is.  If
the close frame has not been sent yet, the queue is flushed as before, the
close frame follows, and close_sent_cb then completes the close result, with
the error of that send if it failed, with the cancellation error if the close
cancellable has fired, and without error otherwise. -/
theorem read_error_leaves_close_pending {σ : Type} (env : Env σ) (self : WockyPorter σ)
    (r : GSimpleAsyncResult) (e : GError) (hres : self.close_result = some r)
    (he : e ≠ GError.WOCKY_XMPP_CONNECTION_ERROR_CLOSED) :
    (stanza_received_cb env self (.error e)).trace =
      self.trace ++ [Event.remote_error_signal e] ∧
    (stanza_received_cb env self (.error e)).close_result = some r ∧
    (stanza_received_cb env self (.error e)).receive_cancellable = none ∧
    (stanza_received_cb env self (.error e)).remote_closed = true ∧
    (self.sending_queue ≠ [] → (∀ x ∈ self.sending_queue, x.result.error = none) →
      (flush self.sending_queue.length (stanza_received_cb env self (.error e))).trace =
        self.trace ++ [Event.remote_error_signal e] ++ flush_events self.sending_queue ++
          [Event.send_close_async] ∧
      (flush self.sending_queue.length (stanza_received_cb env self (.error e))).close_result =
        some r ∧
      ∀ error : Option GError,
        (close_sent_cb (flush self.sending_queue.length
          (stanza_received_cb env self (.error e))) error).trace =
          self.trace ++ [Event.remote_error_signal e] ++ flush_events self.sending_queue ++
            [Event.send_close_async] ++
            [Event.complete (if g_cancellable_is_cancelled self self.close_cancellable then
              { r with error := some GError.G_IO_ERROR_CANCELLED }
              else match error with
                | some x => { r with error := some x }
                | none => r)]) ∧
    (∀ error : Option GError,
      (close_sent_cb (stanza_received_cb env self (.error e)) error).trace =
        self.trace ++ [Event.remote_error_signal e] ++
          [Event.complete (if g_cancellable_is_cancelled self self.close_cancellable then
            { r with error := some GError.G_IO_ERROR_CANCELLED }
            else match error with
              | some x => { r with error := some x }
              | none => r)] ∧
      (close_sent_cb (stanza_received_cb env self (.error e)) error).close_result = none) := by
  rw [stanza_received_cb_error_eq env self e he]
  refine ⟨rfl, hres, rfl, rfl, ?_, ?_⟩
  · intro hq hx
    obtain ⟨x, rest, hqq⟩ := List.exists_cons_of_ne_nil hq
    have hl : self.sending_queue.length = rest.length + 1 := by
      rw [hqq]
      rfl
    obtain ⟨i, n, c, h⟩ := flush_closing rest.length self.sending_queue
      ({ self with
          trace := self.trace ++ [Event.remote_error_signal e]
          receive_cancellable := none
          remote_closed := true } : WockyPorter σ)
      hl rfl (by rw [hres]; simp) hx
    rw [hl, h]
    refine ⟨rfl, hres, ?_⟩
    intro error
    obtain ⟨i2, n2, h2⟩ := close_sent_cb_completes
      ({ self with
          sending_queue := []
          trace := self.trace ++ [Event.remote_error_signal e] ++
            flush_events self.sending_queue ++ [Event.send_close_async]
          receive_cancellable := none
          remote_closed := true
          idle := i
          next_ptr := n
          connections := c } : WockyPorter σ) r error hres (Or.inr (Or.inr rfl))
    rw [h2]
    rfl
  · intro error
    obtain ⟨i2, n2, h2⟩ := close_sent_cb_completes
      ({ self with
          trace := self.trace ++ [Event.remote_error_signal e]
          receive_cancellable := none
          remote_closed := true } : WockyPorter σ) r error hres (Or.inr (Or.inr rfl))
    rw [h2]
    exact ⟨rfl, rfl⟩

/-- C25 (amended), at a concrete input: the read fails while the close of the porter with
the messages "a" and "b" waits for the queue; nothing is completed by the error,
and the close result (8) is completed without error once the close frame has
been sent. -/
theorem read_error_leaves_close_pending_witness :
    (stanza_received_cb plain_env porter_closing_with_two_messages
      (.error (.OTHER 1 1))).trace =
      porter_closing_with_two_messages.trace ++ [Event.remote_error_signal (.OTHER 1 1)] ∧
    completions (close_sent_cb (flush 2 (stanza_received_cb plain_env
      porter_closing_with_two_messages (.error (.OTHER 1 1)))) none).trace =
      [(4, none), (6, none), (8, none)] :=
  ⟨(read_error_leaves_close_pending plain_env porter_closing_with_two_messages
      { ptr := 8, callback := .user 9 [] } (.OTHER 1 1) (by decide) (by decide)).1,
   by decide⟩

end Wocky
